import Mathlib

/-!
# 2D robot simulator: collision engine, simulation tick and layout loader

A shallow embedding of the simulation core of the Qt robot simulator
(`robot.cpp`, `obstacle.cpp`, `environment.cpp`, `simulationwidget.cpp`).

Conventions of the embedding

* A C++ `double` (`qreal`) is an exact rational number: rounding, infinities
  and NaN are not modelled.  A C++ `int` is an unbounded integer: signed
  overflow (undefined behaviour in C++) is not modelled.
* `std::vector<Robot*>` is a `List Robot`; every element is a separately
  allocated object, so pointer identity (`robot == this`,
  `robot == &GetControlledRobot()`) is identity of the position in the list.
  A null `controlledRobot` is `none`.
* Functions of Qt, libm and libstdc++ that the source calls but does not
  define (`qCos`, `qSin`, `qDegreesToRadians`, `M_PI_2`,
  `QPainterPath::intersects`, `std::stod`, `std::stoi`) are the fields of a
  parameter `Lib`.  General theorems hold for every `Lib`, under explicit
  hypotheses where a property of the library is needed; `refLib` is one
  concrete instance, used to evaluate the code on concrete inputs.  The stream
  inserters `operator<<(int)` and `operator<<(double)` that `SaveScene` calls
  are the fields of a parameter `Fmt`, with the instance `refFmt`.
* An exception that leaves a function of the source is the `.error` case of
  its result.
* `rand()` is an oracle `rand : Nat → Nat`; the state carries the number of
  calls made so far.
-/

set_option autoImplicit false

/-! ## Qt value types -/

/-- A point with `qreal` coordinates. -/
structure QPointF where
  x : ℚ
  y : ℚ
deriving DecidableEq, Repr

/-- A rectangle `QRectF(left, top, width, height)`. -/
structure QRectF where
  x : ℚ
  y : ℚ
  w : ℚ
  h : ℚ
deriving DecidableEq, Repr

/-- A `QPainterPath` holding the single figure that the source adds to it:
`addEllipse(rect)`, `addPolygon(points)` or `addRect(rect)`. -/
inductive QPainterPath where
  | ellipse (r : QRectF)
  | polygon (pts : List QPointF)
  | rect (r : QRectF)
deriving DecidableEq, Repr

/-- The exceptions `std::stod` and `std::stoi` can throw. -/
inductive StdException where
  | invalid_argument
  | out_of_range
deriving DecidableEq, Repr

/-- The library functions the source calls without defining them. -/
structure Lib where
  /-- `qDegreesToRadians(double)` -/
  qDegreesToRadians : ℚ → ℚ
  /-- `qCos(double)`, also `cos` of `<cmath>` -/
  qCos : ℚ → ℚ
  /-- `qSin(double)`, also `sin` of `<cmath>` -/
  qSin : ℚ → ℚ
  /-- The constant `M_PI_2` -/
  M_PI_2 : ℚ
  /-- `QPainterPath::intersects(const QPainterPath &)`: receiver first -/
  intersects : QPainterPath → QPainterPath → Bool
  /-- `std::stod(const std::string &)` -/
  stod : List Char → Except StdException ℚ
  /-- `std::stoi(const std::string &)` -/
  stoi : List Char → Except StdException ℤ

/-- The conversion `static_cast<int>(double)`: truncation toward zero. -/
def truncToInt (q : ℚ) : ℤ :=
  if 0 ≤ q then ⌊q⌋ else ⌈q⌉

/-- The C++ remainder `a % b` on `int`: truncated division. -/
def cppRem (a b : ℤ) : ℤ :=
  Int.tmod a b

/-! ## Obstacle (`obstacle.cpp`) -/

/-- The class `Obstacle`: its only data member is `position`. -/
structure Obstacle where
  position : QPointF
deriving DecidableEq, Repr

namespace Obstacle

/-- `Obstacle::create(pos)` -/
def create (pos : QPointF) : Obstacle :=
  ⟨pos⟩

/-- `Obstacle::getPosition()` -/
def getPosition (o : Obstacle) : QPointF :=
  o.position

/-- `Obstacle::boundingRect()` -/
def boundingRect (o : Obstacle) : QRectF :=
  ⟨o.position.x, o.position.y, 25, 25⟩

end Obstacle

/-! ## Robot (`robot.h`, `robot.cpp`) -/

/-- The data members of class `Robot`. -/
structure Robot where
  direction : ℤ
  position : QPointF
  enabled : Bool
  moveDistance : ℤ
  triangleBase : ℤ
deriving DecidableEq, Repr

namespace Robot

/-- `Robot::create(pos)`: the member initialisers of `robot.h` give
`direction = 0`, `enabled = true`, `moveDistance = 3`, `triangleBase = 40`. -/
def create (pos : QPointF) : Robot :=
  ⟨0, pos, true, 3, 40⟩

/-- `Robot::getPosition()` -/
def getPosition (r : Robot) : QPointF :=
  r.position

/-- `Robot::turn(angle)`: `direction += angle % 360;` -/
def turn (r : Robot) (angle : ℤ) : Robot :=
  { r with direction := r.direction + cppRem angle 360 }

/-- `Robot::angle()` -/
def angle (r : Robot) : ℤ :=
  r.direction

/-- `Robot::boundingRect()` -/
def boundingRect (r : Robot) : QRectF :=
  ⟨r.position.x - 12.5, r.position.y - 12.5, 25, 25⟩

/-- `Robot::isEnabled()` -/
def isEnabled (r : Robot) : Bool :=
  r.enabled

/-- `Robot::switchEnabled()` -/
def switchEnabled (r : Robot) : Robot :=
  if r.enabled then { r with enabled := false } else { r with enabled := true }

/-- `Robot::getBase()` -/
def getBase (r : Robot) : ℤ :=
  r.triangleBase

/-- `Robot::setBase(double size)`: the assignment to the `int` member
truncates. -/
def setBase (r : Robot) (size : ℚ) : Robot :=
  { r with triangleBase := truncToInt size }

/-- `Robot::move()`: returns `true` and the robot after
`position += QPointF(dx, dy)`. -/
def move (L : Lib) (r : Robot) : Bool × Robot :=
  let dx : ℚ := (r.moveDistance : ℚ) * L.qCos (L.qDegreesToRadians (r.direction : ℚ))
  let dy : ℚ := -(r.moveDistance : ℚ) * L.qSin (L.qDegreesToRadians (r.direction : ℚ))
  (true, { r with position := ⟨r.position.x + dx, r.position.y + dy⟩ })

/-- The local `radians` of `Robot::canMove`. -/
def radians (L : Lib) (r : Robot) : ℚ :=
  L.qDegreesToRadians (r.direction : ℚ)

/-- The local `nextX` of `Robot::canMove` (lines 75 and 80). -/
def nextX (L : Lib) (r : Robot) : ℚ :=
  r.position.x + (truncToInt ((r.moveDistance : ℚ) * L.qCos (radians L r)) : ℚ)

/-- The local `nextY` of `Robot::canMove` (lines 76 and 81). -/
def nextY (L : Lib) (r : Robot) : ℚ :=
  r.position.y - (truncToInt ((r.moveDistance : ℚ) * L.qSin (radians L r)) : ℚ)

/-- The local `offset` of `Robot::canMove`: `triangleBase / 2.2`. -/
def offset (r : Robot) : ℚ :=
  (r.triangleBase : ℚ) / 2.2

/-- The local `triangleLeftX` of `Robot::canMove`. -/
def triangleLeftX (L : Lib) (r : Robot) : ℚ :=
  nextX L r + (truncToInt ((r.triangleBase : ℚ) * L.qCos (radians L r)) : ℚ)
    + (truncToInt (offset r * L.qCos (radians L r - L.M_PI_2)) : ℚ)

/-- The local `triangleLeftY` of `Robot::canMove`. -/
def triangleLeftY (L : Lib) (r : Robot) : ℚ :=
  nextY L r - (truncToInt ((r.triangleBase : ℚ) * L.qSin (radians L r)) : ℚ)
    - (truncToInt (offset r * L.qSin (radians L r - L.M_PI_2)) : ℚ)

/-- The local `triangleRightX` of `Robot::canMove`. -/
def triangleRightX (L : Lib) (r : Robot) : ℚ :=
  nextX L r + (truncToInt ((r.triangleBase : ℚ) * L.qCos (radians L r)) : ℚ)
    + (truncToInt (offset r * L.qCos (radians L r + L.M_PI_2)) : ℚ)

/-- The local `triangleRightY` of `Robot::canMove`. -/
def triangleRightY (L : Lib) (r : Robot) : ℚ :=
  nextY L r - (truncToInt ((r.triangleBase : ℚ) * L.qSin (radians L r)) : ℚ)
    - (truncToInt (offset r * L.qSin (radians L r + L.M_PI_2)) : ℚ)

/-- The local `robotPath` of `Robot::canMove`: the ellipse inscribed in
`QRectF(nextX-13, nextY-13, 26, 26)`. -/
def robotPath (L : Lib) (r : Robot) : QPainterPath :=
  .ellipse ⟨nextX L r - 13, nextY L r - 13, 26, 26⟩

/-- The local `trianglePath` of `Robot::canMove`: the polygon
`point1, point2, point3`. -/
def trianglePath (L : Lib) (r : Robot) : QPainterPath :=
  .polygon [⟨triangleLeftX L r, triangleLeftY L r⟩,
            ⟨triangleRightX L r, triangleRightY L r⟩,
            ⟨nextX L r, nextY L r⟩]

/-- The first `if` of `Robot::canMove` (line 83): true when the function
returns false there. -/
def footprintOutside (L : Lib) (r : Robot) (size : QPointF) : Bool :=
  decide (nextX L r + 12.5 ≥ size.x) || decide (nextX L r - 12.5 < 0)
    || decide (nextY L r + 12.5 ≥ size.y) || decide (nextY L r - 12.5 < 0)

/-- The second `if` of `Robot::canMove` (lines 113 to 116): true when the
function returns false there. -/
def wedgeOutside (L : Lib) (r : Robot) (size : QPointF) : Bool :=
  decide (triangleLeftX L r < 0) || decide (triangleLeftX L r ≥ size.x)
    || decide (triangleLeftY L r < 0) || decide (triangleLeftY L r ≥ size.y)
    || decide (triangleRightX L r < 0) || decide (triangleRightX L r ≥ size.x)
    || decide (triangleRightY L r < 0) || decide (triangleRightY L r ≥ size.y)

/-- The loop `for (auto robot : robots)` of `Robot::canMove` from the element
with index `k` on: true when some iteration executes `return false`.  The
element whose index is `self` is the object `this` and is skipped. -/
def robotLoop (L : Lib) (rp tp : QPainterPath) (self : ℕ) : List Robot → ℕ → Bool
  | [], _ => false
  | robot :: rest, k =>
    if k = self then robotLoop L rp tp self rest (k + 1)
    else if L.intersects (.ellipse robot.boundingRect) rp
          || L.intersects (.ellipse robot.boundingRect) tp then true
    else robotLoop L rp tp self rest (k + 1)

/-- The loop `for (auto obstacle : obstacles)` of `Robot::canMove`: true when
some iteration executes `return false`. -/
def obstacleLoop (L : Lib) (rp tp : QPainterPath) : List Obstacle → Bool
  | [] => false
  | obstacle :: rest =>
    if L.intersects (.rect obstacle.boundingRect) rp
        || L.intersects (.rect obstacle.boundingRect) tp then true
    else obstacleLoop L rp tp rest

/-- The body of `Robot::canMove` for the object `r` that stands at index
`self` of `robots`. -/
def canMoveAt (L : Lib) (r : Robot) (self : ℕ) (robots : List Robot)
    (obstacles : List Obstacle) (size : QPointF) : Bool :=
  if footprintOutside L r size then false
  else if wedgeOutside L r size then false
  else if robotLoop L (robotPath L r) (trianglePath L r) self robots 0 then false
  else if obstacleLoop L (robotPath L r) (trianglePath L r) obstacles then false
  else true

/-- `Robot::canMove(robots, obstacles, size)` called on the element of
`robots` with index `self`.  Every call in the source is made on an element of
the list it passes, so the branch for an index outside the list is never
taken. -/
def canMove (L : Lib) (robots : List Robot) (obstacles : List Obstacle)
    (size : QPointF) (self : ℕ) : Bool :=
  match robots[self]? with
  | none => false
  | some r => canMoveAt L r self robots obstacles size

end Robot

/-! ## Environment (`environment.h`, `environment.cpp`) -/

/-- The data members of class `Environment`.  `controlledRobot` is the index
in `robots` of the object the pointer designates. -/
structure Environment where
  size : QPointF
  controlledRobot : Option ℕ
  robots : List Robot
  obstacles : List Obstacle
deriving DecidableEq, Repr

namespace Environment

/-- The constructor `Environment::Environment(size)`. -/
def create (size : QPointF) : Environment :=
  ⟨size, none, [], []⟩

/-- `Environment::CreateObstacle(pos)` -/
def CreateObstacle (env : Environment) (pos : QPointF) : Bool × Environment :=
  (true, { env with obstacles := env.obstacles ++ [Obstacle.create pos] })

/-- `Environment::GetSize()` -/
def GetSize (env : Environment) : QPointF :=
  env.size

end Environment

/-! ## Simulation tick (`simulationwidget.cpp`) -/

namespace SimulationWidget

/-- The state a tick works on: the environment and the number of calls of
`rand()` made so far. -/
structure SimState where
  environment : Environment
  randCalls : ℕ
deriving DecidableEq, Repr

/-- One iteration of the loop of `SimulationWidget::simulate`, for the element
of `GetRobots()` with index `i`. -/
def simulateRobot (L : Lib) (rand : ℕ → ℕ) (s : SimState) (i : ℕ) : SimState :=
  match s.environment.robots[i]? with
  | none => s
  | some robot =>
    if !robot.isEnabled || s.environment.controlledRobot = some i then s
    else if Robot.canMove L s.environment.robots s.environment.obstacles
        s.environment.GetSize i then
      { s with environment :=
          { s.environment with robots := s.environment.robots.set i (robot.move L).2 } }
    else
      { environment :=
          { s.environment with
            robots := s.environment.robots.set i
              (robot.turn (cppRem (rand s.randCalls : ℤ) 360 + 1)) }
        randCalls := s.randCalls + 1 }

/-- The state of a tick after the first `n` robots have been processed. -/
def simulatePrefix (L : Lib) (rand : ℕ → ℕ) (s : SimState) (n : ℕ) : SimState :=
  (List.range n).foldl (simulateRobot L rand) s

/-- `SimulationWidget::simulate()`: the loop over `GetRobots()`; the repaint
that follows it leaves the environment alone. -/
def simulate (L : Lib) (rand : ℕ → ℕ) (s : SimState) : SimState :=
  simulatePrefix L rand s s.environment.robots.length

/-- The state after `n` ticks. -/
def simulateTicks (L : Lib) (rand : ℕ → ℕ) (s : SimState) : ℕ → SimState
  | 0 => s
  | n + 1 => simulate L rand (simulateTicks L rand s n)

end SimulationWidget

/-! ## Layout loader (`environment.cpp`) -/

/-- A `std::ifstream`: whether it is open and the characters not yet read. -/
structure IfStream where
  isOpen : Bool
  content : List Char
deriving DecidableEq, Repr

/-- `std::getline(stream, line, delim)` on the unread characters: `none` when
nothing can be extracted (the stream is at its end, the call fails), otherwise
the line without its delimiter and the characters left. -/
def getline (delim : Char) : List Char → Option (List Char × List Char)
  | [] => none
  | c :: cs =>
    if c = delim then some ([], cs)
    else
      match getline delim cs with
      | none => some ([c], [])
      | some (line, rest) => some (c :: line, rest)

/-- The loop `while (std::getline(ss, token, ',')) tokens.push_back(token);`
run for at most `fuel` iterations. -/
def readTokens : ℕ → List Char → List (List Char)
  | 0, _ => []
  | fuel + 1, ss =>
    match getline ',' ss with
    | none => []
    | some (token, rest) => token :: readTokens fuel rest

/-- The vector `tokens` built from `line`: every successful `getline` except
possibly the last consumes a character, so `line.length + 1` iterations
exhaust the string stream. -/
def tokensOf (line : List Char) : List (List Char) :=
  readTokens (line.length + 1) line

/-- The test `line.find("ENV") == 0`. -/
def findENVatZero (line : List Char) : Bool :=
  line.take 3 == ['E', 'N', 'V']

/-- The call `std::getline(stream, line)` with the default delimiter. -/
def getlineNL (s : List Char) : Option (List Char × List Char) :=
  getline '\n' s

namespace IfStream

/-- `std::getline(file, line)` on a file stream: a closed stream fails. -/
def getline (f : IfStream) : Option (List Char) × IfStream :=
  if f.isOpen then
    match getlineNL f.content with
    | none => (none, f)
    | some (line, rest) => (some line, { f with content := rest })
  else (none, f)

end IfStream

namespace Environment

/-- `Environment::LoadEnvironment(file)`: the returned pointer (`none` for
`nullptr`) and the stream after the call, or the exception that `std::stod`
threw.  The model evaluates `std::stod(x)` before `std::stod(y)`. -/
def LoadEnvironment (L : Lib) (file : IfStream) :
    Except StdException (Option Environment × IfStream) :=
  if !file.isOpen then .ok (none, file)
  else
    let file1 := (file.getline).2
    match file1.getline with
    | (some line, file2) =>
      if findENVatZero line then
        let tokens := tokensOf line
        if tokens.length ≥ 3 then
          match L.stod (tokens.getD 1 []), L.stod (tokens.getD 2 []) with
          | .ok x, .ok y => .ok (some (Environment.create ⟨x, y⟩), file2)
          | .error e, _ => .error e
          | .ok _, .error e => .error e
        else .ok (none, file2)
      else .ok (none, file2)
    | (none, file2) => .ok (none, file2)

/-- One iteration of the `while` loop of `Environment::LoadObjects` on the
line just read: `.ok (env, true)` when the loop goes on, `.ok (env, false)`
when the function returns false there, `.error` when `std::stoi` throws. -/
def loadLine (L : Lib) (env : Environment) (line : List Char) :
    Except StdException (Environment × Bool) :=
  let tokens := tokensOf line
  if tokens.length ≥ 3 then
    match L.stoi (tokens.getD 1 []) with
    | .error e => .error e
    | .ok x =>
      match L.stoi (tokens.getD 2 []) with
      | .error e => .error e
      | .ok y =>
        if tokens.getD 0 [] = ['O'] ∧ tokens.length = 3 then
          .ok ({ env with obstacles := env.obstacles ++ [Obstacle.create ⟨x, y⟩] }, true)
        else if tokens.getD 0 [] = ['R'] ∧ tokens.length = 4 then
          match L.stoi (tokens.getD 3 []) with
          | .error e => .error e
          | .ok a =>
            .ok ({ env with
                    robots := env.robots ++ [(Robot.create ⟨x, y⟩).turn (Int.tdiv a 45)] },
                 true)
        else .ok (env, false)
  else .ok (env, false)

/-- The `while` loop of `Environment::LoadObjects` run for at most `fuel`
lines: the environment reached and the value returned. -/
def loadObjectsLoop (L : Lib) : ℕ → Environment → IfStream →
    Except StdException (Environment × Bool)
  | 0, env, _ => .ok (env, true)
  | fuel + 1, env, file =>
    match file.getline with
    | (none, _) => .ok (env, true)
    | (some line, file1) =>
      match loadLine L env line with
      | .error e => .error e
      | .ok (env1, false) => .ok (env1, false)
      | .ok (env1, true) => loadObjectsLoop L fuel env1 file1

/-- `Environment::LoadObjects(file)`: every successful `getline` on a
non-empty stream consumes a character, so `content.length + 1` iterations
reach the end of the file. -/
def LoadObjects (L : Lib) (env : Environment) (file : IfStream) :
    Except StdException (Environment × Bool) :=
  loadObjectsLoop L (file.content.length + 1) env file

end Environment

/-! ## A reference instance of the library

Plane geometry is exact over the rationals; the trigonometric functions are a
rational approximation that lies exactly on the unit circle, is exact at the
multiples of 90 degrees and is accurate to about `2e-3` elsewhere. -/

namespace Geometry

/-- The squared distance of two points. -/
def sqDist (p q : QPointF) : ℚ :=
  (p.x - q.x) ^ 2 + (p.y - q.y) ^ 2

/-- The centre of a rectangle: the centre of the ellipse inscribed in it. -/
def centre (r : QRectF) : QPointF :=
  ⟨r.x + r.w / 2, r.y + r.h / 2⟩

/-- The radius of the circle inscribed in a square: half its width. -/
def radius (r : QRectF) : ℚ :=
  r.w / 2

/-- The four corners of a rectangle, in order around it. -/
def corners (r : QRectF) : List QPointF :=
  [⟨r.x, r.y⟩, ⟨r.x + r.w, r.y⟩, ⟨r.x + r.w, r.y + r.h⟩, ⟨r.x, r.y + r.h⟩]

/-- Twice the signed area of the triangle `a b c`. -/
def cross (a b c : QPointF) : ℚ :=
  (b.x - a.x) * (c.y - a.y) - (b.y - a.y) * (c.x - a.x)

/-- The edges of the closed polygon through `pts`: consecutive points, and
the last point joined to the first. -/
def edges (pts : List QPointF) : List (QPointF × QPointF) :=
  match pts with
  | [] => []
  | p :: rest => (p :: rest).zip (rest ++ [p])

/-- The squared distance from `p` to the segment `a b`. -/
def sqDistSegment (p a b : QPointF) : ℚ :=
  let len2 := sqDist a b
  if len2 = 0 then sqDist p a
  else
    let t := ((p.x - a.x) * (b.x - a.x) + (p.y - a.y) * (b.y - a.y)) / len2
    let t1 := max 0 (min 1 t)
    sqDist p ⟨a.x + t1 * (b.x - a.x), a.y + t1 * (b.y - a.y)⟩

/-- Whether `p` lies in the closed convex polygon `pts`: it is on the same
side of every edge. -/
def inConvex (p : QPointF) (pts : List QPointF) : Bool :=
  pts ≠ [] &&
    ((edges pts).all (fun e => decide (0 ≤ cross e.1 e.2 p))
      || (edges pts).all (fun e => decide (cross e.1 e.2 p ≤ 0)))

/-- Whether `p`, known to be collinear with `a b`, lies in the bounding box of
the segment. -/
def inBox (a b p : QPointF) : Bool :=
  decide (min a.x b.x ≤ p.x) && decide (p.x ≤ max a.x b.x)
    && decide (min a.y b.y ≤ p.y) && decide (p.y ≤ max a.y b.y)

/-- Whether the closed segments `a b` and `c d` meet. -/
def segmentsMeet (a b c d : QPointF) : Bool :=
  let d1 := cross c d a
  let d2 := cross c d b
  let d3 := cross a b c
  let d4 := cross a b d
  (decide (d1 * d2 < 0) && decide (d3 * d4 < 0))
    || (decide (d1 = 0) && inBox c d a) || (decide (d2 = 0) && inBox c d b)
    || (decide (d3 = 0) && inBox a b c) || (decide (d4 = 0) && inBox a b d)

/-- Whether the closed disc of centre `c` and radius `r` meets the closed
convex polygon `pts`. -/
def discMeetsConvex (c : QPointF) (r : ℚ) (pts : List QPointF) : Bool :=
  inConvex c pts || (edges pts).any (fun e => decide (sqDistSegment c e.1 e.2 ≤ r ^ 2))

/-- Whether two closed convex polygons meet. -/
def convexMeet (ps qs : List QPointF) : Bool :=
  (edges ps).any (fun e => (edges qs).any (fun f => segmentsMeet e.1 e.2 f.1 f.2))
    || ps.any (fun p => inConvex p qs) || qs.any (fun q => inConvex q ps)

/-- Whether two closed discs meet. -/
def discsMeet (c1 : QPointF) (r1 : ℚ) (c2 : QPointF) (r2 : ℚ) : Bool :=
  decide (sqDist c1 c2 ≤ (r1 + r2) ^ 2)

/-- Modelled from the spec: `QPainterPath::intersects`, a function of Qt.
The spec says "Geometric intersection is area/path intersection
(ellipse-vs-ellipse, ellipse-vs-polygon, polygon-vs-rect), not mere
bounding-box overlap": the two figures, taken as closed areas, share a point.
Every ellipse the source builds is inscribed in a square, so an ellipse is
taken as the circle of its rectangle's centre and half its width; every
polygon the source builds is a triangle, so polygons are taken as convex. -/
def intersects : QPainterPath → QPainterPath → Bool
  | .ellipse a, .ellipse b => discsMeet (centre a) (radius a) (centre b) (radius b)
  | .ellipse a, .polygon ps => discMeetsConvex (centre a) (radius a) ps
  | .ellipse a, .rect b => discMeetsConvex (centre a) (radius a) (corners b)
  | .polygon ps, .ellipse b => discMeetsConvex (centre b) (radius b) ps
  | .polygon ps, .polygon qs => convexMeet ps qs
  | .polygon ps, .rect b => convexMeet ps (corners b)
  | .rect a, .ellipse b => discMeetsConvex (centre b) (radius b) (corners a)
  | .rect a, .polygon qs => convexMeet (corners a) qs
  | .rect a, .rect b => convexMeet (corners a) (corners b)

end Geometry

namespace RefTrig

/-- The rational taken for pi: the decimal expansion of the `double` `M_PI`. -/
def piQ : ℚ :=
  3.141592653589793

/-- Radians to degrees. -/
def degrees (r : ℚ) : ℚ :=
  r * 180 / piQ

/-- An angle in degrees reduced to the range `0 ≤ x < 360`. -/
def reduce360 (x : ℚ) : ℚ :=
  x - 360 * (⌊x / 360⌋ : ℚ)

/-- Bhaskara's rational approximation of the sine of `x` degrees, for
`0 ≤ x ≤ 180`; exact at 0, 30, 90, 150 and 180 degrees. -/
def bhaskara (x : ℚ) : ℚ :=
  4 * x * (180 - x) / (40500 - x * (180 - x))

/-- An approximate sine of `x` degrees. -/
def sinDeg (x : ℚ) : ℚ :=
  if reduce360 x ≤ 180 then bhaskara (reduce360 x) else -bhaskara (reduce360 x - 180)

/-- An approximate cosine of `x` degrees. -/
def cosDeg (x : ℚ) : ℚ :=
  sinDeg (x + 90)

/-- An approximate tangent of half of `x` degrees. -/
def tanHalf (x : ℚ) : ℚ :=
  sinDeg x / (1 + cosDeg x)

/-- The cosine of `r` radians: the point of the unit circle with half-angle
tangent `tanHalf`. -/
def cos (r : ℚ) : ℚ :=
  if reduce360 (degrees r) = 180 then -1
  else (1 - tanHalf (degrees r) ^ 2) / (1 + tanHalf (degrees r) ^ 2)

/-- The sine of `r` radians: the point of the unit circle with half-angle
tangent `tanHalf`. -/
def sin (r : ℚ) : ℚ :=
  if reduce360 (degrees r) = 180 then 0
  else 2 * tanHalf (degrees r) / (1 + tanHalf (degrees r) ^ 2)

end RefTrig

namespace RefParse

/-- The test `isspace(c)` of the C locale. -/
def isSpace (c : Char) : Bool :=
  c = ' ' || c = '\t' || c = '\n' || c = '\r' || c.toNat = 11 || c.toNat = 12

/-- The longest prefix of decimal digits, as numbers, and what follows it. -/
def takeDigits : List Char → List ℕ × List Char
  | [] => ([], [])
  | c :: cs =>
    if c.isDigit then ((c.toNat - 48) :: (takeDigits cs).1, (takeDigits cs).2)
    else ([], c :: cs)

/-- The number written by a list of decimal digits. -/
def natOfDigits (ds : List ℕ) : ℕ :=
  ds.foldl (fun acc d => 10 * acc + d) 0

/-- An optional sign: whether it is a minus, and what follows it. -/
def takeSign : List Char → Bool × List Char
  | '-' :: cs => (true, cs)
  | '+' :: cs => (false, cs)
  | cs => (false, cs)

/-- `std::stoi(s)` in base 10: leading white space, an optional sign and the
longest run of digits; `invalid_argument` without a digit, `out_of_range`
outside the 32-bit `int`. -/
def stoi (s : List Char) : Except StdException ℤ :=
  let (neg, rest) := takeSign (s.dropWhile isSpace)
  let ds := (takeDigits rest).1
  if ds = [] then .error .invalid_argument
  else
    let v : ℤ := if neg then -(natOfDigits ds : ℤ) else (natOfDigits ds : ℤ)
    if v < -2147483648 ∨ 2147483647 < v then .error .out_of_range else .ok v

/-- The exponent part of a decimal floating literal: `e` or `E`, an optional
sign and at least one digit; `0` when there is none. -/
def takeExponent : List Char → ℤ
  | c :: cs =>
    if c = 'e' ∨ c = 'E' then
      let (neg, rest) := takeSign cs
      let ds := (takeDigits rest).1
      if ds = [] then 0 else if neg then -(natOfDigits ds : ℤ) else (natOfDigits ds : ℤ)
    else 0
  | [] => 0

/-- `std::stod(s)` for decimal notation: leading white space, an optional
sign, digits with an optional point and an optional exponent;
`invalid_argument` without a digit.  Hexadecimal notation, `inf` and `nan`
have no rational value and are not covered, nor is `out_of_range`. -/
def stod (s : List Char) : Except StdException ℚ :=
  let (neg, rest) := takeSign (s.dropWhile isSpace)
  let (ip, r1) := takeDigits rest
  let (fp, r2) :=
    match r1 with
    | '.' :: r => takeDigits r
    | r => ([], r)
  if ip = [] ∧ fp = [] then .error .invalid_argument
  else
    let m : ℚ := (natOfDigits (ip ++ fp) : ℚ) / (10 : ℚ) ^ fp.length
    let e := takeExponent r2
    let v : ℚ := if 0 ≤ e then m * (10 : ℚ) ^ e.toNat else m / (10 : ℚ) ^ (-e).toNat
    .ok (if neg then -v else v)

end RefParse

/-- The reference instance of the library. -/
def refLib : Lib where
  qDegreesToRadians := fun d => d * (RefTrig.piQ / 180)
  qCos := RefTrig.cos
  qSin := RefTrig.sin
  M_PI_2 := RefTrig.piQ / 2
  intersects := Geometry.intersects
  stod := RefParse.stod
  stoi := RefParse.stoi

/-! ## The frame of a tick -/

/-- What a tick leaves alone between the states `s` and `t`: arena size,
controlled-robot selection, obstacle list and number of robots; and for the
robot at every index its enabled flag, wedge length and move distance, and the
whole robot when it is disabled or controlled. -/
def SimulationWidget.Frame (s t : SimulationWidget.SimState) : Prop :=
  t.environment.size = s.environment.size
    ∧ t.environment.controlledRobot = s.environment.controlledRobot
    ∧ t.environment.obstacles = s.environment.obstacles
    ∧ t.environment.robots.length = s.environment.robots.length
    ∧ ∀ j r, s.environment.robots[j]? = some r →
        ∃ r', t.environment.robots[j]? = some r'
          ∧ r'.enabled = r.enabled ∧ r'.triangleBase = r.triangleBase
          ∧ r'.moveDistance = r.moveDistance
          ∧ ((r.enabled = false ∨ s.environment.controlledRobot = some j) → r' = r)

/-! ## Predicates of the specification -/

/-- The robot's circular footprint of radius 12.5 around the prospective
centre, as the specification describes it: the ellipse inscribed in the
25 by 25 square centred on `(nextX, nextY)`. -/
def Robot.footprintPath (L : Lib) (r : Robot) : QPainterPath :=
  .ellipse ⟨Robot.nextX L r - 12.5, Robot.nextY L r - 12.5, 25, 25⟩

/-- No robot of `robots` other than the one at index `self` has a circular
footprint that intersects `circle` or `wedge`, and no obstacle's square
intersects them. -/
def Robot.ClearOf (L : Lib) (circle wedge : QPainterPath) (self : ℕ)
    (robots : List Robot) (obstacles : List Obstacle) : Prop :=
  (∀ j rj, j ≠ self → robots[j]? = some rj →
      L.intersects (.ellipse rj.boundingRect) circle = false
        ∧ L.intersects (.ellipse rj.boundingRect) wedge = false)
    ∧ (∀ o ∈ obstacles,
      L.intersects (.rect o.boundingRect) circle = false
        ∧ L.intersects (.rect o.boundingRect) wedge = false)

/-- The figure `fig` intersects the footprint of a robot of `robots` other
than the one at index `self`, or the footprint of an obstacle. -/
def Robot.Hits (L : Lib) (fig : QPainterPath) (self : ℕ)
    (robots : List Robot) (obstacles : List Obstacle) : Prop :=
  (∃ j rj, j ≠ self ∧ robots[j]? = some rj
      ∧ L.intersects (.ellipse rj.boundingRect) fig = true)
    ∨ (∃ o ∈ obstacles, L.intersects (.rect o.boundingRect) fig = true)

/-- The cosine and the sine of the library lie in `[-1, 1]` and are never
both of modulus one; this holds of the real functions and of their IEEE
implementations. -/
def Lib.TrigSane (L : Lib) : Prop :=
  ∀ x, |L.qCos x| ≤ 1 ∧ |L.qSin x| ≤ 1 ∧ L.qCos x ^ 2 + L.qSin x ^ 2 < 2

/-- The library's `intersects` reports two circles whose centres are closer
than the sum of their radii. -/
def Lib.DetectsDiscOverlap (L : Lib) : Prop :=
  ∀ a b : QRectF, a.w = a.h → b.w = b.h → 0 < a.w → 0 < b.w →
    Geometry.sqDist (Geometry.centre a) (Geometry.centre b) < ((a.w + b.w) / 2) ^ 2 →
    L.intersects (.ellipse a) (.ellipse b) = true

/-- The closed disc of radius 12.5 around `c` and the closed square with
corners `(40,40)` and `(65,65)` share the point `p`. -/
def overlapsObstacleSquareAt (c p : QPointF) : Prop :=
  (p.x - c.x) ^ 2 + (p.y - c.y) ^ 2 ≤ 12.5 ^ 2
    ∧ 40 ≤ p.x ∧ p.x ≤ 65 ∧ 40 ≤ p.y ∧ p.y ≤ 65

/-! ## Concrete inputs -/

/-- The robot of the scenario: at `(10,10)`, heading 0, enabled, move
distance 3, wedge length 40. -/
def cornerRobot : Robot :=
  ⟨0, ⟨10, 10⟩, true, 3, 40⟩

/-- A robot at `(50,50)` with heading 0: its prospective centre is `(53,50)`
and its wedge points away from `behindRobot`. -/
def frontRobot : Robot :=
  ⟨0, ⟨50, 50⟩, true, 3, 40⟩

/-- A robot whose centre is 25.3 to the left of the prospective centre of
`frontRobot`: farther than two radii of 12.5, closer than 12.5 + 13. -/
def behindRobot : Robot :=
  ⟨0, ⟨27.7, 50⟩, true, 3, 40⟩

/-- The robot of the scenario after turns: at `(10,10)` with heading `d`,
enabled, move distance 3, wedge length 40. -/
def scenarioRobot (d : ℤ) : Robot :=
  ⟨d, ⟨10, 10⟩, true, 3, 40⟩

/-- The environment of the scenario: arena 100 by 100, no controlled robot,
the robot at `(10,10)` with heading `d`, one obstacle at `(40,40)`. -/
def scenarioEnvironment (d : ℤ) : Environment :=
  ⟨⟨100, 100⟩, none, [scenarioRobot d], [⟨⟨40, 40⟩⟩]⟩

/-- A state with `frontRobot` alone in a 200 by 200 arena. -/
def aloneState : SimulationWidget.SimState :=
  ⟨⟨⟨200, 200⟩, none, [frontRobot], []⟩, 0⟩

/-- A state with `frontRobot`, the disabled `behindRobot` close behind it and
an obstacle, in a 200 by 200 arena. -/
def pairState : SimulationWidget.SimState :=
  ⟨⟨⟨200, 200⟩, none, [frontRobot, behindRobot.switchEnabled], [⟨⟨150, 150⟩⟩]⟩, 0⟩

/-- The number of comma-separated fields of a line: one more than its number
of commas. -/
def fieldCount (line : List Char) : ℕ :=
  line.count ',' + 1

/-- The header line that `SaveScene` writes. -/
def headerLine : List Char :=
  "Type, row, col, angle(robot)".toList

/-! ## Robot selection and manual control -/

namespace Environment

/-- `Environment::GetRobots()` -/
def GetRobots (env : Environment) : List Robot :=
  env.robots

/-- `Environment::GetObstacles()` -/
def GetObstacles (env : Environment) : List Obstacle :=
  env.obstacles

/-- `Environment::GetControlledRobot()`: the address of the object the
reference designates, as its index in `robots`; `none` for the null pointer
(the callers only take the address of the result and compare it). -/
def GetControlledRobot (env : Environment) : Option ℕ :=
  env.controlledRobot

/-- `Environment::SetControlledRobot(number)`.  For `number` outside
`0 .. robots.size()` the source indexes the vector out of bounds, which is
undefined behaviour: the model has no result there. -/
def SetControlledRobot (env : Environment) (number : ℤ) : Option Environment :=
  if number = 0 then some { env with controlledRobot := none }
  else if 1 ≤ number ∧ number ≤ env.robots.length then
    some { env with controlledRobot := some (number - 1).toNat }
  else none

/-- `Environment::GetRobotByNumber(number)`: `*robots[number-1]`.  For
`number` outside `1 .. robots.size()` the source indexes the vector out of
bounds, which is undefined behaviour: the model has no result there. -/
def GetRobotByNumber (env : Environment) (number : ℤ) : Option Robot :=
  if 1 ≤ number ∧ number ≤ env.robots.length then env.robots[(number - 1).toNat]?
  else none

end Environment

namespace SimulationWidget

/-- `SimulationWidget::forwardMove()` on the widget's environment. -/
def forwardMove (L : Lib) (env : Environment) : Environment :=
  match env.GetControlledRobot with
  | none => env
  | some c =>
    if !Robot.canMove L env.GetRobots env.GetObstacles env.GetSize c then env
    else
      match env.robots[c]? with
      | none => env
      | some robot => { env with robots := env.robots.set c (robot.move L).2 }

/-- `SimulationWidget::leftRotate()` on the widget's environment. -/
def leftRotate (env : Environment) : Environment :=
  match env.GetControlledRobot with
  | none => env
  | some c =>
    match env.robots[c]? with
    | none => env
    | some robot => { env with robots := env.robots.set c (robot.turn 10) }

/-- `SimulationWidget::rightRotate()` on the widget's environment. -/
def rightRotate (env : Environment) : Environment :=
  match env.GetControlledRobot with
  | none => env
  | some c =>
    match env.robots[c]? with
    | none => env
    | some robot => { env with robots := env.robots.set c (robot.turn (-10)) }

end SimulationWidget

/-! ## Saving a scene (`customgraphicsscene.cpp`) -/

/-- The stream inserters the source calls without defining them. -/
structure Fmt where
  /-- `std::ostream::operator<<(int)` -/
  int : ℤ → List Char
  /-- `std::ostream::operator<<(double)` -/
  double : ℚ → List Char

/-- The data members of class `CustomGraphicsScene` that `SaveScene` reads. -/
structure CustomGraphicsScene where
  width : ℤ
  height : ℤ
  obstacles : List Obstacle
  robots : List Robot
deriving DecidableEq, Repr

namespace CustomGraphicsScene

/-- The line `SaveScene` writes for an obstacle, without its `std::endl`. -/
def obstacleLine (F : Fmt) (o : Obstacle) : List Char :=
  "O,".toList ++ F.double (o.getPosition.x - 12.5) ++ ",".toList
    ++ F.double (o.getPosition.y - 12.5)

/-- The line `SaveScene` writes for a robot, without its `std::endl`. -/
def robotLine (F : Fmt) (r : Robot) : List Char :=
  "R,".toList ++ F.double r.getPosition.x ++ ",".toList ++ F.double r.getPosition.y
    ++ ",".toList ++ F.int r.angle

/-- The line `SaveScene` writes for the arena, without its `std::endl`. -/
def envLine (F : Fmt) (scene : CustomGraphicsScene) : List Char :=
  "ENV,".toList ++ F.int scene.width ++ ",".toList ++ F.int scene.height

/-- The lines `SaveScene` writes after the arena line: one per obstacle, then
one per robot. -/
def bodyLines (F : Fmt) (scene : CustomGraphicsScene) : List (List Char) :=
  scene.obstacles.map (obstacleLine F) ++ scene.robots.map (robotLine F)

/-- A list of lines, each followed by the newline of `std::endl`. -/
def unlinesNL : List (List Char) → List Char
  | [] => []
  | line :: rest => line ++ '\n' :: unlinesNL rest

/-- `CustomGraphicsScene::SaveScene(filePath)`: the text written to the
file. -/
def SaveScene (F : Fmt) (scene : CustomGraphicsScene) : List Char :=
  unlinesNL ("Type, row, col, angle(robot)".toList :: envLine F scene :: bodyLines F scene)

end CustomGraphicsScene

namespace RefFormat

/-- The decimal digits of `n`, most significant first, pushed in front of
`acc`; `fuel` bounds the number of digits. -/
def natDigitsAux : ℕ → ℕ → List Char → List Char
  | 0, _, acc => acc
  | fuel + 1, n, acc =>
    if n < 10 then Char.ofNat (48 + n) :: acc
    else natDigitsAux fuel (n / 10) (Char.ofNat (48 + n % 10) :: acc)

/-- The decimal numeral of `n`. -/
def natDigits (n : ℕ) : List Char :=
  natDigitsAux (n + 1) n []

/-- `operator<<(int)` with the default flags: the decimal numeral, with a
minus sign for a negative value. -/
def int (z : ℤ) : List Char :=
  if z < 0 then '-' :: natDigits z.natAbs else natDigits z.natAbs

/-- The decimal exponent of `a ≥ 1`: the least `e` with `a < 10 ^ (e + 1)`,
searched from `e` upwards. -/
def exponentUp (a : ℚ) : ℕ → ℕ → ℕ
  | 0, e => e
  | fuel + 1, e => if a < (10 : ℚ) ^ (e + 1) then e else exponentUp a fuel (e + 1)

/-- The decimal exponent of `0 < a < 1`, negated: the least `k` with
`1 ≤ a * 10 ^ k`, searched from `k` upwards. -/
def exponentDown (a : ℚ) : ℕ → ℕ → ℕ
  | 0, k => k
  | fuel + 1, k => if 1 ≤ a * (10 : ℚ) ^ k then k else exponentDown a fuel (k + 1)

/-- The decimal exponent `e` of `a > 0`: `10 ^ e ≤ a < 10 ^ (e + 1)`. -/
def exponent (a : ℚ) : ℤ :=
  if 1 ≤ a then (exponentUp a (a.num.natAbs + 1) 0 : ℤ)
  else -(exponentDown a (a.den + 1) 1 : ℤ)

/-- Rounding of `x ≥ 0` to the nearest natural number, ties to even. -/
def roundHalfEven (x : ℚ) : ℕ :=
  let f := ⌊x⌋.toNat
  if x - f < 1 / 2 then f
  else if 1 / 2 < x - f then f + 1
  else if f % 2 = 0 then f else f + 1

/-- The value `a * 10 ^ k` for an integer `k`. -/
def scale (a : ℚ) (k : ℤ) : ℚ :=
  if 0 ≤ k then a * (10 : ℚ) ^ k.toNat else a / (10 : ℚ) ^ (-k).toNat

/-- A digit string without its trailing zeros. -/
def stripZeros (ds : List Char) : List Char :=
  (ds.reverse.dropWhile (· = '0')).reverse

/-- A fraction part: nothing when empty, otherwise a point and the digits. -/
def fraction (ds : List Char) : List Char :=
  if ds = [] then [] else '.' :: ds

/-- The exponent part of scientific notation: `e`, a sign and at least two
digits. -/
def exponentPart (e : ℤ) : List Char :=
  'e' :: (if e < 0 then '-' else '+')
    :: (if e.natAbs < 10 then '0' :: natDigits e.natAbs else natDigits e.natAbs)

/-- The six significant digits and the decimal exponent of `a > 0` after
rounding. -/
def significand (a : ℚ) : ℕ × ℤ :=
  let e := exponent a
  let m := roundHalfEven (scale a (5 - e))
  if m = 1000000 then (100000, e + 1) else (m, e)

/-- `operator<<(double)` with the default flags (`%g` with precision 6) on a
positive value. -/
def positive (a : ℚ) : List Char :=
  let (m, e) := significand a
  let ds := natDigits m
  if e < -4 ∨ 6 ≤ e then
    ds.take 1 ++ fraction (stripZeros (ds.drop 1)) ++ exponentPart e
  else if 0 ≤ e then
    ds.take (e.toNat + 1) ++ fraction (stripZeros (ds.drop (e.toNat + 1)))
  else
    '0' :: '.' :: (List.replicate ((-e).toNat - 1) '0' ++ stripZeros ds)

/-- `operator<<(double)` with the default flags: `%g` with precision 6. -/
def double (q : ℚ) : List Char :=
  if q = 0 then ['0']
  else if q < 0 then '-' :: positive (-q)
  else positive q

end RefFormat

/-- The reference instance of the stream inserters. -/
def refFmt : Fmt where
  int := RefFormat.int
  double := RefFormat.double

/-! ## Reading a list of lines -/

namespace Environment

/-- The loop of `LoadObjects` over the lines of a file, one `loadLine` per
line, stopping at the first line that makes the function return false or
throw. -/
def loadLines (L : Lib) : Environment → List (List Char) →
    Except StdException (Environment × Bool)
  | env, [] => .ok (env, true)
  | env, line :: rest =>
    match loadLine L env line with
    | .error e => .error e
    | .ok (env1, false) => .ok (env1, false)
    | .ok (env1, true) => loadLines L env1 rest

end Environment

/-! ## Predicates on body lines -/

/-- The body line splits into exactly 3 tokens of which the first is `O`, or
into exactly 4 tokens of which the first is `R`.  The tokens are those of
`tokensOf`: the text after a final comma, being empty, is no token. -/
def wellFormedLine (line : List Char) : Prop :=
  ((tokensOf line).length = 3 ∧ (tokensOf line).getD 0 [] = ['O'])
    ∨ ((tokensOf line).length = 4 ∧ (tokensOf line).getD 0 [] = ['R'])

instance wellFormedLine.decidable (line : List Char) : Decidable (wellFormedLine line) := by
  unfold wellFormedLine
  infer_instance

/-- The coordinate and angle tokens of the line (the second, third and fourth
token, where present) are integers that `std::stoi` reads. -/
def integerFields (L : Lib) (line : List Char) : Prop :=
  ∀ k tok, 1 ≤ k → k ≤ 3 → (tokensOf line)[k]? = some tok → ∃ v, L.stoi tok = .ok v

/-- The first comma-separated field of a line: the text before its first
comma. -/
def firstField (line : List Char) : List Char :=
  line.takeWhile (· ≠ ',')

/-- The value `std::stoi` reads from `s`, and `0` where it throws. -/
def readInt (L : Lib) (s : List Char) : ℤ :=
  match L.stoi s with
  | .ok v => v
  | .error _ => 0

/-- The obstacle a body line describes: for a line of 3 tokens with tag `O`
whose coordinates `std::stoi` reads, the obstacle at those coordinates. -/
def obstacleOfLine (L : Lib) (line : List Char) : Option Obstacle :=
  match tokensOf line with
  | [tag, tx, ty] =>
    match L.stoi tx, L.stoi ty with
    | .ok x, .ok y => if tag = ['O'] then some ⟨⟨x, y⟩⟩ else none
    | _, _ => none
  | _ => none

/-- The robot a body line describes: for a line of 4 tokens with tag `R`
whose coordinates and angle `a` `std::stoi` reads, the enabled robot at those
coordinates with heading `(a / 45) rem 360`, move distance 3 and wedge
length 40. -/
def robotOfLine (L : Lib) (line : List Char) : Option Robot :=
  match tokensOf line with
  | [tag, tx, ty, ta] =>
    match L.stoi tx, L.stoi ty, L.stoi ta with
    | .ok x, .ok y, .ok a =>
      if tag = ['R'] then some ⟨Int.tmod (Int.tdiv a 45) 360, ⟨x, y⟩, true, 3, 40⟩ else none
    | _, _, _ => none
  | _ => none

/-- The line makes `LoadObjects` return false: it has fewer than 3 tokens, or
its coordinates are read and it is not well formed. -/
def malformedLine (L : Lib) (line : List Char) : Prop :=
  (tokensOf line).length < 3
    ∨ (¬ wellFormedLine line
        ∧ (∃ x, L.stoi ((tokensOf line).getD 1 []) = .ok x)
        ∧ (∃ y, L.stoi ((tokensOf line).getD 2 []) = .ok y))

/-- The environment after the entities that the lines of `pre` describe have
been appended to its lists, in the order of the lines. -/
def appendEntities (L : Lib) (env : Environment) (pre : List (List Char)) : Environment :=
  { env with
    obstacles := env.obstacles ++ pre.filterMap (obstacleOfLine L)
    robots := env.robots ++ pre.filterMap (robotOfLine L) }

/-- An environment with an arena of 100 by 100 and no entity. -/
def emptyEnvironment : Environment :=
  Environment.create ⟨100, 100⟩

deriving instance DecidableEq for Except

/-! ## Predicates on a saved scene -/

/-- A printed number that is one token of one line: it holds no comma, no
newline and at least one character. -/
def cleanField (s : List Char) : Prop :=
  ',' ∉ s ∧ '\n' ∉ s ∧ s ≠ []

/-- A printed number that is one token of one line and that `std::stoi`
reads. -/
def intField (L : Lib) (s : List Char) : Prop :=
  cleanField s ∧ ∃ v, L.stoi s = .ok v

/-- The obstacle `LoadObjects` builds from the line `SaveScene` writes for
`o`: its coordinates are what `std::stoi` reads from the printed
`x - 12.5` and `y - 12.5`. -/
def loadedObstacle (L : Lib) (F : Fmt) (o : Obstacle) : Obstacle :=
  ⟨⟨readInt L (F.double (o.position.x - 12.5)), readInt L (F.double (o.position.y - 12.5))⟩⟩

/-- The robot `LoadObjects` builds from the line `SaveScene` writes for `r`:
its coordinates are what `std::stoi` reads from the printed `x` and `y`, its
heading is `(a / 45) rem 360` for `a` read from the printed heading. -/
def loadedRobot (L : Lib) (F : Fmt) (r : Robot) : Robot :=
  ⟨Int.tmod (Int.tdiv (readInt L (F.int r.direction)) 45) 360,
    ⟨readInt L (F.double r.position.x), readInt L (F.double r.position.y)⟩, true, 3, 40⟩

/-- Every number `SaveScene` prints for the scene is one token of its line;
`std::stod` reads the printed width and height back, and `std::stoi` reads
every printed coordinate and heading. -/
def Readable (L : Lib) (F : Fmt) (scene : CustomGraphicsScene) : Prop :=
  (cleanField (F.int scene.width) ∧ L.stod (F.int scene.width) = .ok (scene.width : ℚ))
    ∧ (cleanField (F.int scene.height) ∧ L.stod (F.int scene.height) = .ok (scene.height : ℚ))
    ∧ (∀ o ∈ scene.obstacles,
        intField L (F.double (o.position.x - 12.5))
          ∧ intField L (F.double (o.position.y - 12.5)))
    ∧ (∀ r ∈ scene.robots,
        intField L (F.double r.position.x) ∧ intField L (F.double r.position.y)
          ∧ intField L (F.int r.direction))

/-- An editor scene of 800 by 600 with an obstacle at `(100,100)`, a robot at
`(200,150)` with heading 30 and a robot at `(100.5,50)` with heading 0. -/
def savedScene : CustomGraphicsScene :=
  ⟨800, 600, [⟨⟨100, 100⟩⟩], [⟨30, ⟨200, 150⟩, true, 3, 40⟩, ⟨0, ⟨100.5, 50⟩, true, 3, 40⟩]⟩

/-- An editor scene of 2000000 by 600 with one robot, at `(1234567,50)` with
heading 0. -/
def wideScene : CustomGraphicsScene :=
  ⟨2000000, 600, [], [⟨0, ⟨1234567, 50⟩, true, 3, 40⟩]⟩

/-- An environment with `frontRobot`, the disabled `behindRobot` and a third
robot far from both, in a 200 by 200 arena. -/
def threeRobots : Environment :=
  ⟨⟨200, 200⟩, none, [frontRobot, behindRobot.switchEnabled, ⟨90, ⟨150, 150⟩, true, 3, 40⟩], []⟩

/-! ## Further operations and predicates -/

/-- `Obstacle::paint(...)`: the body is empty, the object is left as it
is. -/
def Obstacle.paint (o : Obstacle) : Obstacle :=
  o

/-- The prospective centre that `Robot::canMove` tests: the point
`(nextX, nextY)` of its lines 75 to 81. -/
def Robot.prospectiveCentre (L : Lib) (r : Robot) : QPointF :=
  ⟨Robot.nextX L r, Robot.nextY L r⟩

/-- The robot after the calls `turn(d1)`, ..., `turn(dn)` in this order. -/
def Robot.turns (r : Robot) (deltas : List ℤ) : Robot :=
  deltas.foldl Robot.turn r

namespace SimulationWidget

/-- One robot of a two-phase tick: as `simulateRobot`, but `canMove` is
evaluated on `start`, the environment at the start of the tick. -/
def twoPhaseRobot (L : Lib) (rand : ℕ → ℕ) (start : Environment) (s : SimState) (i : ℕ) :
    SimState :=
  match s.environment.robots[i]? with
  | none => s
  | some robot =>
    if !robot.isEnabled || s.environment.controlledRobot = some i then s
    else if Robot.canMove L start.robots start.obstacles start.GetSize i then
      { s with environment :=
          { s.environment with robots := s.environment.robots.set i (robot.move L).2 } }
    else
      { environment :=
          { s.environment with
            robots := s.environment.robots.set i
              (robot.turn (cppRem (rand s.randCalls : ℤ) 360 + 1)) }
        randCalls := s.randCalls + 1 }

/-- The two-phase tick the design notes of the specification describe:
"compute all, then apply all".  `canMove` is evaluated for every robot on the
state at the start of the tick, then the moves and the turns are applied in
list order. -/
def simulateTwoPhase (L : Lib) (rand : ℕ → ℕ) (s : SimState) : SimState :=
  (List.range s.environment.robots.length).foldl (twoPhaseRobot L rand s.environment) s

/-! ## The timer of the simulation (`simulationwidget.cpp`) -/

/-- The members `simulationRunning` and `simulationTimer` of
`SimulationWidget`: whether the simulation runs, and the interval in
milliseconds of the timer when it is active. -/
structure TimerState where
  simulationRunning : Bool
  interval : Option ℤ
deriving DecidableEq, Repr

/-- `SimulationWidget::ppButton_clicked()`, with `m` the value of
`multiplySpin`: `QTimer::start(int)` receives `50 / m` converted to `int`. -/
def ppButton_clicked (m : ℚ) (t : TimerState) : TimerState :=
  if t.simulationRunning then ⟨false, none⟩
  else ⟨true, some (truncToInt (50 / m))⟩

/-- `SimulationWidget::multiplySpin_valueChanged()`, with `m` the new value of
`multiplySpin`: `QTimer::start(int)` receives `100 / m` converted to `int`. -/
def multiplySpin_valueChanged (m : ℚ) (t : TimerState) : TimerState :=
  if t.simulationRunning then { t with interval := some (truncToInt (100 / m)) }
  else t

end SimulationWidget

/-- A state with two enabled robots in a 300 by 300 arena: the first, at
`(130,75)` with heading 90, stands in the wedge of the second, at `(100,100)`
with heading 0, and leaves it by its move. -/
def crossingState : SimulationWidget.SimState :=
  ⟨⟨⟨300, 300⟩, none, [⟨90, ⟨130, 75⟩, true, 3, 40⟩, ⟨0, ⟨100, 100⟩, true, 3, 40⟩], []⟩, 0⟩

/-! ## The editor scene (`customgraphicsscene.cpp`) -/

/-- The functions of `QRectF` the editor calls. -/
structure RectOps where
  /-- `QRectF::intersects(const QRectF &)`: receiver first -/
  intersects : QRectF → QRectF → Bool
  /-- `QRectF::contains(const QPointF &)` -/
  contains : QRectF → QPointF → Bool

/-- Two rectangles of positive size that `intersects` reports as not
intersecting lie side by side or one above the other. -/
def RectOps.Sound (R : RectOps) : Prop :=
  ∀ a b : QRectF, 0 < a.w → 0 < a.h → 0 < b.w → 0 < b.h → R.intersects a b = false →
    a.x + a.w ≤ b.x ∨ b.x + b.w ≤ a.x ∨ a.y + a.h ≤ b.y ∨ b.y + b.h ≤ a.y

namespace RefRect

/-- The left or top edge of a rectangle side given by origin and extent. -/
def low (origin extent : ℚ) : ℚ :=
  if extent < 0 then origin + extent else origin

/-- The right or bottom edge of a rectangle side given by origin and
extent. -/
def high (origin extent : ℚ) : ℚ :=
  if extent < 0 then origin else origin + extent

/-- `QRectF::intersects` as Qt implements it: false for a rectangle without
width or height and for rectangles that only touch. -/
def intersects (a b : QRectF) : Bool :=
  if low a.x a.w = high a.x a.w then false
  else if low b.x b.w = high b.x b.w then false
  else if low a.x a.w ≥ high b.x b.w ∨ low b.x b.w ≥ high a.x a.w then false
  else if low a.y a.h = high a.y a.h then false
  else if low b.y b.h = high b.y b.h then false
  else if low a.y a.h ≥ high b.y b.h ∨ low b.y b.h ≥ high a.y a.h then false
  else true

/-- `QRectF::contains(const QPointF &)` as Qt implements it: the edges belong
to the rectangle. -/
def contains (a : QRectF) (p : QPointF) : Bool :=
  if low a.x a.w = high a.x a.w then false
  else if p.x < low a.x a.w ∨ p.x > high a.x a.w then false
  else if low a.y a.h = high a.y a.h then false
  else if p.y < low a.y a.h ∨ p.y > high a.y a.h then false
  else true

end RefRect

/-- The reference instance of the functions of `QRectF`. -/
def refRectOps : RectOps where
  intersects := RefRect.intersects
  contains := RefRect.contains

namespace CustomGraphicsScene

/-- `CustomGraphicsScene::CreateRoom(width, height)`: the lists are
cleared. -/
def CreateRoom (width height : ℤ) : CustomGraphicsScene :=
  ⟨width, height, [], []⟩

/-- `CustomGraphicsScene::checkPosition(scenePos)` -/
def checkPosition (R : RectOps) (scene : CustomGraphicsScene) (scenePos : QPointF) : ℤ :=
  if scene.robots.any
      (fun robot => R.intersects ⟨scenePos.x - 12.5, scenePos.y - 12.5, 25, 25⟩
        robot.boundingRect) then 1
  else if scene.obstacles.any
      (fun obstacle => R.intersects ⟨scenePos.x, scenePos.y, 25, 25⟩
        obstacle.boundingRect) then 2
  else 0

/-- `CustomGraphicsScene::AddObstacle(scenePos)` -/
def AddObstacle (R : RectOps) (scene : CustomGraphicsScene) (scenePos : QPointF) :
    CustomGraphicsScene :=
  if checkPosition R scene scenePos ≠ 0 then scene
  else { scene with obstacles := scene.obstacles ++ [Obstacle.create scenePos] }

/-- The loop of `AddControlledRobot` over the stored robots: the first one
whose ellipse the ellipse of `rect` intersects is turned by 30 degrees. -/
def turnFirst (L : Lib) (rect : QRectF) : List Robot → List Robot
  | [] => []
  | r :: rest =>
    if L.intersects (.ellipse rect) (.ellipse r.boundingRect) then r.turn 30 :: rest
    else r :: turnFirst L rect rest

/-- `CustomGraphicsScene::AddControlledRobot(scenePos)` -/
def AddControlledRobot (L : Lib) (R : RectOps) (scene : CustomGraphicsScene)
    (scenePos : QPointF) : CustomGraphicsScene :=
  if checkPosition R scene scenePos ≠ 0 then
    { scene with robots := turnFirst L (Robot.create scenePos).boundingRect scene.robots }
  else { scene with robots := scene.robots ++ [Robot.create scenePos] }

/-- A loop from `rbegin()` to `rend()` that erases the first element it finds
to satisfy `p`, the last such element of the list: the list after the
erasure, `none` when no element satisfies `p`. -/
def eraseLast {α : Type} (p : α → Bool) : List α → Option (List α)
  | [] => none
  | a :: rest =>
    match eraseLast p rest with
    | some rest' => some (a :: rest')
    | none => if p a then some rest else none

/-- `CustomGraphicsScene::DeleteObject(scenePos)` -/
def DeleteObject (R : RectOps) (scene : CustomGraphicsScene) (scenePos : QPointF) :
    CustomGraphicsScene :=
  match eraseLast (fun r : Robot => R.contains r.boundingRect scenePos) scene.robots with
  | some robots => { scene with robots := robots }
  | none =>
    match eraseLast (fun o : Obstacle => R.contains o.boundingRect scenePos)
        scene.obstacles with
    | some obstacles => { scene with obstacles := obstacles }
    | none => scene

/-- A call of one of the three editing operations. -/
inductive EditorCall where
  | addObstacle (scenePos : QPointF)
  | addControlledRobot (scenePos : QPointF)
  | deleteObject (scenePos : QPointF)
deriving DecidableEq, Repr

/-- The scene after one call. -/
def call (L : Lib) (R : RectOps) (scene : CustomGraphicsScene) :
    EditorCall → CustomGraphicsScene
  | .addObstacle p => AddObstacle R scene p
  | .addControlledRobot p => AddControlledRobot L R scene p
  | .deleteObject p => DeleteObject R scene p

/-- The scene after a sequence of calls. -/
def calls (L : Lib) (R : RectOps) (scene : CustomGraphicsScene) (cs : List EditorCall) :
    CustomGraphicsScene :=
  cs.foldl (call L R) scene

/-- The positions of the stored entities: the robots, then the obstacles. -/
def entityPositions (scene : CustomGraphicsScene) : List QPointF :=
  scene.robots.map (fun r => r.position) ++ scene.obstacles.map (fun o => o.position)

end CustomGraphicsScene

/-- The two positions differ by at least 25 in `x` or by at least 25 in
`y`. -/
def apart (p q : QPointF) : Prop :=
  25 ≤ |p.x - q.x| ∨ 25 ≤ |p.y - q.y|

/-- A sequence of editor calls: obstacles and robots, some of them on taken
places, and a deletion. -/
def editorSession : List CustomGraphicsScene.EditorCall :=
  [.addObstacle ⟨100, 100⟩, .addObstacle ⟨110, 110⟩, .addControlledRobot ⟨200, 100⟩,
   .addControlledRobot ⟨210, 90⟩, .addControlledRobot ⟨120, 100⟩, .addObstacle ⟨125, 100⟩,
   .deleteObject ⟨105, 105⟩, .addControlledRobot ⟨120, 100⟩]

/-! ## Theorems -/

/-! ### Arithmetic helpers -/

theorem cppRem_neg (a b : ℤ) : cppRem (-a) b = -cppRem a b := by
  unfold cppRem
  rw [Int.tmod_def, Int.tmod_def, Int.neg_tdiv]
  ring

theorem cppRem_nonneg (a : ℤ) (h : 0 ≤ a) : cppRem a 360 = a % 360 :=
  Int.tmod_eq_emod h (by norm_num)

theorem cppRem_nonpos (a : ℤ) (h : a ≤ 0) : cppRem a 360 = -((-a) % 360) := by
  have h1 := cppRem_neg (-a) 360
  rw [neg_neg] at h1
  rw [h1, cppRem_nonneg (-a) (by omega)]

/-- C6: `move()` returns true and leaves the robot at exactly
`(x + d*cos(theta), y - d*sin(theta))`; heading, enabled flag, wedge length
and move distance are unchanged. -/
theorem Robot.move_translates (L : Lib) (r : Robot) :
    (r.move L).1 = true
    ∧ (r.move L).2.position =
        ⟨r.position.x + (r.moveDistance : ℚ) * L.qCos (L.qDegreesToRadians (r.direction : ℚ)),
         r.position.y - (r.moveDistance : ℚ) * L.qSin (L.qDegreesToRadians (r.direction : ℚ))⟩
    ∧ (r.move L).2.direction = r.direction
    ∧ (r.move L).2.enabled = r.enabled
    ∧ (r.move L).2.triangleBase = r.triangleBase
    ∧ (r.move L).2.moveDistance = r.moveDistance := by
  refine ⟨rfl, ?_, rfl, rfl, rfl, rfl⟩
  simp only [Robot.move, QPointF.mk.injEq, true_and]
  ring

/-- C7: `turn(delta)` sets the heading to `h + (delta rem 360)`, where `rem`
is the remainder of the division that truncates toward zero (for a negative
`delta` it is `-((-delta) mod 360)`, so the heading does not rise, and falls
unless `delta` is a multiple of 360), and the sum is not renormalised; position, enabled flag, wedge length and move
distance are unchanged. -/
theorem Robot.turn_adds_remainder (r : Robot) (delta : ℤ) :
    (r.turn delta).direction = r.direction + Int.tmod delta 360
    ∧ Int.tmod delta 360 = delta - 360 * Int.tdiv delta 360
    ∧ (0 ≤ delta → Int.tmod delta 360 = delta % 360)
    ∧ (delta < 0 → Int.tmod delta 360 = -((-delta) % 360)
        ∧ (r.turn delta).direction ≤ r.direction
        ∧ (¬ (360 : ℤ) ∣ delta → (r.turn delta).direction < r.direction))
    ∧ (r.turn delta).position = r.position
    ∧ (r.turn delta).enabled = r.enabled
    ∧ (r.turn delta).triangleBase = r.triangleBase
    ∧ (r.turn delta).moveDistance = r.moveDistance := by
  refine ⟨rfl, Int.tmod_def delta 360, cppRem_nonneg delta, ?_, rfl, rfl, rfl, rfl⟩
  intro h
  have h1 := cppRem_nonpos delta (by omega)
  have h2 : (r.turn delta).direction = r.direction + cppRem delta 360 := rfl
  rw [h2]
  refine ⟨h1, by omega, fun hdvd => by omega⟩

/-! ### The loops of `canMove` -/

theorem Robot.robotLoop_eq_false_iff (L : Lib) (rp tp : QPainterPath) (self : ℕ) :
    ∀ (robots : List Robot) (k : ℕ),
      Robot.robotLoop L rp tp self robots k = false ↔
        ∀ j rj, robots[j]? = some rj → k + j ≠ self →
          L.intersects (.ellipse rj.boundingRect) rp = false
            ∧ L.intersects (.ellipse rj.boundingRect) tp = false := by
  intro robots
  induction robots with
  | nil => intro k; simp [Robot.robotLoop]
  | cons robot rest ih =>
    intro k
    unfold Robot.robotLoop
    by_cases hk : k = self
    · rw [if_pos hk, ih (k + 1)]
      constructor
      · intro h j rj hj hne
        cases j with
        | zero => exact absurd (by simpa using hk) hne
        | succ j =>
          refine h j rj (by simpa using hj) ?_
          omega
      · intro h j rj hj hne
        refine h (j + 1) rj (by simpa using hj) ?_
        omega
    · rw [if_neg hk]
      by_cases hx : (L.intersects (.ellipse robot.boundingRect) rp
          || L.intersects (.ellipse robot.boundingRect) tp) = true
      · rw [if_pos hx]
        simp only [Bool.true_eq_false, false_iff]
        intro h
        have := h 0 robot (by simp) (by simpa using hk)
        rw [this.1, this.2] at hx
        simp at hx
      · rw [if_neg hx, ih (k + 1)]
        simp only [Bool.or_eq_true, not_or, Bool.not_eq_true] at hx
        constructor
        · intro h j rj hj hne
          cases j with
          | zero =>
            simp at hj
            subst hj
            exact hx
          | succ j =>
            refine h j rj (by simpa using hj) ?_
            omega
        · intro h j rj hj hne
          refine h (j + 1) rj (by simpa using hj) ?_
          omega

theorem Robot.obstacleLoop_eq_false_iff (L : Lib) (rp tp : QPainterPath) :
    ∀ (obstacles : List Obstacle),
      Robot.obstacleLoop L rp tp obstacles = false ↔
        ∀ o ∈ obstacles,
          L.intersects (.rect o.boundingRect) rp = false
            ∧ L.intersects (.rect o.boundingRect) tp = false := by
  intro obstacles
  induction obstacles with
  | nil => simp [Robot.obstacleLoop]
  | cons o rest ih =>
    unfold Robot.obstacleLoop
    by_cases hx : (L.intersects (.rect o.boundingRect) rp
        || L.intersects (.rect o.boundingRect) tp) = true
    · rw [if_pos hx]
      simp only [Bool.true_eq_false, false_iff]
      intro h
      have := h o (List.mem_cons_self _ _)
      rw [this.1, this.2] at hx
      simp at hx
    · rw [if_neg hx, ih]
      simp only [Bool.or_eq_true, not_or, Bool.not_eq_true] at hx
      simp only [List.mem_cons, forall_eq_or_imp]
      exact ⟨fun h => ⟨hx, h⟩, fun h => h.2⟩

theorem Robot.canMoveAt_eq_true_iff (L : Lib) (r : Robot) (self : ℕ) (robots : List Robot)
    (obstacles : List Obstacle) (size : QPointF) :
    Robot.canMoveAt L r self robots obstacles size = true ↔
      Robot.footprintOutside L r size = false ∧ Robot.wedgeOutside L r size = false
        ∧ Robot.robotLoop L (Robot.robotPath L r) (Robot.trianglePath L r) self robots 0 = false
        ∧ Robot.obstacleLoop L (Robot.robotPath L r) (Robot.trianglePath L r) obstacles = false := by
  unfold Robot.canMoveAt
  cases Robot.footprintOutside L r size <;> cases Robot.wedgeOutside L r size <;>
    cases Robot.robotLoop L (Robot.robotPath L r) (Robot.trianglePath L r) self robots 0 <;>
    cases Robot.obstacleLoop L (Robot.robotPath L r) (Robot.trianglePath L r) obstacles <;>
    simp

theorem Robot.canMove_eq_canMoveAt (L : Lib) (r : Robot) (self : ℕ) (robots : List Robot)
    (obstacles : List Obstacle) (size : QPointF) (h : robots[self]? = some r) :
    Robot.canMove L robots obstacles size self
      = Robot.canMoveAt L r self robots obstacles size := by
  unfold Robot.canMove
  rw [h]

/-! ### Properties of `canMove` -/

/-- C3: if the radius-12.5 footprint around the prospective centre crosses an
arena edge, or a wedge base corner lies outside the arena, `canMove` returns
false whatever the robot list and the obstacle list are. -/
theorem Robot.canMove_false_of_boundary (L : Lib) (r : Robot) (self : ℕ) (size : QPointF)
    (h : (Robot.nextX L r + 12.5 ≥ size.x ∨ Robot.nextX L r - 12.5 < 0
            ∨ Robot.nextY L r + 12.5 ≥ size.y ∨ Robot.nextY L r - 12.5 < 0)
          ∨ (Robot.triangleLeftX L r < 0 ∨ Robot.triangleLeftX L r ≥ size.x
            ∨ Robot.triangleLeftY L r < 0 ∨ Robot.triangleLeftY L r ≥ size.y)
          ∨ (Robot.triangleRightX L r < 0 ∨ Robot.triangleRightX L r ≥ size.x
            ∨ Robot.triangleRightY L r < 0 ∨ Robot.triangleRightY L r ≥ size.y))
    (robots : List Robot) (obstacles : List Obstacle) (hself : robots[self]? = some r) :
    Robot.canMove L robots obstacles size self = false := by
  rw [Robot.canMove_eq_canMoveAt L r self robots obstacles size hself]
  rw [← Bool.not_eq_true, Robot.canMoveAt_eq_true_iff]
  rintro ⟨h1, h2, -, -⟩
  simp only [Robot.footprintOutside, Robot.wedgeOutside, Bool.or_eq_false_iff,
    decide_eq_false_iff_not] at h1 h2
  obtain ⟨⟨⟨a1, a2⟩, a3⟩, a4⟩ := h1
  obtain ⟨⟨⟨⟨⟨⟨⟨b1, b2⟩, b3⟩, b4⟩, b5⟩, b6⟩, b7⟩, b8⟩ := h2
  rcases h with (h | h | h | h) | (h | h | h | h) | (h | h | h | h) <;> contradiction

theorem Robot.canMove_false_of_boundary_witness :
    Robot.canMove refLib [cornerRobot] [] ⟨100, 100⟩ 0 = false :=
  Robot.canMove_false_of_boundary refLib cornerRobot 0 ⟨100, 100⟩ (by decide!) [cornerRobot] []
    rfl

/-- C4, as amended: for a robot whose prospective footprint and wedge corners
pass the arena-boundary tests, `canMove` returns true if and only if no other
robot's circular footprint intersects the circle of radius 13 around the
prospective centre or the wedge triangle, and no obstacle's square intersects
them; the robot's own entry in the list is never tested. -/
theorem Robot.canMove_iff_clear (L : Lib) (r : Robot) (self : ℕ) (size : QPointF)
    (robots : List Robot) (obstacles : List Obstacle) (hself : robots[self]? = some r)
    (hfoot : Robot.footprintOutside L r size = false)
    (hwedge : Robot.wedgeOutside L r size = false) :
    Robot.canMove L robots obstacles size self = true ↔
      Robot.ClearOf L (.ellipse ⟨Robot.nextX L r - 13, Robot.nextY L r - 13, 26, 26⟩)
        (Robot.trianglePath L r) self robots obstacles := by
  rw [Robot.canMove_eq_canMoveAt L r self robots obstacles size hself,
    Robot.canMoveAt_eq_true_iff, Robot.robotLoop_eq_false_iff, Robot.obstacleLoop_eq_false_iff]
  unfold Robot.ClearOf Robot.robotPath
  constructor
  · rintro ⟨-, -, h3, h4⟩
    exact ⟨fun j rj hne hj => h3 j rj hj (by omega), h4⟩
  · rintro ⟨h3, h4⟩
    exact ⟨hfoot, hwedge, fun j rj hj hne => h3 j rj (by omega) hj, h4⟩

theorem Robot.canMove_iff_clear_witness :
    Robot.canMove refLib [frontRobot] [] ⟨200, 200⟩ 0 = true ↔
      Robot.ClearOf refLib
        (.ellipse ⟨Robot.nextX refLib frontRobot - 13, Robot.nextY refLib frontRobot - 13, 26, 26⟩)
        (Robot.trianglePath refLib frontRobot) 0 [frontRobot] [] :=
  Robot.canMove_iff_clear refLib frontRobot 0 ⟨200, 200⟩ [frontRobot] [] rfl
    (by decide!) (by decide!)

/-- C4 as stated fails: `frontRobot` passes the boundary tests in a 200 by 200
arena, no other robot's footprint intersects its radius-12.5 prospective
footprint or its wedge and there is no obstacle, yet `canMove` returns
false. -/
theorem Robot.canMove_footprint_iff_counterexample :
    Robot.footprintOutside refLib frontRobot ⟨200, 200⟩ = false
    ∧ Robot.wedgeOutside refLib frontRobot ⟨200, 200⟩ = false
    ∧ Robot.ClearOf refLib (Robot.footprintPath refLib frontRobot)
        (Robot.trianglePath refLib frontRobot) 0 [frontRobot, behindRobot] []
    ∧ Robot.canMove refLib [frontRobot, behindRobot] [] ⟨200, 200⟩ 0 = false := by
  refine ⟨by decide!, by decide!, ⟨?_, ?_⟩, by decide!⟩
  · intro j rj hne hj
    match j, hne, hj with
    | 1, _, hj =>
      simp only [List.getElem?_cons_succ, List.getElem?_cons_zero, Option.some.injEq] at hj
      subst hj
      decide!
    | j + 2, _, hj => simp at hj
  · intro o ho
    simp at ho

/-! ### Truncation and the reference trigonometry -/

theorem le_truncToInt_iff (q : ℚ) (n : ℤ) (hn : 0 < n) : n ≤ truncToInt q ↔ (n : ℚ) ≤ q := by
  unfold truncToInt
  split_ifs with h
  · exact Int.le_floor
  · push_neg at h
    have h1 : ⌈q⌉ ≤ 0 := Int.ceil_le.mpr (by exact_mod_cast h.le)
    have h2 : (0 : ℚ) < (n : ℚ) := by exact_mod_cast hn
    constructor
    · intro h3; omega
    · intro h3; linarith

theorem truncToInt_le_iff (q : ℚ) (n : ℤ) (hn : n < 0) : truncToInt q ≤ n ↔ q ≤ (n : ℚ) := by
  unfold truncToInt
  split_ifs with h
  · have h1 : 0 ≤ ⌊q⌋ := Int.floor_nonneg.mpr h
    have h2 : (n : ℚ) < 0 := by exact_mod_cast hn
    constructor
    · intro h3; omega
    · intro h3; linarith
  · exact Int.ceil_le

theorem abs_truncToInt_le (q : ℚ) : |(truncToInt q : ℚ)| ≤ |q| := by
  unfold truncToInt
  split_ifs with h
  · have h1 : (0 : ℚ) ≤ (⌊q⌋ : ℚ) := by exact_mod_cast Int.floor_nonneg.mpr h
    rw [abs_of_nonneg h1, abs_of_nonneg h]
    exact Int.floor_le q
  · push_neg at h
    have h1 : (⌈q⌉ : ℚ) ≤ 0 := by exact_mod_cast Int.ceil_le.mpr (by exact_mod_cast h.le)
    rw [abs_of_nonpos h1, abs_of_neg h]
    linarith [Int.le_ceil q]

theorem refLib_on_unit_circle (x : ℚ) : refLib.qCos x ^ 2 + refLib.qSin x ^ 2 = 1 := by
  show RefTrig.cos x ^ 2 + RefTrig.sin x ^ 2 = 1
  unfold RefTrig.cos RefTrig.sin
  split_ifs with h
  · norm_num
  · have h1 : (1 : ℚ) + RefTrig.tanHalf (RefTrig.degrees x) ^ 2 ≠ 0 := by positivity
    field_simp
    ring

theorem refLib_trigSane : refLib.TrigSane := by
  intro x
  have h := refLib_on_unit_circle x
  refine ⟨?_, ?_, by linarith⟩
  · rw [abs_le]; constructor <;> nlinarith [sq_nonneg (refLib.qSin x)]
  · rw [abs_le]; constructor <;> nlinarith [sq_nonneg (refLib.qCos x)]

theorem refLib_detectsDiscOverlap : refLib.DetectsDiscOverlap := by
  intro a b _ _ _ _ h
  show Geometry.discsMeet _ _ _ _ = true
  unfold Geometry.discsMeet Geometry.radius
  rw [decide_eq_true_eq]
  have : a.w / 2 + b.w / 2 = (a.w + b.w) / 2 := by ring
  rw [this]
  exact h.le

/-- C5, as amended: `canMove` returns false if the circle of radius 13 around
the prospective centre, which `canMove` tests for the robot's footprint,
intersects another robot's footprint or an obstacle's footprint; it returns
true otherwise provided the arena-boundary tests pass and the wedge triangle
intersects no other robot's footprint and no obstacle's footprint. -/
theorem Robot.canMove_false_of_hit (L : Lib) (r : Robot) (self : ℕ) (size : QPointF)
    (robots : List Robot) (obstacles : List Obstacle) (hself : robots[self]? = some r) :
    (Robot.Hits L (.ellipse ⟨Robot.nextX L r - 13, Robot.nextY L r - 13, 26, 26⟩)
        self robots obstacles →
      Robot.canMove L robots obstacles size self = false)
    ∧ (¬ Robot.Hits L (.ellipse ⟨Robot.nextX L r - 13, Robot.nextY L r - 13, 26, 26⟩)
          self robots obstacles →
        Robot.footprintOutside L r size = false →
        Robot.wedgeOutside L r size = false →
        ¬ Robot.Hits L (Robot.trianglePath L r) self robots obstacles →
      Robot.canMove L robots obstacles size self = true) := by
  rw [Robot.canMove_eq_canMoveAt L r self robots obstacles size hself]
  constructor
  · intro hit
    rw [← Bool.not_eq_true, Robot.canMoveAt_eq_true_iff, Robot.robotLoop_eq_false_iff,
      Robot.obstacleLoop_eq_false_iff]
    rintro ⟨-, -, h3, h4⟩
    rcases hit with ⟨j, rj, hne, hj, hx⟩ | ⟨o, ho, hx⟩
    · have := (h3 j rj hj (by omega)).1
      rw [Robot.robotPath, hx] at this
      exact Bool.noConfusion this
    · have := (h4 o ho).1
      rw [Robot.robotPath, hx] at this
      exact Bool.noConfusion this
  · intro hc hfoot hwedge ht
    rw [Robot.canMoveAt_eq_true_iff, Robot.robotLoop_eq_false_iff,
      Robot.obstacleLoop_eq_false_iff]
    refine ⟨hfoot, hwedge, ?_, ?_⟩
    · intro j rj hj hne
      constructor
      · rw [← Bool.not_eq_true]
        exact fun hx => hc (Or.inl ⟨j, rj, by omega, hj, hx⟩)
      · rw [← Bool.not_eq_true]
        exact fun hx => ht (Or.inl ⟨j, rj, by omega, hj, hx⟩)
    · intro o ho
      constructor
      · rw [← Bool.not_eq_true]
        exact fun hx => hc (Or.inr ⟨o, ho, hx⟩)
      · rw [← Bool.not_eq_true]
        exact fun hx => ht (Or.inr ⟨o, ho, hx⟩)

theorem Robot.not_hits_alone (L : Lib) (fig : QPainterPath) (r : Robot) :
    ¬ Robot.Hits L fig 0 [r] [] := by
  rintro (⟨j, rj, hne, hj, -⟩ | ⟨o, ho, -⟩)
  · match j, hne, hj with
    | j + 1, _, hj => simp at hj
  · simp at ho

theorem Robot.canMove_false_of_hit_witness :
    Robot.canMove refLib [frontRobot, behindRobot] [] ⟨200, 200⟩ 0 = false
    ∧ Robot.canMove refLib [frontRobot] [] ⟨200, 200⟩ 0 = true :=
  ⟨(Robot.canMove_false_of_hit refLib frontRobot 0 ⟨200, 200⟩ [frontRobot, behindRobot] []
      rfl).1 (Or.inl ⟨1, behindRobot, by decide, rfl, by decide!⟩),
   (Robot.canMove_false_of_hit refLib frontRobot 0 ⟨200, 200⟩ [frontRobot] [] rfl).2
      (Robot.not_hits_alone refLib _ frontRobot) (by decide!) (by decide!)
      (Robot.not_hits_alone refLib _ frontRobot)⟩

/-- C5 as stated fails: alone in a 100 by 100 arena without obstacles, the
prospective footprint of the robot at `(10,10)` intersects no other robot's
footprint and no obstacle's footprint, yet `canMove` returns false. -/
theorem Robot.canMove_true_otherwise_counterexample :
    ¬ Robot.Hits refLib (Robot.footprintPath refLib cornerRobot) 0 [cornerRobot] []
    ∧ ¬ Robot.Hits refLib (Robot.robotPath refLib cornerRobot) 0 [cornerRobot] []
    ∧ Robot.canMove refLib [cornerRobot] [] ⟨100, 100⟩ 0 = false :=
  ⟨Robot.not_hits_alone refLib _ cornerRobot, Robot.not_hits_alone refLib _ cornerRobot,
    by decide!⟩

/-! ### Two robots at one position -/

theorem Robot.sq_truncToInt_le (L : Lib) (hL : L.TrigSane) (x : ℚ) :
    (truncToInt (3 * L.qCos x) : ℚ) ^ 2 ≤ 9 ∧ (truncToInt (3 * L.qSin x) : ℚ) ^ 2 ≤ 9 := by
  obtain ⟨hc, hs, -⟩ := hL x
  have h1 := abs_truncToInt_le (3 * L.qCos x)
  have h2 := abs_truncToInt_le (3 * L.qSin x)
  have h3 : |3 * L.qCos x| ≤ 3 := by
    rw [abs_mul]; norm_num; linarith
  have h4 : |3 * L.qSin x| ≤ 3 := by
    rw [abs_mul]; norm_num; linarith
  constructor
  · have := abs_le.mp (h1.trans h3)
    nlinarith
  · have := abs_le.mp (h2.trans h4)
    nlinarith

theorem Robot.canMoveAt_false_of_same_position (L : Lib) (hT : L.TrigSane)
    (hD : L.DetectsDiscOverlap) (robots : List Robot) (obstacles : List Obstacle)
    (size : QPointF) (i j : ℕ) (ri rj : Robot) (hij : i ≠ j)
    (hj : robots[j]? = some rj) (hm : ri.moveDistance = 3)
    (hpos : ri.position = rj.position) :
    Robot.canMoveAt L ri i robots obstacles size = false := by
  rw [← Bool.not_eq_true, Robot.canMoveAt_eq_true_iff, Robot.robotLoop_eq_false_iff]
  rintro ⟨-, -, h3, -⟩
  have hx := (h3 j rj hj (by omega)).1
  have hov : L.intersects (.ellipse rj.boundingRect) (Robot.robotPath L ri) = true := by
    apply hD
    · rfl
    · rfl
    · show (0 : ℚ) < 25
      norm_num
    · show (0 : ℚ) < 26
      norm_num
    · obtain ⟨hc, hs⟩ := Robot.sq_truncToInt_le L hT (Robot.radians L ri)
      simp only [Geometry.sqDist, Geometry.centre, Robot.boundingRect, Robot.nextX,
        Robot.nextY, hm, ← hpos]
      push_cast
      nlinarith
  rw [hov] at hx
  exact Bool.noConfusion hx

/-- C9: for every arena and obstacle list and every two distinct robots of the
robot list that stand at the same position, whatever their headings and wedge
lengths, `canMove` returns false for each of the two. -/
theorem Robot.canMove_false_of_same_position (L : Lib) (hT : L.TrigSane)
    (hD : L.DetectsDiscOverlap) (robots : List Robot) (obstacles : List Obstacle)
    (size : QPointF) (i j : ℕ) (ri rj : Robot) (hij : i ≠ j)
    (hi : robots[i]? = some ri) (hj : robots[j]? = some rj)
    (hmi : ri.moveDistance = 3) (hmj : rj.moveDistance = 3)
    (hpos : ri.position = rj.position) :
    Robot.canMove L robots obstacles size i = false
      ∧ Robot.canMove L robots obstacles size j = false := by
  rw [Robot.canMove_eq_canMoveAt L ri i robots obstacles size hi,
    Robot.canMove_eq_canMoveAt L rj j robots obstacles size hj]
  exact ⟨Robot.canMoveAt_false_of_same_position L hT hD robots obstacles size i j ri rj hij hj
      hmi hpos,
    Robot.canMoveAt_false_of_same_position L hT hD robots obstacles size j i rj ri
      (Ne.symm hij) hi hmj hpos.symm⟩

theorem Robot.canMove_false_of_same_position_witness :
    Robot.canMove refLib [frontRobot, frontRobot.turn 90] [] ⟨200, 200⟩ 0 = false
      ∧ Robot.canMove refLib [frontRobot, frontRobot.turn 90] [] ⟨200, 200⟩ 1 = false :=
  Robot.canMove_false_of_same_position refLib refLib_trigSane refLib_detectsDiscOverlap
    [frontRobot, frontRobot.turn 90] [] ⟨200, 200⟩ 0 1 frontRobot (frontRobot.turn 90)
    (by decide) rfl rfl rfl rfl rfl

/-! ### The simulation tick -/

namespace SimulationWidget

theorem Frame.refl (s : SimState) : Frame s s :=
  ⟨rfl, rfl, rfl, rfl, fun _ r h => ⟨r, h, rfl, rfl, rfl, fun _ => rfl⟩⟩

theorem Frame.trans {s t u : SimState} (h1 : Frame s t) (h2 : Frame t u) : Frame s u := by
  obtain ⟨a1, a2, a3, a4, a5⟩ := h1
  obtain ⟨b1, b2, b3, b4, b5⟩ := h2
  refine ⟨b1.trans a1, b2.trans a2, b3.trans a3, b4.trans a4, ?_⟩
  intro j r hj
  obtain ⟨r', hr', e1, e2, e3, e4⟩ := a5 j r hj
  obtain ⟨r'', hr'', f1, f2, f3, f4⟩ := b5 j r' hr'
  refine ⟨r'', hr'', f1.trans e1, f2.trans e2, f3.trans e3, ?_⟩
  intro h
  have hr : r' = r := e4 h
  rw [f4 (by rw [hr, a2]; exact h), hr]

theorem set_frame (s : SimState) (k : ℕ) (i : ℕ) (robot new : Robot)
    (hi : s.environment.robots[i]? = some robot)
    (hen : robot.enabled = true) (hc : s.environment.controlledRobot ≠ some i)
    (e1 : new.enabled = robot.enabled) (e2 : new.triangleBase = robot.triangleBase)
    (e3 : new.moveDistance = robot.moveDistance) :
    Frame s ⟨{ s.environment with robots := s.environment.robots.set i new }, k⟩ := by
  refine ⟨rfl, rfl, rfl, by simp, ?_⟩
  intro j r hj
  have hlt : i < s.environment.robots.length := (List.getElem?_eq_some_iff.mp hi).1
  by_cases hij : i = j
  · subst hij
    rw [hi] at hj
    cases hj
    refine ⟨new, by simp [List.getElem?_set, hlt], e1, e2, e3, ?_⟩
    rintro (h | h)
    · rw [hen] at h; exact Bool.noConfusion h
    · exact absurd h hc
  · exact ⟨r, by simp [List.getElem?_set, hij, hj], rfl, rfl, rfl, fun _ => rfl⟩

theorem simulateRobot_frame (L : Lib) (rand : ℕ → ℕ) (s : SimState) (i : ℕ) :
    Frame s (simulateRobot L rand s i) := by
  unfold simulateRobot
  split
  · exact Frame.refl s
  · rename_i robot hi
    split_ifs with h1 h2
    · exact Frame.refl s
    · simp only [Robot.isEnabled, Bool.or_eq_true, Bool.not_eq_true', decide_eq_true_eq,
        not_or, Bool.not_eq_false] at h1
      exact set_frame s s.randCalls i robot _ hi h1.1 h1.2 rfl rfl rfl
    · simp only [Robot.isEnabled, Bool.or_eq_true, Bool.not_eq_true', decide_eq_true_eq,
        not_or, Bool.not_eq_false] at h1
      exact set_frame s (s.randCalls + 1) i robot _ hi h1.1 h1.2 rfl rfl rfl

theorem simulateRobot_getElem?_of_ne (L : Lib) (rand : ℕ → ℕ) (s : SimState) (i j : ℕ)
    (hij : i ≠ j) :
    (simulateRobot L rand s i).environment.robots[j]? = s.environment.robots[j]? := by
  unfold simulateRobot
  split
  · rfl
  · split_ifs <;> simp [List.getElem?_set, hij]

theorem simulatePrefix_succ (L : Lib) (rand : ℕ → ℕ) (s : SimState) (n : ℕ) :
    simulatePrefix L rand s (n + 1) = simulateRobot L rand (simulatePrefix L rand s n) n := by
  simp [simulatePrefix, List.range_succ, List.foldl_append]

theorem simulatePrefix_frame (L : Lib) (rand : ℕ → ℕ) (s : SimState) (n : ℕ) :
    Frame s (simulatePrefix L rand s n) := by
  induction n with
  | zero => exact Frame.refl s
  | succ n ih =>
    rw [simulatePrefix_succ]
    exact Frame.trans ih (simulateRobot_frame L rand _ n)

theorem simulatePrefix_getElem?_of_le (L : Lib) (rand : ℕ → ℕ) (s : SimState) (i n : ℕ)
    (h : n ≤ i) :
    (simulatePrefix L rand s n).environment.robots[i]? = s.environment.robots[i]? := by
  induction n with
  | zero => rfl
  | succ n ih =>
    rw [simulatePrefix_succ, simulateRobot_getElem?_of_ne L rand _ n i (by omega)]
    exact ih (by omega)

theorem simulatePrefix_getElem?_of_lt (L : Lib) (rand : ℕ → ℕ) (s : SimState) (i n : ℕ)
    (h : i < n) :
    (simulatePrefix L rand s n).environment.robots[i]?
      = (simulateRobot L rand (simulatePrefix L rand s i) i).environment.robots[i]? := by
  induction n with
  | zero => omega
  | succ n ih =>
    rw [simulatePrefix_succ]
    by_cases hn : i = n
    · subst hn; rfl
    · rw [simulateRobot_getElem?_of_ne L rand _ n i (Ne.symm hn)]
      exact ih (by omega)

theorem turnAngle_bounds (v : ℕ) :
    1 ≤ cppRem (v : ℤ) 360 + 1 ∧ cppRem (v : ℤ) 360 + 1 ≤ 360 := by
  rw [cppRem_nonneg (v : ℤ) (by omega)]
  omega

end SimulationWidget

/-- C1: for a robot that is enabled and not the controlled robot, one tick
does exactly one of two things.  The robot is untouched until its own
iteration; if `canMove` holds for it on the lists as they are at that moment,
it becomes the result of `move()`, its heading unchanged; otherwise it becomes
the result of one `turn(r)` with `r = rand() % 360 + 1`, its position
unchanged, and one call of `rand()` is consumed.  For every non-negative value
of `rand()`, `1 ≤ r ≤ 360`. -/
theorem SimulationWidget.simulate_eligible_robot (L : Lib) (rand : ℕ → ℕ)
    (s : SimulationWidget.SimState) (i : ℕ) (robot : Robot)
    (hi : s.environment.robots[i]? = some robot) (hen : robot.isEnabled = true)
    (hc : s.environment.controlledRobot ≠ some i) :
    (SimulationWidget.simulatePrefix L rand s i).environment.robots[i]? = some robot
    ∧ (Robot.canMove L (SimulationWidget.simulatePrefix L rand s i).environment.robots
          (SimulationWidget.simulatePrefix L rand s i).environment.obstacles
          (SimulationWidget.simulatePrefix L rand s i).environment.size i = true →
        (SimulationWidget.simulate L rand s).environment.robots[i]? = some (robot.move L).2
        ∧ (robot.move L).2.direction = robot.direction
        ∧ (SimulationWidget.simulatePrefix L rand s (i + 1)).randCalls
            = (SimulationWidget.simulatePrefix L rand s i).randCalls)
    ∧ (Robot.canMove L (SimulationWidget.simulatePrefix L rand s i).environment.robots
          (SimulationWidget.simulatePrefix L rand s i).environment.obstacles
          (SimulationWidget.simulatePrefix L rand s i).environment.size i = false →
        (SimulationWidget.simulate L rand s).environment.robots[i]?
          = some (robot.turn
              (cppRem (rand (SimulationWidget.simulatePrefix L rand s i).randCalls : ℤ) 360 + 1))
        ∧ (robot.turn
              (cppRem (rand (SimulationWidget.simulatePrefix L rand s i).randCalls : ℤ) 360
                + 1)).position = robot.position
        ∧ (SimulationWidget.simulatePrefix L rand s (i + 1)).randCalls
            = (SimulationWidget.simulatePrefix L rand s i).randCalls + 1)
    ∧ (∀ v : ℕ, cppRem (v : ℤ) 360 + 1 = ((v % 360 + 1 : ℕ) : ℤ)
        ∧ 1 ≤ v % 360 + 1 ∧ v % 360 + 1 ≤ 360) := by
  have hlt : i < s.environment.robots.length := (List.getElem?_eq_some_iff.mp hi).1
  have hmid : (SimulationWidget.simulatePrefix L rand s i).environment.robots[i]? = some robot := by
    rw [SimulationWidget.simulatePrefix_getElem?_of_le L rand s i i le_rfl, hi]
  have hfr := SimulationWidget.simulatePrefix_frame L rand s i
  have hctl : (SimulationWidget.simulatePrefix L rand s i).environment.controlledRobot ≠ some i := by
    rw [hfr.2.1]; exact hc
  have hlen : i < (SimulationWidget.simulatePrefix L rand s i).environment.robots.length := by
    rw [hfr.2.2.2.1]; exact hlt
  have hfin : (SimulationWidget.simulate L rand s).environment.robots[i]?
      = (SimulationWidget.simulateRobot L rand
          (SimulationWidget.simulatePrefix L rand s i) i).environment.robots[i]? :=
    SimulationWidget.simulatePrefix_getElem?_of_lt L rand s i _ hlt
  have hcond : (!robot.isEnabled
      || decide ((SimulationWidget.simulatePrefix L rand s i).environment.controlledRobot
          = some i)) = false := by
    simp [hen, hctl]
  refine ⟨hmid, ?_, ?_, ?_⟩
  · intro hcm
    refine ⟨?_, rfl, ?_⟩
    · rw [hfin]
      simp only [SimulationWidget.simulateRobot, hmid, hcond, Environment.GetSize, hcm]
      simp [List.getElem?_set, hlen]
    · rw [SimulationWidget.simulatePrefix_succ]
      simp only [SimulationWidget.simulateRobot, hmid, hcond, Environment.GetSize, hcm]
      simp
  · intro hcm
    refine ⟨?_, rfl, ?_⟩
    · rw [hfin]
      simp only [SimulationWidget.simulateRobot, hmid, hcond, Environment.GetSize, hcm]
      simp [List.getElem?_set, hlen]
    · rw [SimulationWidget.simulatePrefix_succ]
      simp only [SimulationWidget.simulateRobot, hmid, hcond, Environment.GetSize, hcm]
      simp
  · intro v
    rw [cppRem_nonneg (v : ℤ) (by omega)]
    refine ⟨by push_cast; rfl, by omega, by omega⟩

/-- C2: one tick changes nothing except the position or heading of enabled,
non-controlled robots: arena size, controlled-robot selection, obstacle list
and number of robots are unchanged; the robot at every index keeps its enabled
flag, wedge length and move distance; every disabled robot and the controlled
robot are unchanged altogether. -/
theorem SimulationWidget.simulate_frame (L : Lib) (rand : ℕ → ℕ)
    (s : SimulationWidget.SimState) :
    (SimulationWidget.simulate L rand s).environment.size = s.environment.size
    ∧ (SimulationWidget.simulate L rand s).environment.controlledRobot
        = s.environment.controlledRobot
    ∧ (SimulationWidget.simulate L rand s).environment.obstacles = s.environment.obstacles
    ∧ (SimulationWidget.simulate L rand s).environment.robots.length
        = s.environment.robots.length
    ∧ (∀ j r, s.environment.robots[j]? = some r →
        ∃ r', (SimulationWidget.simulate L rand s).environment.robots[j]? = some r'
          ∧ r'.enabled = r.enabled ∧ r'.triangleBase = r.triangleBase
          ∧ r'.moveDistance = r.moveDistance
          ∧ ((r.enabled = false ∨ s.environment.controlledRobot = some j) →
              r'.position = r.position ∧ r'.direction = r.direction ∧ r' = r)) := by
  obtain ⟨h1, h2, h3, h4, h5⟩ :=
    SimulationWidget.simulatePrefix_frame L rand s s.environment.robots.length
  refine ⟨h1, h2, h3, h4, ?_⟩
  intro j r hj
  obtain ⟨r', hr', e1, e2, e3, e4⟩ := h5 j r hj
  exact ⟨r', hr', e1, e2, e3, fun h => by rw [e4 h]; exact ⟨rfl, rfl, rfl⟩⟩

theorem SimulationWidget.simulate_eligible_robot_witness :
    (SimulationWidget.simulate refLib (fun _ => 7) aloneState).environment.robots[0]?
        = some (frontRobot.move refLib).2
    ∧ (SimulationWidget.simulate refLib (fun _ => 7) pairState).environment.robots[0]?
        = some (frontRobot.turn 8) :=
  ⟨((SimulationWidget.simulate_eligible_robot refLib (fun _ => 7) aloneState 0 frontRobot
      rfl rfl (by decide)).2.1 (by decide!)).1,
   ((SimulationWidget.simulate_eligible_robot refLib (fun _ => 7) pairState 0 frontRobot
      rfl rfl (by decide)).2.2.1 (by decide!)).1⟩

theorem SimulationWidget.simulate_frame_witness :
    ∃ r', (SimulationWidget.simulate refLib (fun _ => 7) pairState).environment.robots[1]?
        = some r' ∧ r' = behindRobot.switchEnabled :=
  match (SimulationWidget.simulate_frame refLib (fun _ => 7) pairState).2.2.2.2 1
      behindRobot.switchEnabled rfl with
  | ⟨r', h, _, _, _, h4⟩ => ⟨r', h, (h4 (Or.inl rfl)).2.2⟩

/-! ### The scenario of the specification -/

theorem scenario_canMove_false (L : Lib) (hL : L.TrigSane) (d : ℤ)
    (obstacles : List Obstacle) :
    Robot.canMove L [scenarioRobot d] obstacles ⟨100, 100⟩ 0 = false := by
  rw [Robot.canMove_eq_canMoveAt L (scenarioRobot d) 0 _ obstacles _ rfl]
  rw [← Bool.not_eq_true, Robot.canMoveAt_eq_true_iff]
  rintro ⟨h1, -, -, -⟩
  simp only [Robot.footprintOutside, Bool.or_eq_false_iff, decide_eq_false_iff_not,
    Robot.nextX, Robot.nextY, scenarioRobot, not_lt, not_le, ge_iff_le] at h1
  obtain ⟨⟨⟨-, a2⟩, -⟩, a4⟩ := h1
  obtain ⟨-, -, hsum⟩ := hL (Robot.radians L ⟨d, ⟨10, 10⟩, true, 3, 40⟩)
  set c := L.qCos (Robot.radians L ⟨d, ⟨10, 10⟩, true, 3, 40⟩) with hc
  set sn := L.qSin (Robot.radians L ⟨d, ⟨10, 10⟩, true, 3, 40⟩) with hs
  norm_num at a2 a4
  have hx : (3 : ℤ) ≤ truncToInt (3 * c) := by
    have : (2 : ℚ) < (truncToInt (3 * c) : ℚ) := by linarith
    have : (2 : ℤ) < truncToInt (3 * c) := by exact_mod_cast this
    omega
  have hy : truncToInt (3 * sn) ≤ (-3 : ℤ) := by
    have : (truncToInt (3 * sn) : ℚ) < (-2 : ℚ) := by linarith
    have : truncToInt (3 * sn) < (-2 : ℤ) := by exact_mod_cast this
    omega
  rw [le_truncToInt_iff _ 3 (by norm_num)] at hx
  rw [truncToInt_le_iff _ (-3) (by norm_num)] at hy
  push_cast at hx hy
  nlinarith

theorem scenario_simulate (L : Lib) (hL : L.TrigSane) (rand : ℕ → ℕ) (d : ℤ) (k : ℕ) :
    SimulationWidget.simulate L rand ⟨scenarioEnvironment d, k⟩
      = ⟨scenarioEnvironment (d + cppRem (cppRem (rand k : ℤ) 360 + 1) 360), k + 1⟩ := by
  have h := scenario_canMove_false L hL d [⟨⟨40, 40⟩⟩]
  show SimulationWidget.simulateRobot L rand ⟨scenarioEnvironment d, k⟩ 0 = _
  simp only [SimulationWidget.simulateRobot, scenarioEnvironment, Environment.GetSize,
    List.getElem?_cons_zero, h]
  simp [Robot.isEnabled, scenarioRobot, Robot.turn]

theorem scenario_simulateTicks (L : Lib) (hL : L.TrigSane) (rand : ℕ → ℕ) (k n : ℕ) :
    ∃ d k', SimulationWidget.simulateTicks L rand ⟨scenarioEnvironment 0, k⟩ n
      = ⟨scenarioEnvironment d, k'⟩ := by
  induction n with
  | zero => exact ⟨0, k, rfl⟩
  | succ n ih =>
    obtain ⟨d, k', h⟩ := ih
    refine ⟨d + cppRem (cppRem (rand k' : ℤ) 360 + 1) 360, k' + 1, ?_⟩
    rw [SimulationWidget.simulateTicks, h, scenario_simulate L hL]

/-- C8: in the arena of 100 by 100 with one obstacle at `(40,40)` and one
enabled, non-controlled robot at `(10,10)` with heading 0 and move distance 3,
after any number of ticks and for any values of `rand()` there is still that
one robot, it stands at `(10,10)`, and no point lies both in its footprint of
radius 12.5 and in the square from `(40,40)` to `(65,65)`. -/
theorem SimulationWidget.scenario_never_overlaps (L : Lib) (hL : L.TrigSane)
    (rand : ℕ → ℕ) (k n : ℕ) :
    (SimulationWidget.simulateTicks L rand ⟨scenarioEnvironment 0, k⟩ n).environment.robots.length
        = 1
    ∧ (SimulationWidget.simulateTicks L rand ⟨scenarioEnvironment 0, k⟩ n).environment.obstacles
        = [⟨⟨40, 40⟩⟩]
    ∧ ∀ r ∈ (SimulationWidget.simulateTicks L rand
          ⟨scenarioEnvironment 0, k⟩ n).environment.robots,
        r.position = ⟨10, 10⟩ ∧ ∀ p : QPointF, ¬ overlapsObstacleSquareAt r.position p := by
  obtain ⟨d, k', h⟩ := scenario_simulateTicks L hL rand k n
  rw [h]
  refine ⟨rfl, rfl, ?_⟩
  intro r hr
  simp only [scenarioEnvironment, List.mem_singleton] at hr
  subst hr
  refine ⟨rfl, ?_⟩
  rintro p ⟨h1, h2, -, h3, -⟩
  simp only [scenarioRobot] at h1
  norm_num at h1
  nlinarith

theorem SimulationWidget.scenario_never_overlaps_witness :
    (SimulationWidget.simulateTicks refLib (fun n => 41 * n + 17)
        ⟨scenarioEnvironment 0, 0⟩ 25).environment.robots.length = 1
    ∧ (SimulationWidget.simulateTicks refLib (fun n => 41 * n + 17)
        ⟨scenarioEnvironment 0, 0⟩ 25).environment.obstacles = [⟨⟨40, 40⟩⟩] :=
  ⟨(SimulationWidget.scenario_never_overlaps refLib refLib_trigSane (fun n => 41 * n + 17)
      0 25).1,
   (SimulationWidget.scenario_never_overlaps refLib refLib_trigSane (fun n => 41 * n + 17)
      0 25).2.1⟩

/-! ### The layout header -/

theorem getline_of_not_mem (d : Char) :
    ∀ (l : List Char), d ∉ l → l ≠ [] → getline d l = some (l, []) := by
  intro l
  induction l with
  | nil => intro _ h; exact absurd rfl h
  | cons c cs ih =>
    intro hd _
    have hc : c ≠ d := fun h => hd (by simp [h])
    have hcs : d ∉ cs := fun h => hd (List.mem_cons_of_mem _ h)
    unfold getline
    rw [if_neg hc]
    cases cs with
    | nil => simp [getline]
    | cons c2 cs2 => rw [ih hcs (by simp)]

theorem getline_append (d : Char) (rest : List Char) :
    ∀ (l : List Char), d ∉ l → getline d (l ++ d :: rest) = some (l, rest) := by
  intro l
  induction l with
  | nil => intro _; simp [getline]
  | cons c cs ih =>
    intro hd
    have hc : c ≠ d := fun h => hd (by simp [h])
    have hcs : d ∉ cs := fun h => hd (List.mem_cons_of_mem _ h)
    rw [List.cons_append, getline, if_neg hc, ih hcs]

theorem getline_count (d : Char) :
    ∀ (ss token rest : List Char), getline d ss = some (token, rest) →
      rest = [] ∨ ss.count d = rest.count d + 1 := by
  intro ss
  induction ss with
  | nil => intro token rest h; simp [getline] at h
  | cons c cs ih =>
    intro token rest h
    unfold getline at h
    by_cases hc : c = d
    · rw [if_pos hc] at h
      simp only [Option.some.injEq, Prod.mk.injEq] at h
      right
      rw [← h.2, hc]
      simp
    · rw [if_neg hc] at h
      cases hg : getline d cs with
      | none =>
        rw [hg] at h
        simp only [Option.some.injEq, Prod.mk.injEq] at h
        exact Or.inl h.2.symm
      | some p =>
        obtain ⟨line, rest'⟩ := p
        rw [hg] at h
        simp only [Option.some.injEq, Prod.mk.injEq] at h
        rcases ih line rest' hg with h1 | h1
        · left; rw [← h.2]; exact h1
        · right
          rw [← h.2, List.count_cons_of_ne (Ne.symm hc)]
          exact h1

theorem readTokens_nil (fuel : ℕ) : readTokens fuel [] = [] := by
  cases fuel <;> simp [readTokens, getline]

theorem readTokens_length_le (fuel : ℕ) :
    ∀ ss : List Char, (readTokens fuel ss).length ≤ ss.count ',' + 1 := by
  induction fuel with
  | zero => intro ss; simp [readTokens]
  | succ fuel ih =>
    intro ss
    unfold readTokens
    cases hg : getline ',' ss with
    | none => simp
    | some p =>
      obtain ⟨token, rest⟩ := p
      simp only [List.length_cons]
      rcases getline_count ',' ss token rest hg with h | h
      · rw [h, readTokens_nil]
        simp
      · have := ih rest
        omega

theorem tokensOf_length_le (line : List Char) : (tokensOf line).length ≤ fieldCount line :=
  readTokens_length_le _ line

theorem getlineNL_first (first rest : List Char) (h : '\n' ∉ first) :
    getlineNL (first ++ '\n' :: rest) = some (first, rest) :=
  getline_append '\n' rest first h

theorem getlineNL_line (second rest : List Char) (h : '\n' ∉ second)
    (hr : rest = [] ∨ ∃ r, rest = '\n' :: r) (hne : second ++ rest ≠ []) :
    ∃ rest', getlineNL (second ++ rest) = some (second, rest') := by
  rcases hr with hr | ⟨r, hr⟩
  · subst hr
    rw [List.append_nil] at hne ⊢
    exact ⟨[], getline_of_not_mem '\n' second h hne⟩
  · subst hr
    exact ⟨r, getline_append '\n' r second h⟩

theorem Environment.LoadEnvironment_second_line (L : Lib) (first second rest : List Char)
    (h1 : '\n' ∉ first) (h2 : '\n' ∉ second)
    (hr : rest = [] ∨ ∃ r, rest = '\n' :: r) (hne : second ++ rest ≠ []) :
    ∃ rest', Environment.LoadEnvironment L ⟨true, first ++ '\n' :: (second ++ rest)⟩ =
      if findENVatZero second then
        if (tokensOf second).length ≥ 3 then
          match L.stod ((tokensOf second).getD 1 []), L.stod ((tokensOf second).getD 2 []) with
          | .ok x, .ok y => .ok (some (Environment.create ⟨x, y⟩), ⟨true, rest'⟩)
          | .error e, _ => .error e
          | .ok _, .error e => .error e
        else .ok (none, ⟨true, rest'⟩)
      else .ok (none, ⟨true, rest'⟩) := by
  obtain ⟨rest', hl⟩ := getlineNL_line second rest h2 hr hne
  refine ⟨rest', ?_⟩
  simp [Environment.LoadEnvironment, IfStream.getline, getlineNL_first first _ h1, hl]

/-- C10: `LoadEnvironment` skips the first line whatever it contains, and
returns none when there is no second line, when the second line does not begin
with `ENV` (as `FOO,1,2`) and when the second line has fewer than 3
comma-separated fields; on a stream that is not open it returns none as
well. -/
theorem Environment.LoadEnvironment_header (L : Lib) :
    (∀ first first' rest : List Char, '\n' ∉ first → '\n' ∉ first' →
      Environment.LoadEnvironment L ⟨true, first ++ '\n' :: rest⟩
        = Environment.LoadEnvironment L ⟨true, first' ++ '\n' :: rest⟩)
    ∧ (∀ first : List Char, '\n' ∉ first →
        (∃ f, Environment.LoadEnvironment L ⟨true, first⟩ = .ok (none, f))
        ∧ (∃ f, Environment.LoadEnvironment L ⟨true, first ++ ['\n']⟩ = .ok (none, f)))
    ∧ (∀ first second rest : List Char, '\n' ∉ first → '\n' ∉ second →
        (rest = [] ∨ ∃ r, rest = '\n' :: r) → second ++ rest ≠ [] →
        (¬ (['E', 'N', 'V'] <+: second) ∨ fieldCount second < 3) →
        ∃ f, Environment.LoadEnvironment L ⟨true, first ++ '\n' :: (second ++ rest)⟩
          = .ok (none, f))
    ∧ (∃ f, Environment.LoadEnvironment L
          ⟨true, headerLine ++ '\n' :: ("FOO,1,2".toList ++ "\nO,5,5\n".toList)⟩
        = .ok (none, f))
    ∧ (∀ content : List Char,
        Environment.LoadEnvironment L ⟨false, content⟩ = .ok (none, ⟨false, content⟩)) := by
  have part3 : ∀ first second rest : List Char, '\n' ∉ first → '\n' ∉ second →
      (rest = [] ∨ ∃ r, rest = '\n' :: r) → second ++ rest ≠ [] →
      (¬ (['E', 'N', 'V'] <+: second) ∨ fieldCount second < 3) →
      ∃ f, Environment.LoadEnvironment L ⟨true, first ++ '\n' :: (second ++ rest)⟩
        = .ok (none, f) := by
    intro first second rest h1 h2 hr hne hbad
    obtain ⟨rest', h⟩ := Environment.LoadEnvironment_second_line L first second rest h1 h2 hr hne
    refine ⟨⟨true, rest'⟩, ?_⟩
    rw [h]
    rcases hbad with hbad | hbad
    · have : findENVatZero second = false := by
        rw [← Bool.not_eq_true]
        intro hf
        apply hbad
        simp only [findENVatZero, beq_iff_eq] at hf
        rw [← hf]
        exact List.take_prefix 3 second
      rw [this]
      simp
    · have hlen := tokensOf_length_le second
      have : ¬ (tokensOf second).length ≥ 3 := by omega
      rw [if_neg this]
      simp
  refine ⟨?_, ?_, part3, ?_, fun _ => rfl⟩
  · intro first first' rest h1 h2
    simp [Environment.LoadEnvironment, IfStream.getline, getlineNL_first first _ h1,
      getlineNL_first first' _ h2]
  · intro first h1
    constructor
    · by_cases hf : first = []
      · subst hf
        exact ⟨⟨true, []⟩,
          by simp [Environment.LoadEnvironment, IfStream.getline, getlineNL, getline]⟩
      · have h := getline_of_not_mem '\n' first h1 hf
        exact ⟨⟨true, []⟩,
          by simp [Environment.LoadEnvironment, IfStream.getline, getlineNL, h, getline]⟩
    · have h : getline '\n' (first ++ ['\n']) = some (first, []) := getlineNL_first first [] h1
      exact ⟨⟨true, []⟩,
        by simp [Environment.LoadEnvironment, IfStream.getline, getlineNL, h, getline]⟩
  · apply part3
    · decide
    · decide
    · right; exact ⟨_, rfl⟩
    · decide
    · left; decide

theorem Environment.LoadEnvironment_header_witness :
    ∃ f, Environment.LoadEnvironment refLib ⟨true, headerLine ++ '\n' :: ("ENV,5".toList ++ [])⟩
      = .ok (none, f) :=
  (Environment.LoadEnvironment_header refLib).2.2.1 headerLine "ENV,5".toList []
    (by decide) (by decide) (Or.inl rfl) (by decide) (Or.inr (by decide))

/-! ### The body of a layout -/

theorem ifstream_getline_line (line rest : List Char) (h : '\n' ∉ line) :
    IfStream.getline ⟨true, line ++ '\n' :: rest⟩ = (some line, ⟨true, rest⟩) := by
  simp [IfStream.getline, getlineNL_first line rest h]

theorem ifstream_getline_nil : IfStream.getline ⟨true, []⟩ = (none, ⟨true, []⟩) := by
  simp [IfStream.getline, getlineNL, getline]

theorem CustomGraphicsScene.length_le_unlinesNL (lines : List (List Char)) :
    lines.length ≤ (CustomGraphicsScene.unlinesNL lines).length := by
  induction lines with
  | nil => simp [CustomGraphicsScene.unlinesNL]
  | cons line rest ih =>
    simp only [CustomGraphicsScene.unlinesNL, List.length_append, List.length_cons]
    omega

theorem Environment.loadObjectsLoop_unlinesNL (L : Lib) :
    ∀ (lines : List (List Char)) (fuel : ℕ) (env : Environment),
      (∀ line ∈ lines, '\n' ∉ line) → lines.length < fuel →
      Environment.loadObjectsLoop L fuel env ⟨true, CustomGraphicsScene.unlinesNL lines⟩
        = Environment.loadLines L env lines := by
  intro lines
  induction lines with
  | nil =>
    intro fuel env _ hf
    cases fuel with
    | zero => omega
    | succ fuel =>
      simp [Environment.loadObjectsLoop, CustomGraphicsScene.unlinesNL, ifstream_getline_nil,
        Environment.loadLines]
  | cons line rest ih =>
    intro fuel env hnl hf
    cases fuel with
    | zero => simp at hf
    | succ fuel =>
      have h1 : '\n' ∉ line := hnl line (List.mem_cons_self _ _)
      have h2 : ∀ l ∈ rest, '\n' ∉ l := fun l hl => hnl l (List.mem_cons_of_mem _ hl)
      have h3 : rest.length < fuel := by simpa using hf
      simp only [Environment.loadObjectsLoop, CustomGraphicsScene.unlinesNL,
        ifstream_getline_line line _ h1, Environment.loadLines]
      cases hl : Environment.loadLine L env line with
      | error e => rfl
      | ok p =>
        obtain ⟨env1, b⟩ := p
        cases b with
        | false => rfl
        | true => exact ih fuel env1 h2 h3

theorem Environment.LoadObjects_unlinesNL (L : Lib) (env : Environment)
    (lines : List (List Char)) (h : ∀ line ∈ lines, '\n' ∉ line) :
    Environment.LoadObjects L env ⟨true, CustomGraphicsScene.unlinesNL lines⟩
      = Environment.loadLines L env lines :=
  Environment.loadObjectsLoop_unlinesNL L lines _ env h
    (Nat.lt_succ_of_le (CustomGraphicsScene.length_le_unlinesNL lines))

theorem Environment.loadLine_short (L : Lib) (env : Environment) (line : List Char)
    (h : (tokensOf line).length < 3) :
    Environment.loadLine L env line = .ok (env, false) := by
  unfold Environment.loadLine
  simp only [ge_iff_le]
  rw [if_neg (by omega)]

theorem Environment.loadLine_three (L : Lib) (env : Environment) (line tag tx ty : List Char)
    (x y : ℤ) (h : tokensOf line = [tag, tx, ty]) (hx : L.stoi tx = .ok x)
    (hy : L.stoi ty = .ok y) :
    Environment.loadLine L env line =
      if tag = ['O'] then
        .ok ({ env with obstacles := env.obstacles ++ [⟨⟨x, y⟩⟩] }, true)
      else .ok (env, false) := by
  unfold Environment.loadLine
  simp only [h, List.length_cons, List.length_nil, List.getD_cons_zero, List.getD_cons_succ,
    hx, hy, Obstacle.create]
  by_cases ht : tag = ['O'] <;> simp [ht]

theorem Environment.loadLine_four (L : Lib) (env : Environment)
    (line tag tx ty ta : List Char) (x y : ℤ) (h : tokensOf line = [tag, tx, ty, ta])
    (hx : L.stoi tx = .ok x) (hy : L.stoi ty = .ok y) :
    Environment.loadLine L env line =
      if tag = ['R'] then
        match L.stoi ta with
        | .error e => .error e
        | .ok a =>
          .ok ({ env with
                  robots := env.robots
                    ++ [⟨Int.tmod (Int.tdiv a 45) 360, ⟨x, y⟩, true, 3, 40⟩] }, true)
      else .ok (env, false) := by
  unfold Environment.loadLine
  simp only [h, List.length_cons, List.length_nil, List.getD_cons_zero, List.getD_cons_succ,
    hx, hy]
  by_cases ht : tag = ['R']
  · simp only [ht]
    cases L.stoi ta <;> simp [Robot.create, Robot.turn, cppRem]
  · simp [ht]

theorem Environment.loadLine_many (L : Lib) (env : Environment)
    (line t0 t1 t2 t3 t4 : List Char) (rest : List (List Char)) (x y : ℤ)
    (h : tokensOf line = t0 :: t1 :: t2 :: t3 :: t4 :: rest)
    (hx : L.stoi t1 = .ok x) (hy : L.stoi t2 = .ok y) :
    Environment.loadLine L env line = .ok (env, false) := by
  unfold Environment.loadLine
  simp [h, hx, hy]

theorem Environment.loadLine_of_integerFields (L : Lib) (env : Environment)
    (line : List Char) (h : integerFields L line) :
    Environment.loadLine L env line =
      .ok (if wellFormedLine line then appendEntities L env [line] else env,
        decide (wellFormedLine line)) := by
  rcases hts : tokensOf line with _ | ⟨t0, _ | ⟨t1, _ | ⟨t2, _ | ⟨t3, _ | ⟨t4, rest⟩⟩⟩⟩⟩
  · rw [Environment.loadLine_short L env line (by simp [hts])]
    simp [wellFormedLine, hts]
  · rw [Environment.loadLine_short L env line (by simp [hts])]
    simp [wellFormedLine, hts]
  · rw [Environment.loadLine_short L env line (by simp [hts])]
    simp [wellFormedLine, hts]
  · obtain ⟨x, hx⟩ := h 1 t1 (by norm_num) (by norm_num) (by simp [hts])
    obtain ⟨y, hy⟩ := h 2 t2 (by norm_num) (by norm_num) (by simp [hts])
    rw [Environment.loadLine_three L env line t0 t1 t2 x y hts hx hy]
    by_cases ht : t0 = ['O']
    · simp [wellFormedLine, hts, ht, appendEntities, obstacleOfLine, robotOfLine, hx, hy]
    · simp [wellFormedLine, hts, ht]
  · obtain ⟨x, hx⟩ := h 1 t1 (by norm_num) (by norm_num) (by simp [hts])
    obtain ⟨y, hy⟩ := h 2 t2 (by norm_num) (by norm_num) (by simp [hts])
    obtain ⟨a, ha⟩ := h 3 t3 (by norm_num) (by norm_num) (by simp [hts])
    rw [Environment.loadLine_four L env line t0 t1 t2 t3 x y hts hx hy]
    by_cases ht : t0 = ['R']
    · simp [wellFormedLine, hts, ht, appendEntities, obstacleOfLine, robotOfLine, hx, hy, ha]
    · simp [wellFormedLine, hts, ht]
  · obtain ⟨x, hx⟩ := h 1 t1 (by norm_num) (by norm_num) (by simp [hts])
    obtain ⟨y, hy⟩ := h 2 t2 (by norm_num) (by norm_num) (by simp [hts])
    rw [Environment.loadLine_many L env line t0 t1 t2 t3 t4 rest x y hts hx hy]
    simp [wellFormedLine, hts]

theorem Environment.loadLines_of_integerFields (L : Lib) :
    ∀ (lines : List (List Char)) (env : Environment),
      (∀ line ∈ lines, integerFields L line) →
      ∃ env' b, Environment.loadLines L env lines = .ok (env', b)
        ∧ (b = true ↔ ∀ line ∈ lines, wellFormedLine line) := by
  intro lines
  induction lines with
  | nil => intro env _; exact ⟨env, true, rfl, by simp⟩
  | cons line rest ih =>
    intro env h
    have h1 := Environment.loadLine_of_integerFields L env line (h line (List.mem_cons_self _ _))
    by_cases hw : wellFormedLine line
    · obtain ⟨env', b, he, hb⟩ := ih (appendEntities L env [line])
        (fun l hl => h l (List.mem_cons_of_mem _ hl))
      refine ⟨env', b, ?_, ?_⟩
      · simp only [Environment.loadLines, h1, hw, if_true, decide_True]
        exact he
      · rw [hb]
        simp [hw]
    · refine ⟨env, false, ?_, ?_⟩
      · simp only [Environment.loadLines, h1, hw, if_false, decide_False]
      · simp [hw]

theorem appendEntities_cons (L : Lib) (env : Environment) (line : List Char)
    (rest : List (List Char)) :
    appendEntities L (appendEntities L env [line]) rest = appendEntities L env (line :: rest) := by
  simp only [appendEntities, List.filterMap_cons, List.filterMap_nil]
  cases obstacleOfLine L line <;> cases robotOfLine L line <;> simp

theorem appendEntities_nil (L : Lib) (env : Environment) : appendEntities L env [] = env := by
  simp [appendEntities]

theorem Environment.loadLines_accepted (L : Lib) :
    ∀ (pre rest : List (List Char)) (env : Environment),
      (∀ line ∈ pre, wellFormedLine line ∧ integerFields L line) →
      Environment.loadLines L env (pre ++ rest)
        = Environment.loadLines L (appendEntities L env pre) rest := by
  intro pre
  induction pre with
  | nil => intro rest env _; rw [appendEntities_nil]; rfl
  | cons line pre ih =>
    intro rest env h
    obtain ⟨hw, hi⟩ := h line (List.mem_cons_self _ _)
    rw [List.cons_append, Environment.loadLines,
      Environment.loadLine_of_integerFields L env line hi]
    simp only [hw, if_true, decide_True]
    rw [ih rest _ (fun l hl => h l (List.mem_cons_of_mem _ hl)), appendEntities_cons]

theorem Environment.loadLine_of_malformed (L : Lib) (env : Environment) (line : List Char)
    (h : malformedLine L line) : Environment.loadLine L env line = .ok (env, false) := by
  rcases h with h | ⟨hw, ⟨x, hx⟩, ⟨y, hy⟩⟩
  · exact Environment.loadLine_short L env line h
  · rcases hts : tokensOf line with _ | ⟨t0, _ | ⟨t1, _ | ⟨t2, _ | ⟨t3, _ | ⟨t4, rest⟩⟩⟩⟩⟩
    · exact Environment.loadLine_short L env line (by simp [hts])
    · exact Environment.loadLine_short L env line (by simp [hts])
    · exact Environment.loadLine_short L env line (by simp [hts])
    · simp only [hts, List.getD_cons_zero, List.getD_cons_succ] at hx hy
      rw [Environment.loadLine_three L env line t0 t1 t2 x y hts hx hy]
      have : t0 ≠ ['O'] := fun ht => hw (Or.inl (by simp [hts, ht]))
      simp [this]
    · simp only [hts, List.getD_cons_zero, List.getD_cons_succ] at hx hy
      rw [Environment.loadLine_four L env line t0 t1 t2 t3 x y hts hx hy]
      have : t0 ≠ ['R'] := fun ht => hw (Or.inr (by simp [hts, ht]))
      simp [this]
    · simp only [hts, List.getD_cons_zero, List.getD_cons_succ] at hx hy
      exact Environment.loadLine_many L env line t0 t1 t2 t3 t4 rest x y hts hx hy

theorem entity_of_accepted (L : Lib) (line : List Char) (hw : wellFormedLine line)
    (hi : integerFields L line) :
    ((obstacleOfLine L line).isSome = true ∧ robotOfLine L line = none)
      ∨ (obstacleOfLine L line = none ∧ (robotOfLine L line).isSome = true) := by
  rcases hts : tokensOf line with _ | ⟨t0, _ | ⟨t1, _ | ⟨t2, _ | ⟨t3, _ | ⟨t4, rest⟩⟩⟩⟩⟩
  all_goals simp only [wellFormedLine, hts] at hw
  all_goals try simp at hw
  · obtain ⟨x, hx⟩ := hi 1 t1 (by norm_num) (by norm_num) (by simp [hts])
    obtain ⟨y, hy⟩ := hi 2 t2 (by norm_num) (by norm_num) (by simp [hts])
    left
    simp [obstacleOfLine, robotOfLine, hts, hx, hy, hw]
  · obtain ⟨x, hx⟩ := hi 1 t1 (by norm_num) (by norm_num) (by simp [hts])
    obtain ⟨y, hy⟩ := hi 2 t2 (by norm_num) (by norm_num) (by simp [hts])
    obtain ⟨a, ha⟩ := hi 3 t3 (by norm_num) (by norm_num) (by simp [hts])
    right
    simp [obstacleOfLine, robotOfLine, hts, hx, hy, ha, hw]

/-- C11, as amended: for body lines whose coordinate and angle tokens are
integers that `std::stoi` reads, `LoadObjects` returns, and it returns true if
and only if every line splits into exactly 3 tokens with first token `O` or
exactly 4 tokens with first token `R`, the tokens being those `std::getline`
cuts at the commas (the empty text after a final comma is no token).  The
lines `O,5`, the empty line, `O,1,2,3`, `R,1,2`, `R,1,2,3,4` and `X,1,2` are not
of that form. -/
theorem Environment.LoadObjects_true_iff (L : Lib) (env : Environment)
    (lines : List (List Char)) (hnl : ∀ line ∈ lines, '\n' ∉ line)
    (hint : ∀ line ∈ lines, integerFields L line) :
    (∃ env' b,
        Environment.LoadObjects L env ⟨true, CustomGraphicsScene.unlinesNL lines⟩
          = .ok (env', b)
        ∧ (b = true ↔ ∀ line ∈ lines, wellFormedLine line))
    ∧ ¬ wellFormedLine "O,5".toList ∧ ¬ wellFormedLine []
    ∧ ¬ wellFormedLine "O,1,2,3".toList ∧ ¬ wellFormedLine "R,1,2".toList
    ∧ ¬ wellFormedLine "R,1,2,3,4".toList ∧ ¬ wellFormedLine "X,1,2".toList := by
  refine ⟨?_, by decide, by decide, by decide, by decide, by decide, by decide⟩
  rw [Environment.LoadObjects_unlinesNL L env lines hnl]
  exact Environment.loadLines_of_integerFields L lines env hint

theorem refLib_integerFields_examples :
    ∀ line ∈ ["O,1,2".toList, "R,3,4,90".toList], integerFields refLib line := by
  intro line hl k tok hk1 hk3 h
  simp only [List.mem_cons, List.mem_singleton, List.not_mem_nil, or_false] at hl
  rcases hl with rfl | rfl <;> interval_cases k <;>
    (simp only [show tokensOf "O,1,2".toList = ["O".toList, "1".toList, "2".toList] by decide,
      show tokensOf "R,3,4,90".toList = ["R".toList, "3".toList, "4".toList, "90".toList]
        by decide] at h
     simp at h <;> (subst h; exact ⟨_, rfl⟩))

theorem Environment.LoadObjects_true_iff_witness :
    ∃ env' b,
      Environment.LoadObjects refLib emptyEnvironment
          ⟨true, CustomGraphicsScene.unlinesNL ["O,1,2".toList, "R,3,4,90".toList]⟩
        = .ok (env', b)
      ∧ (b = true ↔ ∀ line ∈ ["O,1,2".toList, "R,3,4,90".toList], wellFormedLine line) :=
  (Environment.LoadObjects_true_iff refLib emptyEnvironment
    ["O,1,2".toList, "R,3,4,90".toList] (by decide) refLib_integerFields_examples).1

/-- C11 as stated fails twice.  The line `O,99999999999,5` has 3
comma-separated fields, the first is `O` and the others are integers, yet
`LoadObjects` does not return true: `std::stoi` throws `out_of_range`.  The
line `R,1,2,3,` has 5 comma-separated fields, the last one empty, yet
`LoadObjects` returns true. -/
theorem Environment.LoadObjects_fields_counterexample :
    (fieldCount "O,99999999999,5".toList = 3 ∧ firstField "O,99999999999,5".toList = ['O']
      ∧ Environment.LoadObjects refLib emptyEnvironment ⟨true, "O,99999999999,5\n".toList⟩
          = .error .out_of_range)
    ∧ (fieldCount "R,1,2,3,".toList = 5 ∧ firstField "R,1,2,3,".toList = ['R']
      ∧ ∃ env', Environment.LoadObjects refLib emptyEnvironment ⟨true, "R,1,2,3,\n".toList⟩
          = .ok (env', true)) := by
  refine ⟨⟨by decide, by decide, by rfl⟩, by decide, by decide, ⟨_, by rfl⟩⟩

/-- C12: when body line `k` makes `LoadObjects` return false, the load is not
rolled back: the environment returned holds, after the entities it had, the
obstacles and the robots that the lines before line `k` describe, one entity
per line and in file order, and nothing from line `k` or a later line; arena
size and controlled robot are as before. -/
theorem Environment.LoadObjects_partial (L : Lib) (env : Environment)
    (pre : List (List Char)) (bad : List Char) (post : List (List Char))
    (hnl : ∀ line ∈ pre ++ bad :: post, '\n' ∉ line)
    (hpre : ∀ line ∈ pre, wellFormedLine line ∧ integerFields L line)
    (hbad : malformedLine L bad) :
    (∃ env',
      Environment.LoadObjects L env ⟨true, CustomGraphicsScene.unlinesNL (pre ++ bad :: post)⟩
        = .ok (env', false)
      ∧ env'.obstacles = env.obstacles ++ pre.filterMap (obstacleOfLine L)
      ∧ env'.robots = env.robots ++ pre.filterMap (robotOfLine L)
      ∧ env'.size = env.size ∧ env'.controlledRobot = env.controlledRobot)
    ∧ (∀ line ∈ pre,
        ((obstacleOfLine L line).isSome = true ∧ robotOfLine L line = none)
          ∨ (obstacleOfLine L line = none ∧ (robotOfLine L line).isSome = true)) := by
  constructor
  · refine ⟨appendEntities L env pre, ?_, rfl, rfl, rfl, rfl⟩
    rw [Environment.LoadObjects_unlinesNL L env _ hnl,
      Environment.loadLines_accepted L pre (bad :: post) env hpre, Environment.loadLines,
      Environment.loadLine_of_malformed L _ bad hbad]
  · intro line hl
    exact entity_of_accepted L line (hpre line hl).1 (hpre line hl).2

theorem Environment.LoadObjects_partial_witness :
    ∃ env',
      Environment.LoadObjects refLib emptyEnvironment
          ⟨true, CustomGraphicsScene.unlinesNL
            (["O,1,2".toList, "R,3,4,90".toList] ++ "O,5".toList :: ["O,7,8".toList])⟩
        = .ok (env', false)
      ∧ env'.obstacles = emptyEnvironment.obstacles
          ++ ["O,1,2".toList, "R,3,4,90".toList].filterMap (obstacleOfLine refLib)
      ∧ env'.robots = emptyEnvironment.robots
          ++ ["O,1,2".toList, "R,3,4,90".toList].filterMap (robotOfLine refLib)
      ∧ env'.size = emptyEnvironment.size
      ∧ env'.controlledRobot = emptyEnvironment.controlledRobot :=
  (Environment.LoadObjects_partial refLib emptyEnvironment
    ["O,1,2".toList, "R,3,4,90".toList] "O,5".toList ["O,7,8".toList] (by decide)
    (fun line hl => ⟨by
        simp only [List.mem_cons, List.mem_singleton, List.not_mem_nil, or_false] at hl
        rcases hl with rfl | rfl <;> decide,
      refLib_integerFields_examples line hl⟩)
    (Or.inl (by decide))).1

/-! ### The header: what it throws and what it accepts -/

theorem Environment.LoadEnvironment_returns (L : Lib) (file f : IfStream) (env : Environment)
    (h : Environment.LoadEnvironment L file = .ok (some env, f)) :
    file.isOpen = true ∧ ∃ line x y, (file.getline).2.getline = (some line, f)
      ∧ findENVatZero line = true ∧ 3 ≤ (tokensOf line).length
      ∧ L.stod ((tokensOf line).getD 1 []) = .ok x
      ∧ L.stod ((tokensOf line).getD 2 []) = .ok y
      ∧ env = Environment.create ⟨x, y⟩ := by
  unfold Environment.LoadEnvironment at h
  split_ifs at h with h0
  · simp at h
  · refine ⟨by simpa using h0, ?_⟩
    dsimp only at h
    rcases hg : (file.getline).2.getline with ⟨_ | line, file2⟩
    · rw [hg] at h
      simp at h
    · rw [hg] at h
      dsimp only at h
      split_ifs at h with h1 h2
      · cases hx : L.stod ((tokensOf line).getD 1 []) with
        | error e => rw [hx] at h; simp at h
        | ok x =>
          cases hy : L.stod ((tokensOf line).getD 2 []) with
          | error e => rw [hx, hy] at h; simp at h
          | ok y =>
            rw [hx, hy] at h
            simp only [Except.ok.injEq, Prod.mk.injEq, Option.some.injEq] at h
            obtain ⟨he, hf⟩ := h
            subst hf
            exact ⟨line, x, y, rfl, h1, h2, hx, hy, he.symm⟩
      · simp at h
      · simp at h

theorem Environment.LoadEnvironment_of_second_line (L : Lib) (file f : IfStream)
    (line : List Char) (x y : ℚ) (hopen : file.isOpen = true)
    (hline : (file.getline).2.getline = (some line, f))
    (henv : findENVatZero line = true) (hlen : 3 ≤ (tokensOf line).length)
    (hx : L.stod ((tokensOf line).getD 1 []) = .ok x)
    (hy : L.stod ((tokensOf line).getD 2 []) = .ok y) :
    Environment.LoadEnvironment L file = .ok (some (Environment.create ⟨x, y⟩), f) := by
  unfold Environment.LoadEnvironment
  rw [if_neg (by simp [hopen])]
  dsimp only
  rw [hline]
  dsimp only
  rw [if_pos henv, if_pos hlen, hx, hy]

/-- C20, as amended: `LoadEnvironment` returns an Environment, leaving the
stream as `f`, exactly when the file is open and its second line, after which
the stream is `f`, begins with `ENV` and has at least 3 tokens of which
`std::stod` reads the second as `x` and the third as `y`; the Environment
returned then has the arena size `(x, y)`, whatever the signs of `x` and `y`,
and no obstacle, no robot and no controlled robot; so width and height are
positive exactly when the two numbers read from that line are. -/
theorem Environment.LoadEnvironment_size (L : Lib) (file f : IfStream) (env : Environment) :
    Environment.LoadEnvironment L file = .ok (some env, f) ↔
      (file.isOpen = true ∧ ∃ line x y, (file.getline).2.getline = (some line, f)
        ∧ findENVatZero line = true ∧ 3 ≤ (tokensOf line).length
        ∧ L.stod ((tokensOf line).getD 1 []) = .ok x
        ∧ L.stod ((tokensOf line).getD 2 []) = .ok y
        ∧ env.size = ⟨x, y⟩ ∧ env.obstacles = [] ∧ env.robots = []
        ∧ env.controlledRobot = none
        ∧ ((0 < env.size.x ∧ 0 < env.size.y) ↔ (0 < x ∧ 0 < y))) := by
  constructor
  · intro h
    obtain ⟨hopen, line, x, y, hline, h1, h2, hx, hy, he⟩ :=
      Environment.LoadEnvironment_returns L file f env h
    subst he
    exact ⟨hopen, line, x, y, hline, h1, h2, hx, hy, rfl, rfl, rfl, rfl, Iff.rfl⟩
  · rintro ⟨hopen, line, x, y, hline, h1, h2, hx, hy, hs, ho, hr, hc, -⟩
    have he : env = Environment.create ⟨x, y⟩ := by
      cases env
      simp only [Environment.create, Environment.mk.injEq]
      exact ⟨hs, hc, hr, ho⟩
    rw [he]
    exact Environment.LoadEnvironment_of_second_line L file f line x y hopen hline h1 h2 hx hy

theorem Environment.LoadEnvironment_size_witness :
    ∃ x y, ((⟨true, headerLine ++ '\n' :: "ENV,800,600\nO,1,2\n".toList⟩ : IfStream).getline).2.getline
        = (some "ENV,800,600".toList, ⟨true, "O,1,2\n".toList⟩)
      ∧ refLib.stod ((tokensOf "ENV,800,600".toList).getD 1 []) = .ok x
      ∧ refLib.stod ((tokensOf "ENV,800,600".toList).getD 2 []) = .ok y
      ∧ (Environment.create ⟨800, 600⟩).size = ⟨x, y⟩ :=
  match (Environment.LoadEnvironment_size refLib
      ⟨true, headerLine ++ '\n' :: "ENV,800,600\nO,1,2\n".toList⟩ ⟨true, "O,1,2\n".toList⟩
      (Environment.create ⟨800, 600⟩)).mp (by decide!) with
  | ⟨_, line, x, y, hline, _, _, hx, hy, hs, _⟩ => by
    have hl : line = "ENV,800,600".toList := by
      have h0 : ((⟨true, headerLine ++ '\n' :: "ENV,800,600\nO,1,2\n".toList⟩ :
          IfStream).getline).2.getline
          = (some "ENV,800,600".toList, ⟨true, "O,1,2\n".toList⟩) := by decide!
      rw [h0] at hline
      simp only [Prod.mk.injEq, Option.some.injEq, and_true] at hline
      exact hline.symm
    subst hl
    exact ⟨x, y, by decide!, hx, hy, hs⟩

/-- C20 as stated fails: from a file whose second line is `ENV,-5,0`,
`LoadEnvironment` returns an Environment whose arena size is `(-5, 0)`. -/
theorem Environment.LoadEnvironment_size_counterexample :
    Environment.LoadEnvironment refLib ⟨true, headerLine ++ '\n' :: "ENV,-5,0\n".toList⟩
        = .ok (some (Environment.create ⟨-5, 0⟩), ⟨true, []⟩)
    ∧ ¬ (0 < (Environment.create ⟨-5, 0⟩).size.x ∧ 0 < (Environment.create ⟨-5, 0⟩).size.y) :=
  ⟨by decide!, by decide!⟩

theorem Environment.LoadEnvironment_error_of_stod (L : Lib) (first second rest : List Char)
    (e : StdException) (h1 : '\n' ∉ first) (h2 : '\n' ∉ second)
    (henv : findENVatZero second = true) (hlen : 3 ≤ (tokensOf second).length)
    (hthrow : L.stod ((tokensOf second).getD 1 []) = .error e
      ∨ ((∃ x, L.stod ((tokensOf second).getD 1 []) = .ok x)
          ∧ L.stod ((tokensOf second).getD 2 []) = .error e)) :
    Environment.LoadEnvironment L ⟨true, first ++ '\n' :: (second ++ '\n' :: rest)⟩
      = .error e := by
  obtain ⟨rest', h⟩ := Environment.LoadEnvironment_second_line L first second ('\n' :: rest)
    h1 h2 (Or.inr ⟨rest, rfl⟩) (by simp)
  rw [h, if_pos henv, if_pos hlen]
  rcases hthrow with hx | ⟨⟨x, hx⟩, hy⟩
  · rw [hx]
  · rw [hx, hy]

/-- C13, the code at the failing inputs: on a file whose second line is
`ENV,a,b` or `ENV,,5`, `LoadEnvironment` does not return none; the
`std::invalid_argument` thrown by `std::stod` leaves the function. -/
theorem Environment.LoadEnvironment_throws :
    Environment.LoadEnvironment refLib ⟨true, headerLine ++ '\n' :: "ENV,a,b\n".toList⟩
        = .error .invalid_argument
    ∧ Environment.LoadEnvironment refLib ⟨true, headerLine ++ '\n' :: "ENV,,5\n".toList⟩
        = .error .invalid_argument :=
  ⟨by decide!, by decide!⟩

/-! ### Tokens of a written line -/

theorem readTokens_cons (fuel : ℕ) (tok rest : List Char) (h : ',' ∉ tok) :
    readTokens (fuel + 1) (tok ++ ',' :: rest) = tok :: readTokens fuel rest := by
  simp [readTokens, getline_append ',' rest tok h]

theorem readTokens_last (fuel : ℕ) (tok : List Char) (h : ',' ∉ tok) (hne : tok ≠ []) :
    readTokens (fuel + 1) tok = [tok] := by
  simp [readTokens, getline_of_not_mem ',' tok h hne, readTokens_nil]

theorem tokensOf_three (f0 f1 f2 : List Char) (h0 : ',' ∉ f0) (h1 : ',' ∉ f1)
    (h2 : ',' ∉ f2) (hne : f2 ≠ []) :
    tokensOf (f0 ++ ',' :: (f1 ++ ',' :: f2)) = [f0, f1, f2] := by
  unfold tokensOf
  obtain ⟨n, hn⟩ : ∃ n, (f0 ++ ',' :: (f1 ++ ',' :: f2)).length + 1 = n + 3 :=
    ⟨f0.length + f1.length + f2.length, by simp; omega⟩
  rw [hn, readTokens_cons _ _ _ h0, readTokens_cons _ _ _ h1, readTokens_last _ _ h2 hne]

theorem tokensOf_four (f0 f1 f2 f3 : List Char) (h0 : ',' ∉ f0) (h1 : ',' ∉ f1)
    (h2 : ',' ∉ f2) (h3 : ',' ∉ f3) (hne : f3 ≠ []) :
    tokensOf (f0 ++ ',' :: (f1 ++ ',' :: (f2 ++ ',' :: f3))) = [f0, f1, f2, f3] := by
  unfold tokensOf
  obtain ⟨n, hn⟩ : ∃ n, (f0 ++ ',' :: (f1 ++ ',' :: (f2 ++ ',' :: f3))).length + 1 = n + 4 :=
    ⟨f0.length + f1.length + f2.length + f3.length, by simp; omega⟩
  rw [hn, readTokens_cons _ _ _ h0, readTokens_cons _ _ _ h1, readTokens_cons _ _ _ h2,
    readTokens_last _ _ h3 hne]

theorem CustomGraphicsScene.tokensOf_obstacleLine (F : Fmt) (o : Obstacle)
    (hx : cleanField (F.double (o.position.x - 12.5)))
    (hy : cleanField (F.double (o.position.y - 12.5))) :
    tokensOf (CustomGraphicsScene.obstacleLine F o)
      = [['O'], F.double (o.position.x - 12.5), F.double (o.position.y - 12.5)] := by
  have := tokensOf_three ['O'] _ _ (by decide) hx.1 hy.1 hy.2.2
  simpa [CustomGraphicsScene.obstacleLine, Obstacle.getPosition] using this

theorem CustomGraphicsScene.tokensOf_robotLine (F : Fmt) (r : Robot)
    (hx : cleanField (F.double r.position.x)) (hy : cleanField (F.double r.position.y))
    (ha : cleanField (F.int r.direction)) :
    tokensOf (CustomGraphicsScene.robotLine F r)
      = [['R'], F.double r.position.x, F.double r.position.y, F.int r.direction] := by
  have := tokensOf_four ['R'] _ _ _ (by decide) hx.1 hy.1 ha.1 ha.2.2
  simpa [CustomGraphicsScene.robotLine, Robot.getPosition, Robot.angle] using this

theorem CustomGraphicsScene.tokensOf_envLine (F : Fmt) (scene : CustomGraphicsScene)
    (hw : cleanField (F.int scene.width)) (hh : cleanField (F.int scene.height)) :
    tokensOf (CustomGraphicsScene.envLine F scene)
      = [['E', 'N', 'V'], F.int scene.width, F.int scene.height] := by
  have := tokensOf_three ['E', 'N', 'V'] _ _ (by decide) hw.1 hh.1 hh.2.2
  simpa [CustomGraphicsScene.envLine] using this

theorem readInt_of_ok (L : Lib) (s : List Char) (v : ℤ) (h : L.stoi s = .ok v) :
    readInt L s = v := by
  simp [readInt, h]

theorem CustomGraphicsScene.loadLine_obstacleLine (L : Lib) (F : Fmt) (env : Environment)
    (o : Obstacle) (hx : intField L (F.double (o.position.x - 12.5)))
    (hy : intField L (F.double (o.position.y - 12.5))) :
    Environment.loadLine L env (CustomGraphicsScene.obstacleLine F o)
      = .ok ({ env with obstacles := env.obstacles ++ [loadedObstacle L F o] }, true) := by
  obtain ⟨x, hx'⟩ := hx.2
  obtain ⟨y, hy'⟩ := hy.2
  rw [Environment.loadLine_three L env _ _ _ _ x y
    (CustomGraphicsScene.tokensOf_obstacleLine F o hx.1 hy.1) hx' hy']
  simp [loadedObstacle, readInt_of_ok L _ _ hx', readInt_of_ok L _ _ hy']

theorem CustomGraphicsScene.loadLine_robotLine (L : Lib) (F : Fmt) (env : Environment)
    (r : Robot) (hx : intField L (F.double r.position.x))
    (hy : intField L (F.double r.position.y)) (ha : intField L (F.int r.direction)) :
    Environment.loadLine L env (CustomGraphicsScene.robotLine F r)
      = .ok ({ env with robots := env.robots ++ [loadedRobot L F r] }, true) := by
  obtain ⟨x, hx'⟩ := hx.2
  obtain ⟨y, hy'⟩ := hy.2
  obtain ⟨a, ha'⟩ := ha.2
  rw [Environment.loadLine_four L env _ _ _ _ _ x y
    (CustomGraphicsScene.tokensOf_robotLine F r hx.1 hy.1 ha.1) hx' hy']
  simp [loadedRobot, readInt_of_ok L _ _ hx', readInt_of_ok L _ _ hy',
    readInt_of_ok L _ _ ha', ha']

theorem CustomGraphicsScene.loadLines_obstacles (L : Lib) (F : Fmt) :
    ∀ (obstacles : List Obstacle) (rest : List (List Char)) (env : Environment),
      (∀ o ∈ obstacles, intField L (F.double (o.position.x - 12.5))
        ∧ intField L (F.double (o.position.y - 12.5))) →
      Environment.loadLines L env (obstacles.map (CustomGraphicsScene.obstacleLine F) ++ rest)
        = Environment.loadLines L
            { env with obstacles := env.obstacles ++ obstacles.map (loadedObstacle L F) } rest := by
  intro obstacles
  induction obstacles with
  | nil => intro rest env _; simp
  | cons o os ih =>
    intro rest env h
    obtain ⟨hx, hy⟩ := h o (List.mem_cons_self _ _)
    rw [List.map_cons, List.cons_append, Environment.loadLines,
      CustomGraphicsScene.loadLine_obstacleLine L F env o hx hy]
    simp only
    rw [ih rest _ (fun o' ho' => h o' (List.mem_cons_of_mem _ ho'))]
    simp

theorem CustomGraphicsScene.loadLines_robots (L : Lib) (F : Fmt) :
    ∀ (robots : List Robot) (rest : List (List Char)) (env : Environment),
      (∀ r ∈ robots, intField L (F.double r.position.x) ∧ intField L (F.double r.position.y)
        ∧ intField L (F.int r.direction)) →
      Environment.loadLines L env (robots.map (CustomGraphicsScene.robotLine F) ++ rest)
        = Environment.loadLines L
            { env with robots := env.robots ++ robots.map (loadedRobot L F) } rest := by
  intro robots
  induction robots with
  | nil => intro rest env _; simp
  | cons r rs ih =>
    intro rest env h
    obtain ⟨hx, hy, ha⟩ := h r (List.mem_cons_self _ _)
    rw [List.map_cons, List.cons_append, Environment.loadLines,
      CustomGraphicsScene.loadLine_robotLine L F env r hx hy ha]
    simp only
    rw [ih rest _ (fun r' hr' => h r' (List.mem_cons_of_mem _ hr'))]
    simp

/-! ### Loading what `SaveScene` wrote -/

theorem Environment.LoadEnvironment_two_lines (L : Lib) (first second rest : List Char)
    (h1 : '\n' ∉ first) (h2 : '\n' ∉ second) :
    Environment.LoadEnvironment L ⟨true, first ++ '\n' :: (second ++ '\n' :: rest)⟩ =
      if findENVatZero second then
        if (tokensOf second).length ≥ 3 then
          match L.stod ((tokensOf second).getD 1 []), L.stod ((tokensOf second).getD 2 []) with
          | .ok x, .ok y => .ok (some (Environment.create ⟨x, y⟩), ⟨true, rest⟩)
          | .error e, _ => .error e
          | .ok _, .error e => .error e
        else .ok (none, ⟨true, rest⟩)
      else .ok (none, ⟨true, rest⟩) := by
  simp [Environment.LoadEnvironment, IfStream.getline, getlineNL_first first _ h1,
    getlineNL_first second _ h2]

theorem CustomGraphicsScene.newline_not_mem_bodyLines (L : Lib) (F : Fmt)
    (scene : CustomGraphicsScene) (h : Readable L F scene) :
    ∀ line ∈ CustomGraphicsScene.bodyLines F scene, '\n' ∉ line := by
  obtain ⟨-, -, ho, hr⟩ := h
  intro line hl
  simp only [CustomGraphicsScene.bodyLines, List.mem_append, List.mem_map] at hl
  rcases hl with ⟨o, hmem, rfl⟩ | ⟨r, hmem, rfl⟩
  · obtain ⟨hx, hy⟩ := ho o hmem
    simp [CustomGraphicsScene.obstacleLine, Obstacle.getPosition, hx.1.2.1, hy.1.2.1]
  · obtain ⟨hx, hy, ha⟩ := hr r hmem
    simp [CustomGraphicsScene.robotLine, Robot.getPosition, Robot.angle, hx.1.2.1, hy.1.2.1,
      ha.1.2.1]

theorem CustomGraphicsScene.load_SaveScene (L : Lib) (F : Fmt) (scene : CustomGraphicsScene)
    (h : Readable L F scene) :
    Environment.LoadEnvironment L ⟨true, CustomGraphicsScene.SaveScene F scene⟩
        = .ok (some (Environment.create ⟨scene.width, scene.height⟩),
            ⟨true, CustomGraphicsScene.unlinesNL (CustomGraphicsScene.bodyLines F scene)⟩)
    ∧ Environment.LoadObjects L (Environment.create ⟨scene.width, scene.height⟩)
          ⟨true, CustomGraphicsScene.unlinesNL (CustomGraphicsScene.bodyLines F scene)⟩
        = .ok (⟨⟨scene.width, scene.height⟩, none, scene.robots.map (loadedRobot L F),
            scene.obstacles.map (loadedObstacle L F)⟩, true) := by
  have hnl := CustomGraphicsScene.newline_not_mem_bodyLines L F scene h
  obtain ⟨⟨hw, hw'⟩, ⟨hh, hh'⟩, ho, hr⟩ := h
  constructor
  · have htok := CustomGraphicsScene.tokensOf_envLine F scene hw hh
    have henv : findENVatZero (CustomGraphicsScene.envLine F scene) = true := by
      simp [findENVatZero, CustomGraphicsScene.envLine]
    have hn : '\n' ∉ CustomGraphicsScene.envLine F scene := by
      simp [CustomGraphicsScene.envLine, hw.2.1, hh.2.1]
    have h1 : '\n' ∉ "Type, row, col, angle(robot)".toList := by decide
    simp only [CustomGraphicsScene.SaveScene, CustomGraphicsScene.unlinesNL]
    rw [Environment.LoadEnvironment_two_lines L _ _ _ h1 hn, if_pos henv, htok]
    simp [hw', hh']
  · rw [Environment.LoadObjects_unlinesNL L _ _ hnl]
    unfold CustomGraphicsScene.bodyLines
    rw [CustomGraphicsScene.loadLines_obstacles L F scene.obstacles _ _ ho,
      ← List.append_nil (scene.robots.map (CustomGraphicsScene.robotLine F)),
      CustomGraphicsScene.loadLines_robots L F scene.robots [] _ hr]
    simp [Environment.loadLines, Environment.create]

theorem refLib_readable_savedScene : Readable refLib refFmt savedScene := by
  refine ⟨⟨⟨by decide!, by decide!, by decide!⟩, by decide!⟩,
    ⟨⟨by decide!, by decide!, by decide!⟩, by decide!⟩, ?_, ?_⟩
  · intro o ho
    simp only [savedScene, List.mem_singleton] at ho
    subst ho
    exact ⟨⟨⟨by decide!, by decide!, by decide!⟩, 87, by decide!⟩,
      ⟨⟨by decide!, by decide!, by decide!⟩, 87, by decide!⟩⟩
  · intro r hr
    simp only [savedScene, List.mem_cons, List.mem_singleton, List.not_mem_nil, or_false] at hr
    rcases hr with rfl | rfl
    · exact ⟨⟨⟨by decide!, by decide!, by decide!⟩, 200, by decide!⟩,
        ⟨⟨by decide!, by decide!, by decide!⟩, 150, by decide!⟩,
        ⟨⟨by decide!, by decide!, by decide!⟩, 30, by decide!⟩⟩
    · exact ⟨⟨⟨by decide!, by decide!, by decide!⟩, 100, by decide!⟩,
        ⟨⟨by decide!, by decide!, by decide!⟩, 50, by decide!⟩,
        ⟨⟨by decide!, by decide!, by decide!⟩, 0, by decide!⟩⟩

/-- What saving and re-loading does to an editor scene whose printed numbers
are single tokens that `std::stod` and `std::stoi` read: `LoadEnvironment` and
then `LoadObjects` succeed and yield the same arena size, as many obstacles and
as many robots as were saved, in the same order, every one with the
coordinates `std::stoi` reads from its printed coordinates. -/
theorem CustomGraphicsScene.save_load_roundtrip (L : Lib) (F : Fmt)
    (scene : CustomGraphicsScene) (h : Readable L F scene) :
    ∃ env0 rest env',
      Environment.LoadEnvironment L ⟨true, CustomGraphicsScene.SaveScene F scene⟩
          = .ok (some env0, rest)
      ∧ Environment.LoadObjects L env0 rest = .ok (env', true)
      ∧ env'.size = ⟨scene.width, scene.height⟩
      ∧ env'.obstacles.length = scene.obstacles.length
      ∧ env'.robots.length = scene.robots.length
      ∧ (∀ (i : ℕ) (o : Obstacle), scene.obstacles[i]? = some o →
          env'.obstacles[i]? = some (loadedObstacle L F o))
      ∧ (∀ (i : ℕ) (r : Robot), scene.robots[i]? = some r →
          env'.robots[i]? = some (loadedRobot L F r)) := by
  obtain ⟨h1, h2⟩ := CustomGraphicsScene.load_SaveScene L F scene h
  refine ⟨_, _, _, h1, h2, rfl, by simp, by simp, ?_, ?_⟩
  · intro i o hi
    simp [List.getElem?_map, hi]
  · intro i r hi
    simp [List.getElem?_map, hi]

theorem CustomGraphicsScene.save_load_roundtrip_example :
    ∃ env0 rest env',
      Environment.LoadEnvironment refLib ⟨true, CustomGraphicsScene.SaveScene refFmt savedScene⟩
          = .ok (some env0, rest)
      ∧ Environment.LoadObjects refLib env0 rest = .ok (env', true)
      ∧ env'.size = ⟨savedScene.width, savedScene.height⟩
      ∧ env'.obstacles.length = savedScene.obstacles.length
      ∧ env'.robots.length = savedScene.robots.length :=
  match CustomGraphicsScene.save_load_roundtrip refLib refFmt savedScene
      refLib_readable_savedScene with
  | ⟨env0, rest, env', h1, h2, h3, h4, h5, _⟩ => ⟨env0, rest, env', h1, h2, h3, h4, h5⟩

/-- C14, the code at the failing inputs: the robot the editor holds at
`(100.5, 50)` is written as `R,100.5,50,0` and comes back from `LoadObjects` at
`(100, 50)`; the robot it holds at `(1234567, 50)` is written as
`R,1.23457e+06,50,0` and comes back at `(1, 50)`.  The load succeeds and the
arena size and the numbers of obstacles and robots are those saved. -/
theorem CustomGraphicsScene.save_load_robot_truncates :
    CustomGraphicsScene.SaveScene refFmt savedScene
        = "Type, row, col, angle(robot)\nENV,800,600\nO,87.5,87.5\nR,200,150,30\nR,100.5,50,0\n".toList
    ∧ Environment.LoadEnvironment refLib ⟨true, CustomGraphicsScene.SaveScene refFmt savedScene⟩
        = .ok (some (Environment.create ⟨800, 600⟩),
            ⟨true, "O,87.5,87.5\nR,200,150,30\nR,100.5,50,0\n".toList⟩)
    ∧ Environment.LoadObjects refLib (Environment.create ⟨800, 600⟩)
          ⟨true, "O,87.5,87.5\nR,200,150,30\nR,100.5,50,0\n".toList⟩
        = .ok (⟨⟨800, 600⟩, none,
            [⟨0, ⟨200, 150⟩, true, 3, 40⟩, ⟨0, ⟨100, 50⟩, true, 3, 40⟩], [⟨⟨87, 87⟩⟩]⟩, true)
    ∧ savedScene.robots[1]? = some ⟨0, ⟨100.5, 50⟩, true, 3, 40⟩
    ∧ (⟨100, 50⟩ : QPointF) ≠ ⟨100.5, 50⟩
    ∧ CustomGraphicsScene.SaveScene refFmt wideScene
        = "Type, row, col, angle(robot)\nENV,2000000,600\nR,1.23457e+06,50,0\n".toList
    ∧ Environment.LoadEnvironment refLib ⟨true, CustomGraphicsScene.SaveScene refFmt wideScene⟩
        = .ok (some (Environment.create ⟨2000000, 600⟩),
            ⟨true, "R,1.23457e+06,50,0\n".toList⟩)
    ∧ Environment.LoadObjects refLib (Environment.create ⟨2000000, 600⟩)
          ⟨true, "R,1.23457e+06,50,0\n".toList⟩
        = .ok (⟨⟨2000000, 600⟩, none, [⟨0, ⟨1, 50⟩, true, 3, 40⟩], []⟩, true)
    ∧ wideScene.robots[0]? = some ⟨0, ⟨1234567, 50⟩, true, 3, 40⟩
    ∧ (⟨1, 50⟩ : QPointF) ≠ ⟨1234567, 50⟩ :=
  ⟨by decide!, by decide!, by decide!, by decide!, by decide!, by decide!, by decide!,
    by decide!, by decide!, by decide!⟩

theorem int_ne_int_sub_half (v m : ℤ) : (v : ℚ) ≠ (m : ℚ) - 12.5 := by
  intro h
  have h2 : ((2 * v : ℤ) : ℚ) = ((2 * m - 25 : ℤ) : ℚ) := by
    push_cast
    rw [h]
    norm_num
    ring
  have h3 : 2 * v = 2 * m - 25 := by exact_mod_cast h2
  omega

/-- What saving and re-loading does to an obstacle the editor holds at
`(x,y)`, in a scene whose printed numbers are read back: at the same index
stands an obstacle whose coordinates are the integers `std::stoi` reads from
the printed `x - 12.5` and `y - 12.5`; it stands at exactly
`(x - 12.5, y - 12.5)` if and only if both numbers are read back exactly,
which never happens for an integer `x` or `y`. -/
theorem CustomGraphicsScene.save_load_obstacle (L : Lib) (F : Fmt)
    (scene : CustomGraphicsScene) (h : Readable L F scene) (i : ℕ) (o : Obstacle)
    (hi : scene.obstacles[i]? = some o) :
    ∃ env0 rest env' o',
      Environment.LoadEnvironment L ⟨true, CustomGraphicsScene.SaveScene F scene⟩
          = .ok (some env0, rest)
      ∧ Environment.LoadObjects L env0 rest = .ok (env', true)
      ∧ env'.obstacles[i]? = some o'
      ∧ o'.position = ⟨readInt L (F.double (o.position.x - 12.5)),
          readInt L (F.double (o.position.y - 12.5))⟩
      ∧ (o'.position = ⟨o.position.x - 12.5, o.position.y - 12.5⟩ ↔
          ((readInt L (F.double (o.position.x - 12.5)) : ℚ) = o.position.x - 12.5
            ∧ (readInt L (F.double (o.position.y - 12.5)) : ℚ) = o.position.y - 12.5))
      ∧ (((∃ n : ℤ, o.position.x = n) ∨ (∃ n : ℤ, o.position.y = n)) →
          o'.position ≠ ⟨o.position.x - 12.5, o.position.y - 12.5⟩) := by
  obtain ⟨h1, h2⟩ := CustomGraphicsScene.load_SaveScene L F scene h
  refine ⟨_, _, _, loadedObstacle L F o, h1, h2, by simp [List.getElem?_map, hi], rfl, ?_, ?_⟩
  · simp [loadedObstacle]
  · intro hint hpos
    simp only [loadedObstacle, QPointF.mk.injEq] at hpos
    rcases hint with ⟨n, hn⟩ | ⟨n, hn⟩
    · rw [hn] at hpos
      exact int_ne_int_sub_half _ n hpos.1
    · rw [hn] at hpos
      exact int_ne_int_sub_half _ n hpos.2

theorem CustomGraphicsScene.save_load_obstacle_example :
    ∃ env0 rest env' o',
      Environment.LoadEnvironment refLib ⟨true, CustomGraphicsScene.SaveScene refFmt savedScene⟩
          = .ok (some env0, rest)
      ∧ Environment.LoadObjects refLib env0 rest = .ok (env', true)
      ∧ env'.obstacles[0]? = some o'
      ∧ o'.position = ⟨readInt refLib (refFmt.double ((100 : ℚ) - 12.5)),
          readInt refLib (refFmt.double ((100 : ℚ) - 12.5))⟩ :=
  match CustomGraphicsScene.save_load_obstacle refLib refFmt savedScene
      refLib_readable_savedScene 0 ⟨⟨100, 100⟩⟩ rfl with
  | ⟨env0, rest, env', o', h1, h2, h3, h4, _⟩ => ⟨env0, rest, env', o', h1, h2, h3, h4⟩

/-- C15, the code at the failing input: the obstacle the editor holds at
`(100,100)` is written as `O,87.5,87.5` and comes back from `LoadObjects` at
`(87,87)`, not at `(87.5,87.5)`. -/
theorem CustomGraphicsScene.save_load_obstacle_truncates :
    savedScene.obstacles = [⟨⟨100, 100⟩⟩]
    ∧ CustomGraphicsScene.obstacleLine refFmt ⟨⟨100, 100⟩⟩ = "O,87.5,87.5".toList
    ∧ Environment.LoadObjects refLib (Environment.create ⟨800, 600⟩)
          ⟨true, CustomGraphicsScene.unlinesNL
            (CustomGraphicsScene.bodyLines refFmt savedScene)⟩
        = .ok (⟨⟨800, 600⟩, none,
            [⟨0, ⟨200, 150⟩, true, 3, 40⟩, ⟨0, ⟨100, 50⟩, true, 3, 40⟩], [⟨⟨87, 87⟩⟩]⟩, true)
    ∧ (⟨87, 87⟩ : QPointF) ≠ ⟨100 - 12.5, 100 - 12.5⟩ :=
  ⟨by decide!, by decide!, by decide!, by decide!⟩

/-! ### The heading of a loaded robot -/

theorem tmod_eq_self (q : ℤ) (h1 : -360 < q) (h2 : q < 360) : Int.tmod q 360 = q := by
  by_cases h : 0 ≤ q
  · exact Int.tmod_eq_of_lt h h2
  · have h3 := cppRem_neg (-q) 360
    rw [neg_neg] at h3
    unfold cppRem at h3
    rw [h3, Int.tmod_eq_of_lt (by omega) (by omega)]
    omega

theorem tdiv_45_bounds (a : ℤ) (h1 : -16200 < a) (h2 : a < 16200) :
    -360 < Int.tdiv a 45 ∧ Int.tdiv a 45 < 360 := by
  by_cases h : 0 ≤ a
  · rw [Int.tdiv_eq_ediv h (by norm_num)]
    omega
  · have h3 : Int.tdiv a 45 = -(Int.tdiv (-a) 45) := by
      rw [Int.neg_tdiv, neg_neg]
    rw [h3, Int.tdiv_eq_ediv (by omega) (by norm_num)]
    omega

/-- C16, as amended: for every robot line `R,x,y,a` with integer angle `a`,
the robot `LoadObjects` creates has stored heading `(a / 45) rem 360`, with the
truncating division and remainder, which is `a / 45` whenever
`-16200 < a < 16200`; so a robot saved with raw heading `h` that is printed
and read back comes out of a save and load with heading `(h / 45) rem 360`,
which is `h / 45` whenever `-16200 < h < 16200`. -/
theorem Environment.loadLine_heading (L : Lib) (env : Environment)
    (line tx ty ta : List Char) (x y a : ℤ) (htok : tokensOf line = [['R'], tx, ty, ta])
    (hx : L.stoi tx = .ok x) (hy : L.stoi ty = .ok y) (ha : L.stoi ta = .ok a) :
    (∃ r : Robot,
      Environment.loadLine L env line = .ok ({ env with robots := env.robots ++ [r] }, true)
      ∧ r.direction = Int.tmod (Int.tdiv a 45) 360
      ∧ (-16200 < a → a < 16200 → r.direction = Int.tdiv a 45))
    ∧ (∀ (F : Fmt) (scene : CustomGraphicsScene) (i : ℕ) (r : Robot),
        Readable L F scene → scene.robots[i]? = some r →
        L.stoi (F.int r.direction) = .ok r.direction →
        ∃ env0 rest env' r',
          Environment.LoadEnvironment L ⟨true, CustomGraphicsScene.SaveScene F scene⟩
              = .ok (some env0, rest)
          ∧ Environment.LoadObjects L env0 rest = .ok (env', true)
          ∧ env'.robots[i]? = some r'
          ∧ r'.direction = Int.tmod (Int.tdiv r.direction 45) 360
          ∧ (-16200 < r.direction → r.direction < 16200 →
              r'.direction = Int.tdiv r.direction 45)) := by
  constructor
  · refine ⟨⟨Int.tmod (Int.tdiv a 45) 360, ⟨x, y⟩, true, 3, 40⟩, ?_, rfl, ?_⟩
    · rw [Environment.loadLine_four L env line _ tx ty ta x y htok hx hy]
      simp [ha]
    · intro h1 h2
      exact tmod_eq_self _ (tdiv_45_bounds a h1 h2).1 (tdiv_45_bounds a h1 h2).2
  · intro F scene i r hread hi hdir
    obtain ⟨h1, h2⟩ := CustomGraphicsScene.load_SaveScene L F scene hread
    refine ⟨_, _, _, loadedRobot L F r, h1, h2, by simp [List.getElem?_map, hi], ?_, ?_⟩
    · simp [loadedRobot, readInt_of_ok L _ _ hdir]
    · intro b1 b2
      simp only [loadedRobot, readInt_of_ok L _ _ hdir]
      exact tmod_eq_self _ (tdiv_45_bounds _ b1 b2).1 (tdiv_45_bounds _ b1 b2).2

theorem Environment.loadLine_heading_witness :
    ∃ r : Robot,
      Environment.loadLine refLib emptyEnvironment "R,3,4,90".toList
        = .ok ({ emptyEnvironment with robots := emptyEnvironment.robots ++ [r] }, true)
      ∧ r.direction = Int.tmod (Int.tdiv 90 45) 360
      ∧ (-16200 < (90 : ℤ) → (90 : ℤ) < 16200 → r.direction = Int.tdiv 90 45) :=
  (Environment.loadLine_heading refLib emptyEnvironment "R,3,4,90".toList "3".toList
    "4".toList "90".toList 3 4 90 (by decide) (by decide!) (by decide!) (by decide!)).1

/-- C16 as stated fails: for the line `R,1,2,16200` the robot `LoadObjects`
creates has heading 0, while `16200 / 45` is 360. -/
theorem Environment.loadLine_heading_counterexample :
    Environment.LoadObjects refLib emptyEnvironment ⟨true, "R,1,2,16200\n".toList⟩
        = .ok ({ emptyEnvironment with robots := [⟨0, ⟨1, 2⟩, true, 3, 40⟩] }, true)
    ∧ Int.tdiv 16200 45 = 360 :=
  ⟨by decide!, by decide⟩

/-! ### Robot selection -/

/-- C17: in an environment holding `n` robots, for `1 ≤ k ≤ n`,
`GetRobotByNumber(k)` is the robot at position `k` of the list, counted from
1, and the lookup is within bounds; after `SetControlledRobot(k)`,
`GetControlledRobot` designates that same robot; after `SetControlledRobot(0)`
no robot is controlled; `SetControlledRobot` changes neither the robot list
nor any robot in it, nor the obstacles or the arena size. -/
theorem Environment.controlled_robot_access (env : Environment) (k : ℕ) (h1 : 1 ≤ k)
    (hn : k ≤ env.robots.length) :
    (∃ (hlt : k - 1 < env.robots.length),
        env.GetRobotByNumber k = some (env.robots.get ⟨k - 1, hlt⟩))
    ∧ (∃ env', env.SetControlledRobot k = some env'
        ∧ env'.GetControlledRobot = some (k - 1)
        ∧ (∃ r, env.GetRobotByNumber k = some r ∧ env'.robots[k - 1]? = some r)
        ∧ env'.robots = env.robots ∧ env'.obstacles = env.obstacles ∧ env'.size = env.size)
    ∧ (∃ env', env.SetControlledRobot 0 = some env'
        ∧ env'.GetControlledRobot = none
        ∧ env'.robots = env.robots ∧ env'.obstacles = env.obstacles ∧ env'.size = env.size) := by
  have hlt : k - 1 < env.robots.length := by omega
  have hk : ((k : ℤ) - 1).toNat = k - 1 := by omega
  have hcond : (1 : ℤ) ≤ (k : ℤ) ∧ (k : ℤ) ≤ (env.robots.length : ℤ) := by
    constructor <;> omega
  have hget : env.GetRobotByNumber k = some (env.robots.get ⟨k - 1, hlt⟩) := by
    simp only [Environment.GetRobotByNumber, if_pos hcond, hk]
    rw [List.getElem?_eq_getElem hlt]
    rfl
  refine ⟨⟨hlt, hget⟩, ?_, ?_⟩
  · have hk0 : (k : ℤ) ≠ 0 := by omega
    refine ⟨{ env with controlledRobot := some (k - 1) }, ?_, rfl,
      ⟨_, hget, ?_⟩, rfl, rfl, rfl⟩
    · simp only [Environment.SetControlledRobot, if_neg hk0, if_pos hcond, hk]
    · show env.robots[k - 1]? = _
      rw [List.getElem?_eq_getElem hlt]
      rfl
  · exact ⟨{ env with controlledRobot := none }, by simp [Environment.SetControlledRobot],
      rfl, rfl, rfl, rfl⟩

theorem Environment.controlled_robot_access_witness :
    ∃ env', threeRobots.SetControlledRobot 2 = some env'
      ∧ env'.GetControlledRobot = some (2 - 1)
      ∧ (∃ r, threeRobots.GetRobotByNumber 2 = some r ∧ env'.robots[2 - 1]? = some r)
      ∧ env'.robots = threeRobots.robots ∧ env'.obstacles = threeRobots.obstacles
      ∧ env'.size = threeRobots.size :=
  (Environment.controlled_robot_access threeRobots 2 (by decide) (by decide)).2.1

/-! ### Manual control -/

/-- C18: with a controlled robot `c`, `forwardMove` replaces `c` by the result
of `move()` (a new position, nothing else) if `canMove` holds for `c`, whether
`c` is enabled or not, and otherwise changes nothing; `leftRotate` applies
`turn(10)` to `c` and `rightRotate` applies `turn(-10)`; none of the three
changes another robot, the obstacles, the arena size or the selection; with no
controlled robot all three change nothing. -/
theorem SimulationWidget.manual_control (L : Lib) (env : Environment) :
    (∀ (c : ℕ) (robot : Robot), env.controlledRobot = some c → env.robots[c]? = some robot →
      (Robot.canMove L env.robots env.obstacles env.size c = true →
          SimulationWidget.forwardMove L env
            = { env with robots := env.robots.set c (robot.move L).2 }
          ∧ (robot.move L).2 = { robot with position := (robot.move L).2.position })
      ∧ (Robot.canMove L env.robots env.obstacles env.size c = false →
          SimulationWidget.forwardMove L env = env)
      ∧ SimulationWidget.leftRotate env
          = { env with robots := env.robots.set c (robot.turn 10) }
      ∧ SimulationWidget.rightRotate env
          = { env with robots := env.robots.set c (robot.turn (-10)) }
      ∧ (∀ j : ℕ, j ≠ c →
          (SimulationWidget.forwardMove L env).robots[j]? = env.robots[j]?
          ∧ (SimulationWidget.leftRotate env).robots[j]? = env.robots[j]?
          ∧ (SimulationWidget.rightRotate env).robots[j]? = env.robots[j]?))
    ∧ (env.controlledRobot = none →
        SimulationWidget.forwardMove L env = env ∧ SimulationWidget.leftRotate env = env
          ∧ SimulationWidget.rightRotate env = env) := by
  constructor
  · intro c robot hc hr
    have hl : SimulationWidget.leftRotate env
        = { env with robots := env.robots.set c (robot.turn 10) } := by
      simp [SimulationWidget.leftRotate, Environment.GetControlledRobot, hc, hr]
    have hrr : SimulationWidget.rightRotate env
        = { env with robots := env.robots.set c (robot.turn (-10)) } := by
      simp [SimulationWidget.rightRotate, Environment.GetControlledRobot, hc, hr]
    have hft : Robot.canMove L env.robots env.obstacles env.size c = true →
        SimulationWidget.forwardMove L env
          = { env with robots := env.robots.set c (robot.move L).2 } := by
      intro hcm
      simp [SimulationWidget.forwardMove, Environment.GetControlledRobot,
        Environment.GetRobots, Environment.GetObstacles, Environment.GetSize, hc, hr, hcm]
    have hff : Robot.canMove L env.robots env.obstacles env.size c = false →
        SimulationWidget.forwardMove L env = env := by
      intro hcm
      simp [SimulationWidget.forwardMove, Environment.GetControlledRobot,
        Environment.GetRobots, Environment.GetObstacles, Environment.GetSize, hc, hcm]
    refine ⟨fun hcm => ⟨hft hcm, rfl⟩, hff, hl, hrr, ?_⟩
    intro j hj
    refine ⟨?_, ?_, ?_⟩
    · cases hcm : Robot.canMove L env.robots env.obstacles env.size c with
      | false => rw [hff hcm]
      | true =>
        rw [hft hcm]
        simp [List.getElem?_set, Ne.symm hj]
    · rw [hl]
      simp [List.getElem?_set, Ne.symm hj]
    · rw [hrr]
      simp [List.getElem?_set, Ne.symm hj]
  · intro hc
    simp [SimulationWidget.forwardMove, SimulationWidget.leftRotate,
      SimulationWidget.rightRotate, Environment.GetControlledRobot, hc]

theorem SimulationWidget.manual_control_witness :
    SimulationWidget.leftRotate { threeRobots with controlledRobot := some 1 }
        = { threeRobots with
            controlledRobot := some 1
            robots := threeRobots.robots.set 1 (behindRobot.switchEnabled.turn 10) }
    ∧ SimulationWidget.forwardMove refLib { threeRobots with controlledRobot := some 2 }
        = { threeRobots with
            controlledRobot := some 2
            robots := threeRobots.robots.set 2
              ((⟨90, ⟨150, 150⟩, true, 3, 40⟩ : Robot).move refLib).2 } :=
  ⟨((SimulationWidget.manual_control refLib { threeRobots with controlledRobot := some 1 }).1
      1 behindRobot.switchEnabled rfl rfl).2.2.1,
   (((SimulationWidget.manual_control refLib { threeRobots with controlledRobot := some 2 }).1
      2 ⟨90, ⟨150, 150⟩, true, 3, 40⟩ rfl rfl).1 (by decide!)).1⟩

/-! ### The defaults of a loaded robot -/

theorem Environment.loadLine_robots (L : Lib) (env env1 : Environment) (line : List Char)
    (b : Bool) (h : Environment.loadLine L env line = .ok (env1, b)) :
    ∃ added : List Robot, env1.robots = env.robots ++ added
      ∧ ∀ r ∈ added, r.enabled = true ∧ r.triangleBase = 40 ∧ r.moveDistance = 3 := by
  unfold Environment.loadLine at h
  dsimp only at h
  by_cases h3 : (tokensOf line).length ≥ 3
  · rw [if_pos h3] at h
    cases hx : L.stoi ((tokensOf line).getD 1 []) with
    | error e => rw [hx] at h; simp at h
    | ok x =>
      cases hy : L.stoi ((tokensOf line).getD 2 []) with
      | error e => rw [hx, hy] at h; simp at h
      | ok y =>
        rw [hx, hy] at h
        dsimp only at h
        by_cases hO : (tokensOf line).getD 0 [] = ['O'] ∧ (tokensOf line).length = 3
        · rw [if_pos hO] at h
          simp only [Except.ok.injEq, Prod.mk.injEq] at h
          exact ⟨[], by rw [← h.1]; simp, by simp⟩
        · rw [if_neg hO] at h
          by_cases hR : (tokensOf line).getD 0 [] = ['R'] ∧ (tokensOf line).length = 4
          · rw [if_pos hR] at h
            cases ha : L.stoi ((tokensOf line).getD 3 []) with
            | error e => rw [ha] at h; simp at h
            | ok a =>
              rw [ha] at h
              simp only [Except.ok.injEq, Prod.mk.injEq] at h
              refine ⟨[(Robot.create ⟨x, y⟩).turn (Int.tdiv a 45)], by rw [← h.1], ?_⟩
              intro r hr
              simp only [List.mem_singleton] at hr
              subst hr
              exact ⟨rfl, rfl, rfl⟩
          · rw [if_neg hR] at h
            simp only [Except.ok.injEq, Prod.mk.injEq] at h
            exact ⟨[], by rw [← h.1]; simp, by simp⟩
  · rw [if_neg h3] at h
    simp only [Except.ok.injEq, Prod.mk.injEq] at h
    exact ⟨[], by rw [← h.1]; simp, by simp⟩

theorem Environment.loadObjectsLoop_robots (L : Lib) :
    ∀ (fuel : ℕ) (env env' : Environment) (file : IfStream) (b : Bool),
      Environment.loadObjectsLoop L fuel env file = .ok (env', b) →
      ∃ added : List Robot, env'.robots = env.robots ++ added
        ∧ ∀ r ∈ added, r.enabled = true ∧ r.triangleBase = 40 ∧ r.moveDistance = 3 := by
  intro fuel
  induction fuel with
  | zero =>
    intro env env' file b h
    simp only [Environment.loadObjectsLoop, Except.ok.injEq, Prod.mk.injEq] at h
    exact ⟨[], by rw [← h.1]; simp, by simp⟩
  | succ fuel ih =>
    intro env env' file b h
    unfold Environment.loadObjectsLoop at h
    rcases hg : file.getline with ⟨_ | line, file1⟩
    · rw [hg] at h
      simp only [Except.ok.injEq, Prod.mk.injEq] at h
      exact ⟨[], by rw [← h.1]; simp, by simp⟩
    · rw [hg] at h
      dsimp only at h
      cases hl : Environment.loadLine L env line with
      | error e => rw [hl] at h; simp at h
      | ok p =>
        obtain ⟨env1, b1⟩ := p
        obtain ⟨added1, ha1, hd1⟩ := Environment.loadLine_robots L env env1 line b1 hl
        rw [hl] at h
        cases b1 with
        | false =>
          simp only [Except.ok.injEq, Prod.mk.injEq] at h
          exact ⟨added1, by rw [← h.1]; exact ha1, hd1⟩
        | true =>
          obtain ⟨added2, ha2, hd2⟩ := ih env1 env' file1 b h
          refine ⟨added1 ++ added2, by rw [ha2, ha1, List.append_assoc], ?_⟩
          intro r hr
          rcases List.mem_append.mp hr with hr | hr
          · exact hd1 r hr
          · exact hd2 r hr

/-- C19: whatever the layout file contains, every robot `LoadObjects` adds to
the environment, also when it stops at a malformed line, is enabled and has
wedge length 40 and move distance 3; and the text `SaveScene` writes does not
depend on the enabled flag or the wedge length of any robot, so those of an
earlier session cannot reach the loaded robot. -/
theorem Environment.LoadObjects_robot_defaults (L : Lib) (env env' : Environment)
    (file : IfStream) (b : Bool) (h : Environment.LoadObjects L env file = .ok (env', b)) :
    (∃ added : List Robot, env'.robots = env.robots ++ added
      ∧ ∀ r ∈ added, r.enabled = true ∧ r.triangleBase = 40 ∧ r.moveDistance = 3)
    ∧ (∀ (F : Fmt) (scene : CustomGraphicsScene) (en : Robot → Bool) (base : Robot → ℤ),
        CustomGraphicsScene.SaveScene F
            { scene with
              robots := scene.robots.map
                (fun r => { r with enabled := en r, triangleBase := base r }) }
          = CustomGraphicsScene.SaveScene F scene) := by
  refine ⟨Environment.loadObjectsLoop_robots L _ env env' file b h, ?_⟩
  intro F scene en base
  simp only [CustomGraphicsScene.SaveScene, CustomGraphicsScene.bodyLines,
    CustomGraphicsScene.envLine, List.map_map]
  congr 4

theorem Environment.LoadObjects_robot_defaults_witness :
    ∃ added : List Robot,
      ({ emptyEnvironment with
          robots := [⟨2, ⟨3, 4⟩, true, 3, 40⟩]
          obstacles := [⟨⟨1, 2⟩⟩] } : Environment).robots
        = emptyEnvironment.robots ++ added
      ∧ ∀ r ∈ added, r.enabled = true ∧ r.triangleBase = 40 ∧ r.moveDistance = 3 :=
  (Environment.LoadObjects_robot_defaults refLib emptyEnvironment
    { emptyEnvironment with
      robots := [⟨2, ⟨3, 4⟩, true, 3, 40⟩]
      obstacles := [⟨⟨1, 2⟩⟩] }
    ⟨true, "O,1,2\nR,3,4,90\nO,5\n".toList⟩ false (by decide!)).1

/-! ### Obstacles and headings -/

/-- C21: for every obstacle created at `(x,y)`, `boundingRect()` is the
rectangle with top-left corner `(x,y)`, width 25 and height 25, and the
operations of `Obstacle` (`getPosition`, `boundingRect`, `paint`) leave the
position as the constructor set it. -/
theorem Obstacle.boundingRect_square (pos : QPointF) :
    (Obstacle.create pos).boundingRect = ⟨pos.x, pos.y, 25, 25⟩
    ∧ (Obstacle.create pos).getPosition = pos
    ∧ (Obstacle.create pos).paint = Obstacle.create pos
    ∧ (Obstacle.create pos).paint.boundingRect = ⟨pos.x, pos.y, 25, 25⟩
    ∧ ∀ o : Obstacle, o.boundingRect = ⟨o.position.x, o.position.y, 25, 25⟩
        ∧ o.paint.position = o.position ∧ o.getPosition = o.position :=
  ⟨rfl, rfl, rfl, rfl, fun _ => ⟨rfl, rfl, rfl⟩⟩

/-- C22, the code at the failing inputs: a robot with heading 350 has heading
380 after `turn(30)`, and a robot with heading 5 has heading -5 after
`turn(-10)`: the sum is not wrapped into 0..359. -/
theorem Robot.turn_leaves_range :
    ((⟨350, ⟨50, 50⟩, true, 3, 40⟩ : Robot).turn 30).direction = 380
    ∧ ((⟨5, ⟨50, 50⟩, true, 3, 40⟩ : Robot).turn (-10)).direction = -5 :=
  ⟨by decide, by decide⟩

theorem Robot.turns_direction (deltas : List ℤ) :
    ∀ r : Robot, (r.turns deltas).direction
      = r.direction + (deltas.map (fun d => Int.tmod d 360)).sum := by
  induction deltas with
  | nil => intro r; simp [Robot.turns]
  | cons d ds ih =>
    intro r
    have h := ih (r.turn d)
    simp only [Robot.turns, List.foldl_cons, List.map_cons, List.sum_cons] at h ⊢
    rw [h]
    simp only [Robot.turn, cppRem]
    ring

theorem tmod_modEq (d : ℤ) : Int.tmod d 360 ≡ d [ZMOD 360] := by
  have h := Int.tmod_add_tdiv d 360
  have h2 : d - Int.tmod d 360 = 360 * Int.tdiv d 360 := by omega
  exact (Int.modEq_iff_dvd.mpr ⟨Int.tdiv d 360, h2⟩)

theorem sum_tmod_modEq (deltas : List ℤ) :
    (deltas.map (fun d => Int.tmod d 360)).sum ≡ deltas.sum [ZMOD 360] := by
  induction deltas with
  | nil => rfl
  | cons d ds ih =>
    simp only [List.map_cons, List.sum_cons]
    exact Int.ModEq.add (tmod_modEq d) ih

/-- C28: for every initial heading `h` and every finite sequence of turn
deltas, the heading after the turns is congruent modulo 360 to `h` plus the
sum of the deltas; `turn(d)` followed by `turn(-d)` restores the robot, so its
heading, exactly. -/
theorem Robot.turns_congruent (r : Robot) (deltas : List ℤ) (d : ℤ) :
    (r.turns deltas).direction ≡ r.direction + deltas.sum [ZMOD 360]
    ∧ (r.turn d).turn (-d) = r
    ∧ ((r.turn d).turn (-d)).direction = r.direction := by
  have hback : (r.turn d).turn (-d) = r := by
    have h := cppRem_neg d 360
    cases r
    simp only [Robot.turn, h, Robot.mk.injEq, and_true]
    ring
  refine ⟨?_, hback, by rw [hback]⟩
  rw [Robot.turns_direction]
  exact Int.ModEq.add (Int.ModEq.refl _) (sum_tmod_modEq deltas)

/-! ### The prospective centre and the tested circle -/

/-- C24, as amended: the circle that `canMove` tests against other robots and
obstacles is the circle of radius 13 centred on the prospective centre; it
has the centre of the radius-12.5 footprint, which is the footprint
`Robot::boundingRect` describes for a robot standing at that centre and whose
bounding square is what `canMove` tests against the arena edges, and a radius
larger by 0.5. -/
theorem Robot.robotPath_radius (L : Lib) (r : Robot) (size : QPointF) :
    Robot.robotPath L r = .ellipse ⟨Robot.nextX L r - 13, Robot.nextY L r - 13, 26, 26⟩
    ∧ Robot.footprintPath L r
        = .ellipse ({ r with position := Robot.prospectiveCentre L r } : Robot).boundingRect
    ∧ Geometry.centre ⟨Robot.nextX L r - 13, Robot.nextY L r - 13, 26, 26⟩
        = Robot.prospectiveCentre L r
    ∧ Geometry.centre ({ r with position := Robot.prospectiveCentre L r } : Robot).boundingRect
        = Robot.prospectiveCentre L r
    ∧ Geometry.radius ⟨Robot.nextX L r - 13, Robot.nextY L r - 13, 26, 26⟩ = 13
    ∧ Geometry.radius ({ r with position := Robot.prospectiveCentre L r } : Robot).boundingRect
        = 12.5
    ∧ (Robot.footprintOutside L r size = false ↔
        0 ≤ (Robot.prospectiveCentre L r).x - 12.5
          ∧ (Robot.prospectiveCentre L r).x + 12.5 < size.x
          ∧ 0 ≤ (Robot.prospectiveCentre L r).y - 12.5
          ∧ (Robot.prospectiveCentre L r).y + 12.5 < size.y) := by
  refine ⟨rfl, rfl, ?_, ?_, ?_, ?_, ?_⟩
  · simp only [Geometry.centre, Robot.prospectiveCentre, QPointF.mk.injEq]
    constructor <;> norm_num
  · simp only [Geometry.centre, Robot.prospectiveCentre, Robot.boundingRect, QPointF.mk.injEq]
    constructor <;> norm_num
  · simp only [Geometry.radius]; norm_num
  · simp only [Geometry.radius, Robot.boundingRect]; norm_num
  · simp only [Robot.footprintOutside, Robot.prospectiveCentre, Bool.or_eq_false_iff,
      decide_eq_false_iff_not, not_le, not_lt, ge_iff_le]
    tauto

/-- C24 as stated fails: for `frontRobot` the circle `canMove` tests is not
its radius-12.5 footprint around the prospective centre `(53,50)`, and the two
are told apart by `behindRobot`, whose footprint meets the tested circle and
not the radius-12.5 footprint. -/
theorem Robot.robotPath_counterexample :
    Robot.robotPath refLib frontRobot = .ellipse ⟨40, 37, 26, 26⟩
    ∧ Robot.footprintPath refLib frontRobot = .ellipse ⟨40.5, 37.5, 25, 25⟩
    ∧ Robot.robotPath refLib frontRobot ≠ Robot.footprintPath refLib frontRobot
    ∧ refLib.intersects (.ellipse behindRobot.boundingRect) (Robot.robotPath refLib frontRobot)
        = true
    ∧ refLib.intersects (.ellipse behindRobot.boundingRect)
        (Robot.footprintPath refLib frontRobot) = false :=
  ⟨by decide!, by decide!, by decide!, by decide!, by decide!⟩

/-! ### The footprint after a move -/

/-- C25: within one tick the robots are processed in list order, each on the
state the earlier ones left; in `crossingState` the second robot may not move
on the state at the start of the tick and may move once the first robot has
moved, so the tick moves both robots, while the two-phase tick moves the first
and turns the second. -/
theorem SimulationWidget.simulate_is_sequential :
    (∀ (L : Lib) (rand : ℕ → ℕ) (s : SimulationWidget.SimState) (n : ℕ),
      SimulationWidget.simulatePrefix L rand s (n + 1)
        = SimulationWidget.simulateRobot L rand (SimulationWidget.simulatePrefix L rand s n) n)
    ∧ (∀ (L : Lib) (rand : ℕ → ℕ) (s : SimulationWidget.SimState),
      SimulationWidget.simulate L rand s
        = SimulationWidget.simulatePrefix L rand s s.environment.robots.length)
    ∧ Robot.canMove refLib crossingState.environment.robots
        crossingState.environment.obstacles crossingState.environment.size 1 = false
    ∧ Robot.canMove refLib
        (SimulationWidget.simulatePrefix refLib (fun _ => 7) crossingState 1).environment.robots
        crossingState.environment.obstacles crossingState.environment.size 1 = true
    ∧ (SimulationWidget.simulate refLib (fun _ => 7) crossingState).environment.robots
        = [⟨90, ⟨130, 72⟩, true, 3, 40⟩, ⟨0, ⟨103, 100⟩, true, 3, 40⟩]
    ∧ (SimulationWidget.simulateTwoPhase refLib (fun _ => 7) crossingState).environment.robots
        = [⟨90, ⟨130, 72⟩, true, 3, 40⟩, ⟨8, ⟨100, 100⟩, true, 3, 40⟩]
    ∧ SimulationWidget.simulate refLib (fun _ => 7) crossingState
        ≠ SimulationWidget.simulateTwoPhase refLib (fun _ => 7) crossingState :=
  ⟨SimulationWidget.simulatePrefix_succ, fun _ _ _ => rfl, by decide!, by decide!, by decide!,
    by decide!, by decide!⟩

/-! ### Fields that are not numbers -/

theorem Environment.loadLine_error_of_stoi (L : Lib) (env : Environment) (line : List Char)
    (e : StdException) (hw : wellFormedLine line)
    (hthrow : L.stoi ((tokensOf line).getD 1 []) = .error e
      ∨ ((∃ x, L.stoi ((tokensOf line).getD 1 []) = .ok x)
          ∧ L.stoi ((tokensOf line).getD 2 []) = .error e)
      ∨ ((∃ x, L.stoi ((tokensOf line).getD 1 []) = .ok x)
          ∧ (∃ y, L.stoi ((tokensOf line).getD 2 []) = .ok y)
          ∧ (tokensOf line).getD 0 [] = ['R']
          ∧ L.stoi ((tokensOf line).getD 3 []) = .error e)) :
    Environment.loadLine L env line = .error e := by
  have hlen : (tokensOf line).length ≥ 3 := by
    rcases hw with ⟨h, -⟩ | ⟨h, -⟩ <;> omega
  unfold Environment.loadLine
  dsimp only
  rw [if_pos hlen]
  rcases hthrow with hx | ⟨⟨x, hx⟩, hy⟩ | ⟨⟨x, hx⟩, ⟨y, hy⟩, htag, ha⟩
  · rw [hx]
  · rw [hx, hy]
  · rw [hx, hy]
    dsimp only
    have h4 : (tokensOf line).length = 4 := by
      rcases hw with ⟨-, h⟩ | ⟨h, -⟩
      · rw [htag] at h
        exact absurd h (by decide)
      · exact h
    rw [if_neg (by rw [htag, h4]; decide), if_pos ⟨htag, h4⟩, ha]

/-- C26, the code at the failing inputs: on the line `R,1,2,x`, which has a
valid tag and token count, `LoadObjects` does not return false: `std::stoi`
throws `invalid_argument` and the exception leaves the function; on the line
`O,12abc,5` it returns true, having created an obstacle at `(12,5)` from the
numeric prefix. -/
theorem Environment.LoadObjects_nonnumeric :
    wellFormedLine "R,1,2,x".toList
    ∧ Environment.LoadObjects refLib emptyEnvironment ⟨true, "R,1,2,x\n".toList⟩
        = .error .invalid_argument
    ∧ wellFormedLine "O,12abc,5".toList
    ∧ Environment.LoadObjects refLib emptyEnvironment ⟨true, "O,12abc,5\n".toList⟩
        = .ok ({ emptyEnvironment with obstacles := [⟨⟨12, 5⟩⟩] }, true) :=
  ⟨by decide, by decide!, by decide, by decide!⟩

/-! ### The interval of the timer -/

/-- C30, the code at the failing inputs: started with multiplier 1 the timer
runs with interval 50, changed to multiplier 1 while running it runs with
interval 100; with multiplier 2 the intervals are 25 and 50. -/
theorem SimulationWidget.timer_interval_differs :
    (SimulationWidget.ppButton_clicked 1 ⟨false, none⟩).interval = some 50
    ∧ (SimulationWidget.multiplySpin_valueChanged 1
        (SimulationWidget.ppButton_clicked 2 ⟨false, none⟩)).interval = some 100
    ∧ (SimulationWidget.ppButton_clicked 2 ⟨false, none⟩).interval = some 25
    ∧ (SimulationWidget.multiplySpin_valueChanged 2
        (SimulationWidget.ppButton_clicked 1 ⟨false, none⟩)).interval = some 50
    ∧ (SimulationWidget.ppButton_clicked 1 ⟨false, none⟩).simulationRunning = true
    ∧ (SimulationWidget.multiplySpin_valueChanged 1
        (SimulationWidget.ppButton_clicked 2 ⟨false, none⟩)).simulationRunning = true :=
  ⟨by decide!, by decide!, by decide!, by decide!, by decide!, by decide!⟩

/-! ### The editor keeps its entities apart -/

theorem apart_symm {p q : QPointF} (h : apart p q) : apart q p := by
  unfold apart at h ⊢
  rwa [abs_sub_comm q.x p.x, abs_sub_comm q.y p.y]

theorem refRectOps_sound : refRectOps.Sound := by
  intro a b haw hah hbw hbh h
  have h1 : refRectOps.intersects a b = RefRect.intersects a b := rfl
  rw [h1] at h
  simp only [RefRect.intersects, RefRect.low, RefRect.high, if_neg (not_lt.mpr haw.le),
    if_neg (not_lt.mpr hah.le), if_neg (not_lt.mpr hbw.le), if_neg (not_lt.mpr hbh.le)] at h
  by_contra hcon
  push_neg at hcon
  obtain ⟨c1, c2, c3, c4⟩ := hcon
  rw [if_neg (by linarith), if_neg (by linarith), if_neg (by push_neg; constructor <;> linarith),
    if_neg (by linarith), if_neg (by linarith),
    if_neg (by push_neg; constructor <;> linarith)] at h
  exact Bool.noConfusion h

theorem apart_of_not_intersects (R : RectOps) (hR : R.Sound) (ux uy vx vy : ℚ)
    (h : R.intersects ⟨ux, uy, 25, 25⟩ ⟨vx, vy, 25, 25⟩ = false) :
    25 ≤ |vx - ux| ∨ 25 ≤ |vy - uy| := by
  rcases hR ⟨ux, uy, 25, 25⟩ ⟨vx, vy, 25, 25⟩ (by norm_num) (by norm_num) (by norm_num)
    (by norm_num) h with h1 | h1 | h1 | h1 <;> simp only at h1
  · left
    exact le_trans (by linarith) (le_abs_self _)
  · left
    exact le_trans (by linarith) (neg_le_abs _)
  · right
    exact le_trans (by linarith) (le_abs_self _)
  · right
    exact le_trans (by linarith) (neg_le_abs _)

theorem CustomGraphicsScene.apart_of_checkPosition (R : RectOps) (hR : R.Sound)
    (scene : CustomGraphicsScene) (p : QPointF)
    (h : CustomGraphicsScene.checkPosition R scene p = 0) :
    (∀ r ∈ scene.robots, apart r.position p) ∧ (∀ o ∈ scene.obstacles, apart o.position p) := by
  unfold CustomGraphicsScene.checkPosition at h
  by_cases h1 : (scene.robots.any fun robot =>
      R.intersects ⟨p.x - 12.5, p.y - 12.5, 25, 25⟩ robot.boundingRect) = true
  · rw [if_pos h1] at h
    exact absurd h (by decide)
  rw [if_neg h1] at h
  by_cases h2 : (scene.obstacles.any fun obstacle =>
      R.intersects ⟨p.x, p.y, 25, 25⟩ obstacle.boundingRect) = true
  · rw [if_pos h2] at h
    exact absurd h (by decide)
  constructor
  · intro r hr
    have hx : R.intersects ⟨p.x - 12.5, p.y - 12.5, 25, 25⟩ r.boundingRect = false := by
      rw [← Bool.not_eq_true]
      exact fun hc => h1 (List.any_eq_true.mpr ⟨r, hr, hc⟩)
    have := apart_of_not_intersects R hR _ _ _ _ hx
    unfold apart
    rcases this with h3 | h3
    · left
      rw [show r.position.x - p.x = r.position.x - 12.5 - (p.x - 12.5) by ring]
      exact h3
    · right
      rw [show r.position.y - p.y = r.position.y - 12.5 - (p.y - 12.5) by ring]
      exact h3
  · intro o ho
    have hx : R.intersects ⟨p.x, p.y, 25, 25⟩ o.boundingRect = false := by
      rw [← Bool.not_eq_true]
      exact fun hc => h2 (List.any_eq_true.mpr ⟨o, ho, hc⟩)
    exact apart_of_not_intersects R hR _ _ _ _ hx

theorem CustomGraphicsScene.turnFirst_positions (L : Lib) (rect : QRectF) :
    ∀ robots : List Robot,
      (CustomGraphicsScene.turnFirst L rect robots).map (fun r => r.position)
        = robots.map (fun r => r.position) := by
  intro robots
  induction robots with
  | nil => rfl
  | cons r rest ih =>
    unfold CustomGraphicsScene.turnFirst
    split_ifs
    · rfl
    · simp only [List.map_cons, ih]

theorem CustomGraphicsScene.eraseLast_sublist {α : Type} (p : α → Bool) :
    ∀ (l l' : List α), CustomGraphicsScene.eraseLast p l = some l' → l'.Sublist l := by
  intro l
  induction l with
  | nil => intro l' h; simp [CustomGraphicsScene.eraseLast] at h
  | cons a rest ih =>
    intro l' h
    unfold CustomGraphicsScene.eraseLast at h
    cases he : CustomGraphicsScene.eraseLast p rest with
    | some rest' =>
      rw [he] at h
      simp only [Option.some.injEq] at h
      rw [← h]
      exact (ih rest' he).cons₂ a
    | none =>
      rw [he] at h
      split_ifs at h
      simp only [Option.some.injEq] at h
      rw [← h]
      exact List.sublist_cons_self a rest

theorem CustomGraphicsScene.separated_call (L : Lib) (R : RectOps) (hR : R.Sound)
    (scene : CustomGraphicsScene) (c : CustomGraphicsScene.EditorCall)
    (h : (CustomGraphicsScene.entityPositions scene).Pairwise apart) :
    (CustomGraphicsScene.entityPositions (CustomGraphicsScene.call L R scene c)).Pairwise
      apart := by
  unfold CustomGraphicsScene.entityPositions at h ⊢
  obtain ⟨hr, ho, hro⟩ := List.pairwise_append.mp h
  cases c with
  | addObstacle p =>
    simp only [CustomGraphicsScene.call, CustomGraphicsScene.AddObstacle]
    split_ifs with hc
    · exact h
    · push_neg at hc
      obtain ⟨h1, h2⟩ := CustomGraphicsScene.apart_of_checkPosition R hR scene p hc
      simp only [List.map_append, List.map_cons, List.map_nil, Obstacle.create]
      rw [← List.append_assoc]
      refine List.pairwise_append.mpr ⟨h, List.pairwise_singleton _ _, ?_⟩
      intro a ha b hb
      simp only [List.mem_singleton] at hb
      subst hb
      simp only [List.mem_append, List.mem_map] at ha
      rcases ha with ⟨r, hr', rfl⟩ | ⟨o, ho', rfl⟩
      · exact h1 r hr'
      · exact h2 o ho'
  | addControlledRobot p =>
    simp only [CustomGraphicsScene.call, CustomGraphicsScene.AddControlledRobot]
    split_ifs with hc
    · simp only [CustomGraphicsScene.turnFirst_positions]
      exact h
    · push_neg at hc
      obtain ⟨h1, h2⟩ := CustomGraphicsScene.apart_of_checkPosition R hR scene p hc
      simp only [List.map_append, List.map_cons, List.map_nil, Robot.create]
      refine List.pairwise_append.mpr ⟨?_, ho, ?_⟩
      · refine List.pairwise_append.mpr ⟨hr, List.pairwise_singleton _ _, ?_⟩
        intro a ha b hb
        simp only [List.mem_singleton] at hb
        subst hb
        simp only [List.mem_map] at ha
        obtain ⟨r, hr', rfl⟩ := ha
        exact h1 r hr'
      · intro a ha b hb
        simp only [List.mem_append, List.mem_singleton] at ha
        rcases ha with ha | rfl
        · exact hro a ha b hb
        · simp only [List.mem_map] at hb
          obtain ⟨o, ho', rfl⟩ := hb
          exact apart_symm (h2 o ho')
  | deleteObject p =>
    simp only [CustomGraphicsScene.call, CustomGraphicsScene.DeleteObject]
    cases he : CustomGraphicsScene.eraseLast
        (fun r : Robot => R.contains r.boundingRect p) scene.robots with
    | some robots =>
      exact List.Pairwise.sublist
        (List.Sublist.append ((CustomGraphicsScene.eraseLast_sublist _ _ _ he).map _)
          (List.Sublist.refl _)) h
    | none =>
      cases he2 : CustomGraphicsScene.eraseLast
          (fun o : Obstacle => R.contains o.boundingRect p) scene.obstacles with
      | some obstacles =>
        exact List.Pairwise.sublist
          (List.Sublist.append (List.Sublist.refl _)
            ((CustomGraphicsScene.eraseLast_sublist _ _ _ he2).map _)) h
      | none => exact h

theorem CustomGraphicsScene.separated_calls (L : Lib) (R : RectOps) (hR : R.Sound)
    (cs : List CustomGraphicsScene.EditorCall) :
    ∀ scene : CustomGraphicsScene,
      (CustomGraphicsScene.entityPositions scene).Pairwise apart →
      (CustomGraphicsScene.entityPositions (CustomGraphicsScene.calls L R scene cs)).Pairwise
        apart := by
  induction cs with
  | nil => intro scene h; exact h
  | cons c cs ih =>
    intro scene h
    exact ih _ (CustomGraphicsScene.separated_call L R hR scene c h)

/-- C29: in the editor scene, starting from `CreateRoom` and after any
sequence of calls of `AddObstacle`, `AddControlledRobot` and `DeleteObject`,
every two distinct stored entities, robots or obstacles in any combination,
have positions that differ by at least 25 in `x` or by at least 25 in `y`. -/
theorem CustomGraphicsScene.entities_apart (L : Lib) (R : RectOps) (hR : R.Sound)
    (width height : ℤ) (cs : List CustomGraphicsScene.EditorCall) (i j : ℕ) (p q : QPointF)
    (hij : i ≠ j)
    (hp : (CustomGraphicsScene.entityPositions
      (CustomGraphicsScene.calls L R (CustomGraphicsScene.CreateRoom width height) cs))[i]?
        = some p)
    (hq : (CustomGraphicsScene.entityPositions
      (CustomGraphicsScene.calls L R (CustomGraphicsScene.CreateRoom width height) cs))[j]?
        = some q) :
    25 ≤ |p.x - q.x| ∨ 25 ≤ |p.y - q.y| := by
  have h := CustomGraphicsScene.separated_calls L R hR cs
    (CustomGraphicsScene.CreateRoom width height) (by
      simp [CustomGraphicsScene.entityPositions, CustomGraphicsScene.CreateRoom])
  rw [List.pairwise_iff_getElem] at h
  obtain ⟨hi, hpe⟩ := List.getElem?_eq_some_iff.mp hp
  obtain ⟨hj, hqe⟩ := List.getElem?_eq_some_iff.mp hq
  rcases Nat.lt_or_gt_of_ne hij with hlt | hlt
  · have := h i j hi hj hlt
    rw [hpe, hqe] at this
    exact this
  · have := h j i hj hi hlt
    rw [hpe, hqe] at this
    exact apart_symm this

theorem CustomGraphicsScene.entities_apart_witness :
    CustomGraphicsScene.entityPositions
        (CustomGraphicsScene.calls refLib refRectOps (CustomGraphicsScene.CreateRoom 800 600)
          editorSession) = [⟨200, 100⟩, ⟨125, 100⟩]
    ∧ (25 ≤ |(⟨200, 100⟩ : QPointF).x - (⟨125, 100⟩ : QPointF).x|
        ∨ 25 ≤ |(⟨200, 100⟩ : QPointF).y - (⟨125, 100⟩ : QPointF).y|) :=
  ⟨by decide!,
    CustomGraphicsScene.entities_apart refLib refRectOps refRectOps_sound 800 600 editorSession
      0 1 ⟨200, 100⟩ ⟨125, 100⟩ (by decide) (by decide!) (by decide!)⟩
